import Mathlib

/-!
# q3DMASC — neighbourhood statistics and scalar-field algebra

A shallow embedding of `src/Features.cpp` and `src/FeaturesInterface.h`.

Numeric model.  A C++ `double` / `float` / `ScalarType` is a `Val α`: the quiet NaN
(the "sentinel missing value", `NAN_VALUE`), a finite number of an ordered field `α`
(exact arithmetic; `ℚ` for evaluation, `ℝ` for the analytic reading), or one of the two
infinities.  NaN propagates through arithmetic and every ordered comparison involving it is
false, as in IEEE 754; the infinities follow IEEE 754 too (`∞ - ∞`, `∞ * 0` and `∞ / ∞` are
NaN).  Rounding, overflow of finite operands and signed zeros are not represented; widening
and narrowing conversions between `double` and `ScalarType` are the identity, except the
`static_cast<float>` that builds the MODE bucket key, which is kept as the parameter
`Numerics.toFloat`.

Integers.  The `unsigned` counters and indices of the sources (number of neighbours,
bucket counts, loop indices) are natural numbers: each is bounded by the size of a
container, so no wrap-around occurs.

State.  A pointer to a cloud is its address in the state, a pointer to a scalar field is
the cloud that holds it and its index there; `nullptr` is `none`.  Reference counting
(`link`, `release`) is not modelled: a new field that is released is dropped, a field a
cloud holds stays in the cloud.
-/

set_option linter.unusedSectionVars false
set_option linter.unusedVariables false

namespace masc

/-! ## Numbers -/

/-- A floating-point value in exact arithmetic: NaN, a finite number, or one of the two
infinities. -/
inductive Val (α : Type) where
  | nan : Val α
  | num : α → Val α
  | pinf : Val α
  | ninf : Val α
  deriving DecidableEq, Repr

namespace Val

variable {α : Type} [LinearOrderedField α]

/-- The infinity that has the sign of a number, NaN for zero: the product of an infinity by
that number. -/
def infOfSign (a : α) : Val α :=
  if 0 < a then pinf else if a < 0 then ninf else nan

/-- Sum `a + b`: NaN is absorbing and opposite infinities add up to NaN. -/
def add : Val α → Val α → Val α
  | num a, num b => num (a + b)
  | num _, pinf => pinf
  | num _, ninf => ninf
  | pinf, num _ => pinf
  | pinf, pinf => pinf
  | ninf, num _ => ninf
  | ninf, ninf => ninf
  | _, _ => nan

/-- Difference `a - b`: NaN is absorbing and equal infinities subtract to NaN. -/
def sub : Val α → Val α → Val α
  | num a, num b => num (a - b)
  | num _, pinf => ninf
  | num _, ninf => pinf
  | pinf, num _ => pinf
  | pinf, ninf => pinf
  | ninf, num _ => ninf
  | ninf, pinf => ninf
  | _, _ => nan

/-- Product `a * b`: NaN is absorbing and an infinity times zero is NaN. -/
def mul : Val α → Val α → Val α
  | num a, num b => num (a * b)
  | num a, pinf => infOfSign a
  | num a, ninf => infOfSign (-a)
  | pinf, num b => infOfSign b
  | ninf, num b => infOfSign (-b)
  | pinf, pinf => pinf
  | ninf, ninf => pinf
  | pinf, ninf => ninf
  | ninf, pinf => ninf
  | _, _ => nan

instance : Add (Val α) := ⟨add⟩
instance : Sub (Val α) := ⟨sub⟩
instance : Mul (Val α) := ⟨mul⟩

/-- Quotient `a / b`: NaN is absorbing, `0 / 0` and the quotient of two infinities are NaN,
a number over an infinity is `0`.  Signed zeros are not represented: a zero divisor is
taken as `+0` (the code never divides by zero, see the SKEW and DIVIDE theorems). -/
def div : Val α → Val α → Val α
  | num a, num b => if b = 0 then infOfSign a else num (a / b)
  | num _, pinf => num 0
  | num _, ninf => num 0
  | pinf, num b => if b < 0 then ninf else pinf
  | ninf, num b => if b < 0 then pinf else ninf
  | _, _ => nan

instance : Div (Val α) := ⟨div⟩

/-- The value of `std::abs`. -/
def abs : Val α → Val α
  | num a => num |a|
  | pinf => pinf
  | ninf => pinf
  | nan => nan

/-- The comparison `a < b` of C++: false as soon as one side is NaN. -/
def lt : Val α → Val α → Bool
  | num a, num b => decide (a < b)
  | num _, pinf => true
  | ninf, num _ => true
  | ninf, pinf => true
  | _, _ => false

/-- The comparison `a > b` of C++. -/
def gt (a b : Val α) : Bool := lt b a

/-- Conversion of an `unsigned` count to `double` (exact). -/
def ofNat (n : Nat) : Val α := num (n : α)

end Val

/-- The numeric primitives the sources take from the C++ library and the CCLib type
declarations. -/
structure Numerics (α : Type) where
  /-- The function `sqrt` of `<cmath>` on non-negative numbers. -/
  sqrt : α → α
  /-- The conversion `static_cast<float>` on numbers. -/
  toFloat : α → α
  /-- The text `QString::number(scale)`. -/
  numberToString : α → String

/-- The constant `std::numeric_limits<float>::epsilon()`, that is `2⁻²³`. -/
def floatEpsilon {α : Type} [LinearOrderedField α] : α := 1 / 2 ^ 23

namespace Numerics

variable {α : Type} [LinearOrderedField α]

/-- The function `sqrt` on a `double`. -/
def vsqrt (N : Numerics α) : Val α → Val α
  | Val.num a => Val.num (N.sqrt a)
  | Val.pinf => Val.pinf
  | Val.ninf => Val.nan
  | Val.nan => Val.nan

/-- The conversion `static_cast<float>` on a `double`. -/
def vtoFloat (N : Numerics α) : Val α → Val α
  | Val.num a => Val.num (N.toFloat a)
  | Val.pinf => Val.pinf
  | Val.ninf => Val.ninf
  | Val.nan => Val.nan

end Numerics

/-! ## FeaturesInterface.h: the descriptor enumerations -/

/-- The enumeration `Feature::Type`. -/
inductive FeatureType where
  | PointFeature
  | NeighborhoodFeature
  | ContextBasedFeature
  | DualCloudFeature
  | Invalid
  deriving DecidableEq, Repr

/-- The enumeration `Feature::Stat`. -/
inductive Stat where
  | NO_STAT
  | MEAN
  | MODE
  | STD
  | RANGE
  | SKEW
  deriving DecidableEq, Repr

/-- The function `Feature::StatToString`. -/
def StatToString : Stat → String
  | Stat.MEAN => "MEAN"
  | Stat.MODE => "MODE"
  | Stat.STD => "STD"
  | Stat.RANGE => "RANGE"
  | Stat.SKEW => "SKEW"
  | Stat.NO_STAT => ""

/-- The enumeration `Feature::Operation`. -/
inductive Operation where
  | NO_OPERATION
  | MINUS
  | PLUS
  | DIVIDE
  | MULTIPLY
  deriving DecidableEq, Repr

/-- The function `Feature::OpToString`. -/
def OpToString : Operation → String
  | Operation.MINUS => "MINUS"
  | Operation.PLUS => "PLUS"
  | Operation.DIVIDE => "DIVIDE"
  | Operation.MULTIPLY => "MULTIPLY"
  | Operation.NO_OPERATION => ""

/-! ## Collaborators of `ExtractStatFromSF` -/

/-- A 3-D point (`CCVector3`). -/
structure CCVector3 (α : Type) where
  x : α
  y : α
  z : α

/-- The interface `IScalarFieldWrapper`: a named, index-addressable source of values. -/
structure IScalarFieldWrapper (α : Type) where
  getName : String
  pointValue : Nat → Val α

/-- The part of `CCLib::DgmOctree` the sources use.  The spherical query returns the
point indices of the `kNN` neighbours, in the order of `pointsInNeighbourhood`. -/
structure DgmOctree (α : Type) where
  findNeighborsInASphereStartingFromCell : CCVector3 α → Nat → Val α → List Nat
  findBestLevelForAGivenNeighbourhoodSizeExtraction : Val α → Nat

/-! ## The `QMap<float, unsigned>` of the MODE statistic

The map is its list of entries in iteration order.  Lookup follows Qt: descend to the
first entry whose key is not less than the searched key (the lower bound), which matches
when the searched key is not less than it either. -/

section QMap

variable {α : Type} [LinearOrderedField α]

/-- The method `QMap::contains`. -/
def QMap.contains : List (Val α × Nat) → Val α → Bool
  | [], _ => false
  | (k', _) :: m, k => if Val.lt k' k then QMap.contains m k else !(Val.lt k k')

/-- The access `map[k]` followed by an update `f` of the referenced counter: the entry
of `k` is created with the default counter `0` when the key is absent. -/
def QMap.modify (f : Nat → Nat) : List (Val α × Nat) → Val α → List (Val α × Nat)
  | [], k => [(k, f 0)]
  | (k', c) :: m, k =>
    if Val.lt k' k then (k', c) :: QMap.modify f m k
    else if Val.lt k k' then (k, f 0) :: (k', c) :: m
    else (k', f c) :: m

end QMap

/-! ## Features.cpp: `ExtractStatFromSF` -/

section ExtractStatFromSF

variable {α : Type} [LinearOrderedField α]

/-- The RANGE loop (lines 211-228): `k` is the loop counter, the state is
`(minValue, maxValue)`. -/
def rangeLoop (inputField : IScalarFieldWrapper α) :
    List Nat → Nat → Val α × Val α → Val α × Val α
  | [], _, st => st
  | index :: rest, k, (minValue, maxValue) =>
    let v := inputField.pointValue index
    let st :=
      if k ≠ 0 then
        if Val.lt v minValue then (v, maxValue)
        else if Val.gt v maxValue then (minValue, v)
        else (minValue, maxValue)
      else (v, v)
    rangeLoop inputField rest (k + 1) st

/-- The accumulation loop (lines 240-266); the state is `(sum, sum2, modeCounter)`. -/
def statLoop (N : Numerics α) (withSums withMode : Bool) (inputField : IScalarFieldWrapper α) :
    List Nat → Val α × Val α × List (Val α × Nat) → Val α × Val α × List (Val α × Nat)
  | [], st => st
  | index :: rest, (sum, sum2, modeCounter) =>
    let v := inputField.pointValue index
    let (sum, sum2) := if withSums then (sum + v, sum2 + v * v) else (sum, sum2)
    let modeCounter :=
      if withMode then
        let vf := N.vtoFloat v
        if QMap.contains modeCounter vf then QMap.modify (· + 1) modeCounter vf
        else QMap.modify (fun _ => 1) modeCounter vf
      else modeCounter
    statLoop N withSums withMode inputField rest (sum, sum2, modeCounter)

/-- The search of the most frequent bucket (lines 272-280); the state is
`(maxCounter, mode)`. -/
def modeLoop : List (Val α × Nat) → Nat × Val α → Nat × Val α
  | [], st => st
  | (key, value) :: rest, (maxCounter, mode) =>
    if value > maxCounter then modeLoop rest (value, key)
    else modeLoop rest (maxCounter, mode)

/-- The function `ExtractStatFromSF` (lines 173-315).  The result is the returned flag
and the final content of the in-out parameter `outputValue`. -/
def ExtractStatFromSF (N : Numerics α) (queryPoint : CCVector3 α)
    (octree : Option (DgmOctree α)) (octreeLevel : Nat) (stat : Stat)
    (inputField : IScalarFieldWrapper α) (radius : Val α) (outputValue : Val α) :
    Bool × Val α :=
  match octree with
  | none => (false, outputValue)
  | some oct =>
    let outputValue : Val α := Val.nan
    let pointsInNeighbourhood :=
      oct.findNeighborsInASphereStartingFromCell queryPoint octreeLevel radius
    let kNN := pointsInNeighbourhood.length
    if kNN = 0 then (true, outputValue)
    else if stat = Stat.RANGE then
      let mm := rangeLoop inputField pointsInNeighbourhood 0 (Val.num 0, Val.num 0)
      (true, mm.2 - mm.1)
    else
      let withSums := decide (stat = Stat.MEAN ∨ stat = Stat.STD ∨ stat = Stat.SKEW)
      let withMode := decide (stat = Stat.MODE ∨ stat = Stat.SKEW)
      let acc := statLoop N withSums withMode inputField pointsInNeighbourhood
        (Val.num 0, Val.num 0, [])
      let sum := acc.1
      let sum2 := acc.2.1
      let modeCounter := acc.2.2
      let mode : Val α := if withMode then (modeLoop modeCounter (0, Val.nan)).2 else Val.nan
      match stat with
      | Stat.MEAN => (true, sum / Val.ofNat kNN)
      | Stat.MODE => (true, mode)
      | Stat.STD => (true, N.vsqrt (Val.abs (sum2 * Val.ofNat kNN - sum * sum)) / Val.ofNat kNN)
      | Stat.RANGE => (false, outputValue)
      | Stat.SKEW =>
        let mean := sum / Val.ofNat kNN
        let std := N.vsqrt (Val.abs (sum2 / Val.ofNat kNN - mean * mean))
        if Val.gt std (Val.num floatEpsilon) then (true, (mean - mode) / std)
        else (true, outputValue)
      | Stat.NO_STAT => (false, outputValue)

end ExtractStatFromSF

/-! ### Reference functions used to state the RANGE and MODE results -/

section Buckets

variable {α : Type} [LinearOrderedField α]

/-- The greatest value of a list, by a full scan (`0` for the empty list). -/
def fullScanMax : List α → α
  | [] => 0
  | v :: vs => vs.foldl max v

/-- The least value of a list, by a full scan (`0` for the empty list). -/
def fullScanMin : List α → α
  | [] => 0
  | v :: vs => vs.foldl min v

/-- The counting of one bucket in a key-sorted list of counters over numbers. -/
def bucketIns (b : α) : List (α × Nat) → List (α × Nat)
  | [] => [(b, 1)]
  | (k, c) :: m =>
    if k < b then (k, c) :: bucketIns b m
    else if b < k then (b, 1) :: (k, c) :: m
    else (k, c + 1) :: m

/-- A list of counters over numbers seen as a `QMap<float, unsigned>`. -/
def liftMap (m : List (α × Nat)) : List (Val α × Nat) :=
  m.map (fun e => (Val.num e.1, e.2))

/-- The counter recorded for a key (`0` when the key is absent). -/
def cnt : List (α × Nat) → α → Nat
  | [], _ => 0
  | (k, c) :: m, b => if k = b then c else cnt m b

end Buckets

/-! ## FeaturesInterface.h: the descriptor -/

/-- The enumeration `Feature::Source`. -/
inductive Source where
  | ScalarField
  | DimX
  | DimY
  | DimZ
  | Red
  | Green
  | Blue
  deriving DecidableEq, Repr

/-- The members of `struct Feature`.  A cloud pointer is the address of the cloud in the
state (`none` for `nullptr`); `getType` is the result of the virtual method. -/
structure Feature (α : Type) where
  scale : Val α
  cloud1 : Option Nat
  cloud2 : Option Nat
  cloud1Label : String
  cloud2Label : String
  source : Source
  sourceName : String
  stat : Stat
  op : Operation
  getType : FeatureType

section FeatureMethods

variable {α : Type} [LinearOrderedField α]

/-- The test `std::isfinite`. -/
def Val.isfinite : Val α → Bool
  | Val.num _ => true
  | _ => false

/-- The method `Feature::scaled`. -/
def Feature.scaled (f : Feature α) : Bool := Val.isfinite f.scale

/-- The method `Feature::checkValidity` (lines 145-203 of the header); the result is the
returned flag and the final content of `error`. -/
def Feature.checkValidity (f : Feature α) (error : String) : Bool × String :=
  let cloudCount : Nat :=
    if f.cloud1.isSome then (if f.cloud2.isSome then 2 else 1) else 0
  if cloudCount = 0 then
    (false, "feature has no associated cloud")
  else if f.scaled && f.stat = Stat.NO_STAT then
    (false, "scaled features need a STAT measure to be defined")
  else if f.stat ≠ Stat.NO_STAT ∧ f.getType ≠ FeatureType.PointFeature then
    (false, "STAT measures can only be defined on Point features")
  else if f.stat ≠ Stat.NO_STAT ∧ !f.scaled then
    (false, "STAT measures need at least one scale to be defined")
  else if f.op ≠ Operation.NO_OPERATION ∧ !f.scaled then
    (false, "math operations can't be defined on scale-less features (SC0)")
  else if f.op ≠ Operation.NO_OPERATION ∧ f.getType = FeatureType.DualCloudFeature then
    (false, "math operations can't be defined on dual-cloud features")
  else if f.op ≠ Operation.NO_OPERATION ∧ cloudCount < 2 then
    (false, "at least two clouds are required to apply math operations")
  else if (f.getType = FeatureType.DualCloudFeature
      ∨ f.getType = FeatureType.ContextBasedFeature) ∧ cloudCount < 2 then
    (false, "at least two clouds are required to compute dual-cloud or context-based features")
  else
    (true, error)

end FeatureMethods

/-! ## The state: clouds and their scalar fields -/

/-- A `CCLib::ScalarField`: a named array of `ScalarType` values.  The cached minimum and
maximum (`computeMinAndMax`) are not part of the model. -/
structure ScalarField (α : Type) where
  name : String
  values : List (Val α)

/-- The colour bands of `ColorScalarFieldWrapper`. -/
inductive Band where
  | Red
  | Green
  | Blue
  deriving DecidableEq, Repr

/-- The two angles of `NormDipAndDipDirFieldWrapper`. -/
inductive DipMode where
  | Dip
  | DipDir
  deriving DecidableEq, Repr

/-- The three coordinates of `DimScalarFieldWrapper`. -/
inductive Dim where
  | DimX
  | DimY
  | DimZ
  deriving DecidableEq, Repr

/-- The part of a `ccPointCloud` the sources use: its points (`size()` is their number),
its scalar fields in index order, its octree when computed, whether it has normals, and
the per-point values read from its colours and normals.  The display is not modelled. -/
structure ccPointCloud (α : Type) where
  points : List (CCVector3 α)
  scalarFields : List (ScalarField α)
  octree : Option (DgmOctree α)
  hasNormals : Bool
  colorValue : Band → Nat → Val α
  normalAngle : DipMode → Nat → Val α

/-- The address of a scalar field held by a cloud: the cloud and the index in the cloud. -/
structure SFPtr where
  cloud : Nat
  index : Nat
  deriving DecidableEq, Repr

/-- The state the functions act on: the clouds by address, the number of field
allocations requested so far and the number of polls of the progress callback so far. -/
structure World (α : Type) where
  clouds : Nat → ccPointCloud α
  allocations : Nat
  polls : Nat

section WorldOps

variable {α : Type} [LinearOrderedField α]

/-- The method `ccPointCloud::size`. -/
def ccPointCloud.size (c : ccPointCloud α) : Nat := c.points.length

/-- The method `ScalarField::size` (`currentSize`). -/
def ScalarField.size (sf : ScalarField α) : Nat := sf.values.length

/-- The method `ScalarField::getValue`. -/
def ScalarField.getValue (sf : ScalarField α) (i : Nat) : Val α := sf.values.getD i Val.nan

/-- The method `ScalarField::setValue`. -/
def ScalarField.setValue (sf : ScalarField α) (i : Nat) (v : Val α) : ScalarField α :=
  { sf with values := sf.values.set i v }

/-- The method `ScalarField::fill`. -/
def ScalarField.fill (sf : ScalarField α) (v : Val α) : ScalarField α :=
  { sf with values := List.replicate sf.values.length v }

/-- The field a pointer designates. -/
def World.sf? (w : World α) (p : SFPtr) : Option (ScalarField α) :=
  (w.clouds p.cloud).scalarFields[p.index]?

/-- Replaces one cloud of the state. -/
def World.setCloud (w : World α) (id : Nat) (c : ccPointCloud α) : World α :=
  { w with clouds := fun j => if j = id then c else w.clouds j }

/-- Stores a field through a pointer. -/
def World.setSF (w : World α) (p : SFPtr) (sf : ScalarField α) : World α :=
  w.setCloud p.cloud
    { w.clouds p.cloud with scalarFields := (w.clouds p.cloud).scalarFields.set p.index sf }

/-- The call `fill(v)` on the field a pointer designates. -/
def World.fillSF (w : World α) (p : SFPtr) (v : Val α) : World α :=
  match w.sf? p with
  | some sf => w.setSF p (sf.fill v)
  | none => w

end WorldOps

/-! ## Features.cpp: `PerformMathOp` -/

section PerformMathOp

variable {α : Type} [LinearOrderedField α]

/-- The constant `std::numeric_limits<ScalarType>::epsilon()`.  `ScalarType` is `float`
here: line 273 iterates the `QMap<float, unsigned>` with a
`QMap<ScalarType, unsigned>::const_iterator`. -/
def scalarEpsilon : α := floatEpsilon

/-- The body of the `switch` of lines 420-439: the value `s` stored at one index. -/
def mathOpValue (op : Operation) (s1 s2 : Val α) : Val α :=
  match op with
  | Operation.MINUS => s1 - s2
  | Operation.PLUS => s1 + s2
  | Operation.DIVIDE =>
    if Val.gt (Val.abs s2) (Val.num scalarEpsilon) then s1 / s2 else Val.nan
  | Operation.MULTIPLY => s1 * s2
  | Operation.NO_OPERATION => Val.nan

/-- One iteration of the loop of lines 416-441: both fields are read through their
pointers in the current state, then the first one is written. -/
def mathOpStep (op : Operation) (p1 p2 : SFPtr) (w : World α) (i : Nat) : World α :=
  match w.sf? p1, w.sf? p2 with
  | some sf1, some sf2 =>
    w.setSF p1 (sf1.setValue i (mathOpValue op (sf1.getValue i) (sf2.getValue i)))
  | _, _ => w

/-- The function `PerformMathOp` (lines 408-445).  A pointer that designates no field is
treated as `nullptr`. -/
def PerformMathOp (w : World α) (sf1 sf2 : Option SFPtr) (op : Operation) : Bool × World α :=
  match sf1, sf2 with
  | some p1, some p2 =>
    match w.sf? p1, w.sf? p2 with
    | some f1, some f2 =>
      if f1.size ≠ f2.size ∨ op = Operation.NO_OPERATION then (false, w)
      else (true, (List.range f1.size).foldl (mathOpStep op p1 p2) w)
    | _, _ => (false, w)
  | _, _ => (false, w)

end PerformMathOp

/-! ## The environment of `prepare` -/

/-- The outcome of a run: `fault` when the run leaves the function abnormally (a null
dereference or an out-of-range access), `done` with its results otherwise. -/
inductive Run (β : Type) where
  | fault : Run β
  | done : β → Run β

/-- The constants and library services the sources refer to without defining them: the
LAS field names (`LASFields.h`), the name comparison of `Tools::RetrieveSF` (its third
argument tells whether it is case sensitive), the names of the computed wrappers
(`ScalarFieldWrappers.h`), the octree construction (which may fail) and the allocator
(`resizeSafe` of the `n`-th requested field to `count` values, which may fail). -/
structure Env (α : Type) where
  LAS_INTENSITY : String
  LAS_NUMBER_OF_RETURNS : String
  LAS_RETURN_NUMBER : String
  sameName : Bool → String → String → Bool
  dimName : Dim → String
  colorName : Band → String
  dipName : DipMode → String
  computeOctree : Nat → ccPointCloud α → Option (DgmOctree α)
  resizeSafe : Nat → Nat → Bool

/-- Modelled from the spec: `CorePoints` (CorePoints.h is not among the sources): the
core-points cloud, the origin cloud and, for each core point, the index of its point in
the origin cloud. -/
structure CorePoints where
  cloud : Option Nat
  origin : Option Nat
  originIndexes : List Nat

/-- Modelled from the spec: the method `CorePoints::size`. -/
def CorePoints.size (cp : CorePoints) : Nat := cp.originIndexes.length

/-- Modelled from the spec: the method `CorePoints::originIndex`. -/
def CorePoints.originIndex (cp : CorePoints) (i : Nat) : Nat := cp.originIndexes.getD i 0

/-- The enumeration `PointFeature::PointFeatureType`, from the cases of the `switch` of
`retrieveField` (Features.h is not among the sources); `Invalid` stands for any value
the `switch` does not handle. -/
inductive PointFeatureType where
  | Intensity
  | X
  | Y
  | Z
  | NbRet
  | RetNb
  | EchoRat
  | R
  | G
  | B
  | NIR
  | DipAng
  | DipDir
  | M3C2
  | PCV
  | SF
  | Invalid
  deriving DecidableEq, Repr

/-- The members of `struct PointFeature` the sources use. -/
structure PointFeature (α : Type) extends Feature α where
  type : PointFeatureType
  sourceSFIndex : Int

/-- What a wrapper reads. -/
inductive WrapperSource where
  | direct (sf : SFPtr)
  | dimension (cloud : Nat) (dim : Dim)
  | color (cloud : Nat) (band : Band)
  | quotient (p q : SFPtr)
  | derivedAngle (cloud : Nat) (mode : DipMode)
  deriving DecidableEq, Repr

/-- Modelled from the spec: the wrappers of ScalarFieldWrappers.h (not among the sources),
the variants Direct, Dimension, Color, Ratio and DerivedAngle of a `ScalarSource`.  The
name is recorded when the wrapper is built (the sources never rename a field); the values
are read from the current state. -/
structure FieldWrapper where
  name : String
  source : WrapperSource
  deriving DecidableEq, Repr

section Wrappers

variable {α : Type} [LinearOrderedField α]

/-- A coordinate of a point. -/
def CCVector3.coord (p : CCVector3 α) : Dim → α
  | Dim.DimX => p.x
  | Dim.DimY => p.y
  | Dim.DimZ => p.z

/-- Modelled from the spec: `pointValue` of a wrapper, `none` when the index is outside
the data the wrapper reads. -/
def FieldWrapper.pointValue? (fw : FieldWrapper) (w : World α) (i : Nat) : Option (Val α) :=
  match fw.source with
  | WrapperSource.direct sf => (w.sf? sf).bind (fun f => f.values[i]?)
  | WrapperSource.dimension cloud dim =>
    ((w.clouds cloud).points[i]?).map (fun p => Val.num (p.coord dim))
  | WrapperSource.color cloud band =>
    if i < (w.clouds cloud).size then some ((w.clouds cloud).colorValue band i) else none
  | WrapperSource.quotient p q =>
    match (w.sf? p).bind (fun f => f.values[i]?), (w.sf? q).bind (fun f => f.values[i]?) with
    | some a, some b => some (a / b)
    | _, _ => none
  | WrapperSource.derivedAngle cloud mode =>
    if i < (w.clouds cloud).size then some ((w.clouds cloud).normalAngle mode i) else none

/-- The wrapper as the `IScalarFieldWrapper` handed to `ExtractStatFromSF`, which reads
it at the indices returned by the octree of the wrapped cloud. -/
def FieldWrapper.view (fw : FieldWrapper) (w : World α) : IScalarFieldWrapper α :=
  ⟨fw.name, fun i => (fw.pointValue? w i).getD Val.nan⟩

/-- Modelled from the spec: the constructor `ScalarFieldWrapper(sf)`, named like the
field it wraps. -/
def ScalarFieldWrapper (w : World α) (sf : SFPtr) : FieldWrapper :=
  ⟨((w.sf? sf).map (fun f => f.name)).getD "", WrapperSource.direct sf⟩

end Wrappers

/-! ## The cloud services (qCC_db) -/

section CloudServices

variable {α : Type} [LinearOrderedField α]

/-- The index of the first field that satisfies `p`. -/
def findSF (p : ScalarField α → Bool) : List (ScalarField α) → Option Nat
  | [] => none
  | sf :: rest => if p sf then some 0 else (findSF p rest).map (· + 1)

/-- The method `getScalarFieldIndexByName`: the index of the first field with that name,
`none` for `-1`. -/
def ccPointCloud.getScalarFieldIndexByName (c : ccPointCloud α) (name : String) : Option Nat :=
  findSF (fun sf => decide (sf.name = name)) c.scalarFields

/-- The method `addScalarField`: a field whose name is already taken is refused (`-1`),
another one is appended. -/
def ccPointCloud.addScalarField (c : ccPointCloud α) (sf : ScalarField α) :
    Option Nat × ccPointCloud α :=
  match c.getScalarFieldIndexByName sf.name with
  | some _ => (none, c)
  | none => (some c.scalarFields.length, { c with scalarFields := c.scalarFields ++ [sf] })

/-- The method `deleteScalarField`: the last field takes the place of the deleted one. -/
def ccPointCloud.deleteScalarField (c : ccPointCloud α) (index : Option Nat) : ccPointCloud α :=
  match index with
  | none => c
  | some i =>
    if i < c.scalarFields.length then
      match c.scalarFields.getLast? with
      | some last => { c with scalarFields := (c.scalarFields.set i last).dropLast }
      | none => c
    else c

/-- Modelled from the spec: `Tools::RetrieveSF` (q3DMASCTools.h is not among the sources):
the first field of the cloud with the requested name, `none` when it is absent. -/
def RetrieveSF (E : Env α) (w : World α) (cloud : Nat) (sfName : String)
    (caseSensitive : Bool) : Option SFPtr :=
  (findSF (fun sf => E.sameName caseSensitive sf.name sfName) (w.clouds cloud).scalarFields).map
    (fun i => ⟨cloud, i⟩)

end CloudServices

/-! ## Features.cpp: `PointFeature::retrieveField` -/

section RetrieveField

variable {α : Type} [LinearOrderedField α]

/-- The lookup of a stored attribute: the wrapper of the field, or the error message. -/
def retrieveStored (E : Env α) (w : World α) (cloud : Nat) (sfName : String)
    (caseSensitive : Bool) (message error : String) : Option FieldWrapper × String :=
  match RetrieveSF E w cloud sfName caseSensitive with
  | none => (none, message)
  | some sf => (some (ScalarFieldWrapper w sf), error)

/-- The method `PointFeature::retrieveField` (lines 43-171); the result is the wrapper
(`none` for a null pointer) and the final content of `error`. -/
def PointFeature.retrieveField (E : Env α) (w : World α) (pf : PointFeature α)
    (cloud : Option Nat) (error : String) : Option FieldWrapper × String :=
  match cloud with
  | none => (none, error)
  | some c =>
    match pf.type with
    | PointFeatureType.Intensity =>
      retrieveStored E w c E.LAS_INTENSITY false "Cloud has no 'intensity' scalar field" error
    | PointFeatureType.X => (some ⟨E.dimName Dim.DimX, WrapperSource.dimension c Dim.DimX⟩, error)
    | PointFeatureType.Y => (some ⟨E.dimName Dim.DimY, WrapperSource.dimension c Dim.DimY⟩, error)
    | PointFeatureType.Z => (some ⟨E.dimName Dim.DimZ, WrapperSource.dimension c Dim.DimZ⟩, error)
    | PointFeatureType.NbRet =>
      retrieveStored E w c E.LAS_NUMBER_OF_RETURNS false
        "Cloud has no 'number of returns' scalar field" error
    | PointFeatureType.RetNb =>
      retrieveStored E w c E.LAS_RETURN_NUMBER false
        "Cloud has no 'return number' scalar field" error
    | PointFeatureType.EchoRat =>
      match RetrieveSF E w c E.LAS_NUMBER_OF_RETURNS false with
      | none =>
        (none, "Can't compute the 'echo ratio' field: no 'Number of Return' SF available")
      | some numberOfRetSF =>
        match RetrieveSF E w c E.LAS_RETURN_NUMBER false with
        | none =>
          (none, "Can't compute the 'echo ratio' field: no 'Return number' SF available")
        | some retNumberSF =>
          let retSize := ((w.sf? retNumberSF).map ScalarField.size).getD 0
          let nbSize := ((w.sf? numberOfRetSF).map ScalarField.size).getD 0
          if retSize ≠ nbSize ∨ retSize ≠ (w.clouds c).size then
            (none, "Internal error (inconsistent scalar fields)")
          else
            (some ⟨"EchoRat", WrapperSource.quotient retNumberSF numberOfRetSF⟩, error)
    | PointFeatureType.R => (some ⟨E.colorName Band.Red, WrapperSource.color c Band.Red⟩, error)
    | PointFeatureType.G =>
      (some ⟨E.colorName Band.Green, WrapperSource.color c Band.Green⟩, error)
    | PointFeatureType.B => (some ⟨E.colorName Band.Blue, WrapperSource.color c Band.Blue⟩, error)
    | PointFeatureType.NIR =>
      retrieveStored E w c "NIR" false "Cloud has no 'NIR' scalar field" error
    | PointFeatureType.DipAng =>
      if !(w.clouds c).hasNormals then
        (none, "Cloud has no normals: can't compute dip or dip dir. angles")
      else (some ⟨E.dipName DipMode.Dip, WrapperSource.derivedAngle c DipMode.Dip⟩, error)
    | PointFeatureType.DipDir =>
      if !(w.clouds c).hasNormals then
        (none, "Cloud has no normals: can't compute dip or dip dir. angles")
      else (some ⟨E.dipName DipMode.DipDir, WrapperSource.derivedAngle c DipMode.DipDir⟩, error)
    | PointFeatureType.M3C2 =>
      retrieveStored E w c "M3C2 distance" true "Cloud has no 'm3c2 distance' scalar field" error
    | PointFeatureType.PCV =>
      retrieveStored E w c "Illuminance (PCV)" true
        "Cloud has no 'PCV/Illuminance' scalar field" error
    | PointFeatureType.SF =>
      if pf.sourceSFIndex < 0
          ∨ pf.sourceSFIndex ≥ ((w.clouds c).scalarFields.length : Int) then
        (none, "Can't retrieve the specified SF: invalid index ("
          ++ toString pf.sourceSFIndex ++ ")")
      else (some (ScalarFieldWrapper w ⟨c, pf.sourceSFIndex.toNat⟩), error)
    | PointFeatureType.Invalid => (none, "Unhandled feature type")

end RetrieveField

/-! ## Features.cpp: `ExtractStat` -/

/-- The field under construction in `ExtractStat`: a field the core cloud already holds
(its index), or a new field not attached yet. -/
inductive ResultSF (α : Type) where
  | attached (index : Nat)
  | detached (sf : ScalarField α)

section ExtractStat

variable {α : Type} [LinearOrderedField α]

/-- The comparison `a <= b` of C++: false as soon as one side is NaN. -/
def Val.le : Val α → Val α → Bool
  | Val.num a, Val.num b => decide (a ≤ b)
  | Val.num _, Val.pinf => true
  | Val.ninf, Val.num _ => true
  | Val.ninf, Val.pinf => true
  | Val.pinf, Val.pinf => true
  | Val.ninf, Val.ninf => true
  | _, _ => false

/-- The call `resultSF->setValue(i, v)`; `none` when `i` is out of range. -/
def ResultSF.setValue (coreId : Nat) (w : World α) (rsf : ResultSF α) (i : Nat) (v : Val α) :
    Option (World α × ResultSF α) :=
  match rsf with
  | ResultSF.attached index =>
    match w.sf? ⟨coreId, index⟩ with
    | some sf =>
      if i < sf.size then some (w.setSF ⟨coreId, index⟩ (sf.setValue i v), ResultSF.attached index)
      else none
    | none => none
  | ResultSF.detached sf =>
    if i < sf.size then some (w, ResultSF.detached (sf.setValue i v)) else none

/-- The loop of lines 368-394 over the core points `i`.  The callback, when present, is
polled once per point: `progressCb n` tells whether cancellation is requested at the
`n`-th poll.  The result carries no field when the loop is left by a `return nullptr`. -/
def extractStatLoop (N : Numerics α) (progressCb : Option (Nat → Bool)) (coreId : Nat)
    (octree : DgmOctree α) (octreeLevel : Nat) (stat : Stat) (sourceField : FieldWrapper)
    (radius : Val α) :
    List Nat → World α × ResultSF α → Run (World α × Option (ResultSF α))
  | [], (w, rsf) => Run.done (w, some rsf)
  | i :: rest, (w, rsf) =>
    match (w.clouds coreId).points[i]? with
    | none => Run.fault
    | some queryPoint =>
      let r := ExtractStatFromSF N queryPoint (some octree) octreeLevel stat
        (sourceField.view w) radius (Val.num 0)
      if r.1 = false then Run.done (w, none)
      else
        match rsf.setValue coreId w i r.2 with
        | none => Run.fault
        | some (w1, rsf1) =>
          match progressCb with
          | some cb =>
            if cb w1.polls then Run.done ({ w1 with polls := w1.polls + 1 }, none)
            else
              extractStatLoop N progressCb coreId octree octreeLevel stat sourceField radius
                rest ({ w1 with polls := w1.polls + 1 }, rsf1)
          | none =>
            extractStatLoop N progressCb coreId octree octreeLevel stat sourceField radius
              rest (w1, rsf1)

/-- The lines 361-405 of `ExtractStat`, once the result field is ready: the dereference of
the callback, the loop and the attachment of the field. -/
def extractStatRun (N : Numerics α) (progressCb : Option (Nat → Bool)) (corePoints : CorePoints)
    (coreId : Nat) (octree : DgmOctree α) (stat : Stat) (field : FieldWrapper) (scale : Val α)
    (w2 : World α) (rsf : ResultSF α) : Run (Option SFPtr × World α) :=
  let radius := scale / Val.num 2
  let octreeLevel := octree.findBestLevelForAGivenNeighbourhoodSizeExtraction radius
  let pointCount := corePoints.size
  match progressCb with
  | none => Run.fault
  | some _ =>
    match extractStatLoop N progressCb coreId octree octreeLevel stat field radius
        (List.range pointCount) (w2, rsf) with
    | Run.fault => Run.fault
    | Run.done (w3, none) => Run.done (none, w3)
    | Run.done (w3, some (ResultSF.attached sfIdx)) =>
      -- `addScalarField` refuses the field the cloud already holds
      Run.done (some ⟨coreId, sfIdx⟩, w3)
    | Run.done (w3, some (ResultSF.detached sf)) =>
      Run.done (some ⟨coreId, (w3.clouds coreId).scalarFields.length⟩,
        w3.setCloud coreId ((w3.clouds coreId).addScalarField sf).2)

/-- The function `ExtractStat` (lines 317-406): the returned pointer (`none` for
`nullptr`) and the final state. -/
def ExtractStat (E : Env α) (N : Numerics α) (w : World α) (corePoints : CorePoints)
    (sourceCloud : Option Nat) (sourceField : Option FieldWrapper) (scale : Val α)
    (stat : Stat) (resultSFName : Option String) (progressCb : Option (Nat → Bool)) :
    Run (Option SFPtr × World α) :=
  match corePoints.cloud, sourceCloud, sourceField, resultSFName with
  | some coreId, some srcId, some field, some name =>
    if Val.le scale (Val.num 0) ∨ stat = Stat.NO_STAT then Run.done (none, w)
    else
      -- lines 332-341: the octree of the source cloud, computed and kept when absent
      let octreeAndState : Option (DgmOctree α × World α) :=
        match (w.clouds srcId).octree with
        | some oct => some (oct, w)
        | none =>
          match E.computeOctree srcId (w.clouds srcId) with
          | some oct => some (oct, w.setCloud srcId { w.clouds srcId with octree := some oct })
          | none => none
      match octreeAndState with
      | none => Run.done (none, w)
      | some (octree, w1) =>
        -- lines 343-359: the result field, reused or created, then filled with NaN
        match (w1.clouds coreId).getScalarFieldIndexByName name with
        | some sfIdx =>
          extractStatRun N progressCb corePoints coreId octree stat field scale
            (w1.fillSF ⟨coreId, sfIdx⟩ Val.nan) (ResultSF.attached sfIdx)
        | none =>
          if E.resizeSafe w1.allocations (w1.clouds coreId).size then
            extractStatRun N progressCb corePoints coreId octree stat field scale
              { w1 with allocations := w1.allocations + 1 }
              (ResultSF.detached
                (ScalarField.fill ⟨name, List.replicate (w1.clouds coreId).size (Val.num 0)⟩
                  Val.nan))
          else Run.done (none, { w1 with allocations := w1.allocations + 1 })
  | _, _, _, _ => Run.done (none, w)

end ExtractStat

/-! ## Features.cpp: `PointFeature::prepare` -/

/-- The results of `prepare`: the returned flag, the descriptor (its `sourceName` may have
been assigned), the final content of `error` and the final state. -/
structure PrepareResult (α : Type) where
  ok : Bool
  feature : PointFeature α
  error : String
  world : World α

section Prepare

variable {α : Type} [LinearOrderedField α]

/-- The text `QString::number(scale)`. -/
def scaleText (N : Numerics α) : Val α → String
  | Val.num s => N.numberToString s
  | Val.nan => "nan"
  | Val.pinf => "inf"
  | Val.ninf => "-inf"

/-- The name of the field a pointer designates (`getName`). -/
def World.sfName (w : World α) (p : SFPtr) : String :=
  ((w.sf? p).map (fun f => f.name)).getD ""

/-- The message of lines 508 and 520. -/
def extractError (N : Numerics α) (fieldName : String) (scale : Val α) : String :=
  "Failed to extract stat. from field '" ++ fieldName ++ "' @ scale " ++ scaleText N scale

/-- The copy loop of lines 592-595 into the new field. -/
def copyLoop (w : World α) (field1 : FieldWrapper) (corePoints : CorePoints) :
    List Nat → ScalarField α → Run (ScalarField α)
  | [], sf => Run.done sf
  | i :: rest, sf =>
    match field1.pointValue? w (corePoints.originIndex i) with
    | none => Run.fault
    | some v =>
      if i < sf.size then copyLoop w field1 corePoints rest (sf.setValue i v) else Run.fault

/-- The name built by lines 497-503: `field2` is null without a second cloud or without an
operation. -/
def PointFeature.resultSFName (N : Numerics α) (pf : PointFeature α) (field1 : FieldWrapper)
    (field2 : Option FieldWrapper) : String :=
  let base := pf.cloud1Label ++ "." ++ field1.name ++ "_" ++ StatToString pf.stat
  let withOp :=
    match field2 with
    | some f2 =>
      if pf.op ≠ Operation.NO_OPERATION then
        base ++ ("_" ++ OpToString pf.op ++ "_" ++ pf.cloud2Label ++ "." ++ f2.name ++ "_"
          ++ StatToString pf.stat)
      else base
    | none => base
  withOp ++ ("@" ++ scaleText N pf.scale)

/-- The name built by line 515. -/
def PointFeature.resultSFName2 (N : Numerics α) (pf : PointFeature α) (field2 : FieldWrapper) :
    String :=
  pf.cloud2Label ++ "." ++ field2.name ++ "_" ++ StatToString pf.stat ++ "@"
    ++ scaleText N pf.scale

/-- The lines 496-539 of `PointFeature::prepare`: the statistics, once the sources are
resolved (`field2` is null without a second cloud or without an operation). -/
def PointFeature.prepareStats (E : Env α) (N : Numerics α) (pf : PointFeature α)
    (w : World α) (corePoints : CorePoints) (coreId : Nat) (field1 : FieldWrapper)
    (field2 : Option FieldWrapper) (error : String) (progressCb : Option (Nat → Bool)) :
    Run (PrepareResult α) :=
  match ExtractStat E N w corePoints pf.cloud1 (some field1) pf.scale pf.stat
      (some (pf.resultSFName N field1 field2)) progressCb with
  | Run.fault => Run.fault
  | Run.done (none, w1) =>
    Run.done ⟨false, pf, extractError N field1.name pf.scale, w1⟩
  | Run.done (some statSF1, w1) =>
    let pf1 : PointFeature α := { pf with sourceName := w1.sfName statSF1 }
    match pf.cloud2, field2 with
    | some _, some f2 =>
      if pf.op ≠ Operation.NO_OPERATION then
        let sfIndex2 :=
          (w1.clouds coreId).getScalarFieldIndexByName (pf.resultSFName2 N f2)
        match ExtractStat E N w1 corePoints pf.cloud2 (some f2) pf.scale pf.stat
            (some (pf.resultSFName2 N f2)) progressCb with
        | Run.fault => Run.fault
        | Run.done (none, w2) =>
          Run.done ⟨false, pf1, extractError N f2.name pf.scale, w2⟩
        | Run.done (some statSF2, w2) =>
          match PerformMathOp w2 (some statSF1) (some statSF2) pf.op with
          | (false, w3) =>
            Run.done ⟨false, pf1, "Failed to perform the MATH operation", w3⟩
          | (true, w3) =>
            match sfIndex2 with
            | none =>
              -- lines 531-536: the second statistic was created by this call
              let found :=
                (w3.clouds coreId).getScalarFieldIndexByName (pf.resultSFName2 N f2)
              Run.done ⟨true, pf1, error,
                w3.setCloud coreId ((w3.clouds coreId).deleteScalarField found)⟩
            | some _ => Run.done ⟨true, pf1, error, w3⟩
      else Run.done ⟨true, pf1, error, w1⟩
    | _, _ => Run.done ⟨true, pf1, error, w1⟩

/-- The scaled branch of `PointFeature::prepare` (lines 468-540). -/
def PointFeature.prepareScaled (E : Env α) (N : Numerics α) (pf : PointFeature α)
    (w : World α) (corePoints : CorePoints) (coreId : Nat) (field1 : FieldWrapper)
    (error : String) (progressCb : Option (Nat → Bool)) : Run (PrepareResult α) :=
  if pf.stat = Stat.NO_STAT then Run.done ⟨false, pf, error, w⟩
  else if pf.cloud2.isSome ∧ pf.op ≠ Operation.NO_OPERATION then
    -- lines 476-488: the second source, resolved only with an operation
    match pf.retrieveField E w pf.cloud2 error with
    | (none, error2) => Run.done ⟨false, pf, error2, w⟩
    | (some field2, error2) =>
      pf.prepareStats E N w corePoints coreId field1 (some field2) error2 progressCb
  else pf.prepareStats E N w corePoints coreId field1 none error progressCb

/-- The scale-less branch of `PointFeature::prepare` (lines 541-623). -/
def PointFeature.prepareUnscaled (E : Env α) (pf : PointFeature α)
    (w : World α) (corePoints : CorePoints) (coreId : Nat) (field1 : FieldWrapper)
    (error : String) : Run (PrepareResult α) :=
  if pf.cloud1 ≠ corePoints.cloud ∧ pf.cloud1 ≠ corePoints.origin then
    Run.done ⟨false, pf,
      "Scale-less features (SC0) can only be defined on the core points (origin) cloud", w⟩
  else if pf.cloud2.isSome ∧ pf.op ≠ Operation.NO_OPERATION then
    Run.done ⟨false, pf, error, w⟩
  else
    let resultSFName := field1.name
    match (w.clouds coreId).getScalarFieldIndexByName resultSFName with
    | some sfIdx =>
      -- reuse the existing field
      Run.done ⟨true, { pf with sourceName := w.sfName ⟨coreId, sfIdx⟩ }, error, w⟩
    | none =>
      if !E.resizeSafe w.allocations (w.clouds coreId).size then
        Run.done ⟨false, pf, "Not enough memory", { w with allocations := w.allocations + 1 }⟩
      else
        let w1 : World α := { w with allocations := w.allocations + 1 }
        match copyLoop w1 field1 corePoints (List.range corePoints.size)
            ⟨resultSFName, List.replicate (w.clouds coreId).size (Val.num 0)⟩ with
        | Run.fault => Run.fault
        | Run.done resultSF =>
          let added := (w1.clouds coreId).addScalarField resultSF
          Run.done ⟨true, { pf with sourceName := resultSF.name }, error,
            w1.setCloud coreId added.2⟩

/-- The method `PointFeature::prepare` (lines 447-624). -/
def PointFeature.prepare (E : Env α) (N : Numerics α) (pf : PointFeature α) (w : World α)
    (corePoints : CorePoints) (error : String) (progressCb : Option (Nat → Bool)) :
    Run (PrepareResult α) :=
  match pf.cloud1, corePoints.cloud with
  | some _, some coreId =>
    match pf.retrieveField E w pf.cloud1 error with
    | (none, error1) => Run.done ⟨false, pf, error1, w⟩
    | (some field1, error1) =>
      if pf.scaled then pf.prepareScaled E N w corePoints coreId field1 error1 progressCb
      else pf.prepareUnscaled E w corePoints coreId field1 error1
  | _, _ => Run.done ⟨false, pf, error, w⟩

end Prepare

/-! ## Features.cpp: the `prepare` of the other descriptor types -/

/-- The method `NeighborhoodFeature::prepare` (lines 626-632): not implemented (`//TODO`), it
returns false and assigns nothing; the result is the flag and the final content of `error`. -/
def NeighborhoodFeature.prepare (corePoints : CorePoints) (error : String)
    (progressCb : Option (Nat → Bool)) : Bool × String :=
  (false, error)

/-- The method `ContextBasedFeature::prepare` (lines 634-640): not implemented (`//TODO`). -/
def ContextBasedFeature.prepare (corePoints : CorePoints) (error : String)
    (progressCb : Option (Nat → Bool)) : Bool × String :=
  (false, error)

/-- The method `DualCloudFeature::prepare` (lines 642-648): not implemented (`//TODO`). -/
def DualCloudFeature.prepare (corePoints : CorePoints) (error : String)
    (progressCb : Option (Nat → Bool)) : Bool × String :=
  (false, error)

/-! ### Relations used to state the results on `prepare` -/

/-- Every field a cloud holds in `w` is still held in `w'`, at the same index and under
the same name. -/
def NamesKept {α : Type} (w w' : World α) : Prop :=
  ∀ (c i : Nat) (sf : ScalarField α), (w.clouds c).scalarFields[i]? = some sf →
    ∃ sf' : ScalarField α, (w'.clouds c).scalarFields[i]? = some sf' ∧ sf'.name = sf.name

/-- The field under construction is still the same object: the same attached index, or a
detached field of the same name. -/
def ResultSF.sameTarget {α : Type} : ResultSF α → ResultSF α → Prop
  | ResultSF.attached i, ResultSF.attached j => i = j
  | ResultSF.detached sf, ResultSF.detached sf' => sf'.name = sf.name
  | _, _ => False

/-! ## Concrete inputs over the rationals -/

/-- The result of a completed run. -/
def Run.get? {β : Type} : Run β → Option β
  | Run.fault => none
  | Run.done b => some b

/-- The result of a completed run, `d` for a run that faults. -/
def Run.getD {β : Type} (r : Run β) (d : β) : β :=
  match r with
  | Run.fault => d
  | Run.done b => b

/-- Numeric primitives over `ℚ`: the rational square root of Mathlib, floats taken exact,
a number printed as numerator and denominator. -/
def demoNumerics : Numerics ℚ :=
  ⟨fun x => Rat.sqrt x, fun x => x, fun x => toString x.num ++ "/" ++ toString x.den⟩

/-- An octree whose spherical query returns the first `n` points, whatever the centre. -/
def demoOctree (n : Nat) : DgmOctree ℚ :=
  ⟨fun _ _ _ => List.range n, fun _ => 0⟩

/-- A source over a list of numbers (NaN outside the list). -/
def demoField (vals : List ℚ) : IScalarFieldWrapper ℚ :=
  ⟨"demo", fun i => match vals[i]? with
    | some v => Val.num v
    | none => Val.nan⟩

/-- An environment in which the octree can be computed and, when `alloc` is true, every
allocation succeeds. -/
def demoEnv (alloc : Bool) : Env ℚ :=
  { LAS_INTENSITY := "Intensity"
    LAS_NUMBER_OF_RETURNS := "Number Of Returns"
    LAS_RETURN_NUMBER := "Return Number"
    sameName := fun _ a b => decide (a = b)
    dimName := fun d => match d with
      | Dim.DimX => "X"
      | Dim.DimY => "Y"
      | Dim.DimZ => "Z"
    colorName := fun b => match b with
      | Band.Red => "R"
      | Band.Green => "G"
      | Band.Blue => "B"
    dipName := fun m => match m with
      | DipMode.Dip => "Norm dip"
      | DipMode.DipDir => "Norm dip dir."
    computeOctree := fun _ _ => some (demoOctree 0)
    resizeSafe := fun _ _ => alloc }

/-- A cloud of two points without scalar field, with its octree computed. -/
def demoCloud : ccPointCloud ℚ :=
  { points := [⟨1, 2, 3⟩, ⟨4, 5, 6⟩]
    scalarFields := []
    octree := some (demoOctree 0)
    hasNormals := false
    colorValue := fun _ _ => Val.nan
    normalAngle := fun _ _ => Val.nan }

/-- A cloud of two points with two scalar fields. -/
def demoCloudWithFields : ccPointCloud ℚ :=
  { demoCloud with
    scalarFields := [⟨"A", [Val.num 6, Val.num 1]⟩, ⟨"B", [Val.num 3, Val.num 0]⟩] }

/-- A state in which every address holds `demoCloud`. -/
def demoWorld : World ℚ := ⟨fun _ => demoCloud, 0, 0⟩

/-- A state in which every address holds `demoCloudWithFields`. -/
def demoWorldWithFields : World ℚ := ⟨fun _ => demoCloudWithFields, 0, 0⟩

/-- Two core points on the cloud at address `0`, taken from the points `1` and `0` of the
origin cloud at address `1`. -/
def demoCorePoints : CorePoints := ⟨some 0, some 1, [1, 0]⟩

/-- The scale-less descriptor of the X coordinate of the origin cloud. -/
def demoUnscaled : PointFeature ℚ :=
  { scale := Val.nan
    cloud1 := some 1
    cloud2 := none
    cloud1Label := "PC1"
    cloud2Label := "PC2"
    source := Source.DimX
    sourceName := ""
    stat := Stat.NO_STAT
    op := Operation.NO_OPERATION
    getType := FeatureType.PointFeature
    type := PointFeatureType.X
    sourceSFIndex := -1 }

/-- The same descriptor with a second cloud and an operation. -/
def demoUnscaledWithOp : PointFeature ℚ :=
  { demoUnscaled with cloud2 := some 1, op := Operation.MINUS }

/-- The descriptor of the mean of the X coordinate at scale `2`. -/
def demoScaled : PointFeature ℚ :=
  { demoUnscaled with scale := Val.num 2, stat := Stat.MEAN }

/-- The first `prepare` of `demoUnscaled`, in an environment where allocations succeed. -/
def demoFirstRun : PrepareResult ℚ :=
  (demoUnscaled.prepare (demoEnv true) demoNumerics demoWorld demoCorePoints "" none).getD
    ⟨false, demoUnscaled, "", demoWorld⟩

/-- A progress callback that never requests cancellation. -/
def demoCallback : Option (Nat → Bool) := some (fun _ => false)

/-- The `prepare` of `demoScaled` with that callback. -/
def demoScaledRun : PrepareResult ℚ :=
  (demoScaled.prepare (demoEnv true) demoNumerics demoWorld demoCorePoints ""
    demoCallback).getD ⟨false, demoScaled, "", demoWorld⟩

/-- A valid descriptor with two clouds and an operation. -/
def demoFeature : Feature ℚ :=
  { scale := Val.num 2
    cloud1 := some 0
    cloud2 := some 1
    cloud1Label := "PC1"
    cloud2Label := "PC2"
    source := Source.DimZ
    sourceName := ""
    stat := Stat.MEAN
    op := Operation.MINUS
    getType := FeatureType.PointFeature }

/-- A cloud of two points with one scalar field holding a missing value and a number. -/
def demoCloudWithNaN : ccPointCloud ℚ :=
  { demoCloud with scalarFields := [⟨"A", [Val.nan, Val.num 1]⟩] }

/-- A state in which every address holds `demoCloudWithNaN`. -/
def demoWorldWithNaN : World ℚ := ⟨fun _ => demoCloudWithNaN, 0, 0⟩

/-- A descriptor of the echo ratio on the cloud at address `0`. -/
def demoEchoRat : PointFeature ℚ :=
  { demoUnscaled with cloud1 := some 0, type := PointFeatureType.EchoRat }

/-- A cloud of two points that holds the two LAS fields of the echo ratio. -/
def demoCloudLAS : ccPointCloud ℚ :=
  { demoCloud with
    scalarFields := [⟨"Number Of Returns", [Val.num 2, Val.num 2]⟩,
      ⟨"Return Number", [Val.num 1, Val.num 2]⟩] }

/-- A state in which every address holds `demoCloudLAS`. -/
def demoWorldLAS : World ℚ := ⟨fun _ => demoCloudLAS, 0, 0⟩

/-- The descriptor `demoScaled` with a second cloud and an operation. -/
def demoDual : PointFeature ℚ :=
  { demoScaled with cloud2 := some 1, op := Operation.MINUS }

/-- The `prepare` of `demoDual` with the callback that never cancels. -/
def demoDualRun : PrepareResult ℚ :=
  (demoDual.prepare (demoEnv true) demoNumerics demoWorld demoCorePoints ""
    demoCallback).getD ⟨false, demoDual, "", demoWorld⟩

/-- A core cloud of one point. -/
def demoSmallCloud : ccPointCloud ℚ :=
  { demoCloud with points := [⟨4, 5, 6⟩] }

/-- A state whose address `0` holds the core cloud of one point and whose other addresses
hold the origin cloud of two points. -/
def demoWorldSub : World ℚ := ⟨fun j => if j = 0 then demoSmallCloud else demoCloud, 0, 0⟩

/-- The core points of `demoWorldSub`: the only core point is the point `1` of the origin
cloud. -/
def demoSubCorePoints : CorePoints := ⟨some 0, some 1, [1]⟩

/-- The unscaled descriptor of the X coordinate, defined on the core cloud. -/
def demoOnCore : PointFeature ℚ := { demoUnscaled with cloud1 := some 0 }

/-- The descriptor `demoScaled` with the scale `0`. -/
def demoZeroScale : PointFeature ℚ := { demoScaled with scale := Val.num 0 }

/-- The descriptor `demoZeroScale` with an operation and no second cloud. -/
def demoZeroScaleOp : PointFeature ℚ := { demoZeroScale with op := Operation.MINUS }

/-- A cloud of two points with one scalar field holding the two infinities. -/
def demoCloudWithInf : ccPointCloud ℚ :=
  { demoCloud with scalarFields := [⟨"A", [Val.pinf, Val.ninf]⟩] }

/-- A state in which every address holds `demoCloudWithInf`. -/
def demoWorldWithInf : World ℚ := ⟨fun _ => demoCloudWithInf, 0, 0⟩

/-- A source over a list of values, NaN and infinities included (NaN outside the list). -/
def demoValField (vals : List (Val ℚ)) : IScalarFieldWrapper ℚ :=
  ⟨"demo", fun i => vals.getD i Val.nan⟩

/-! ## Theorems -/

section NumberLemmas

variable {α : Type} [LinearOrderedField α]

@[simp] theorem Val.num_add (a b : α) : (Val.num a + Val.num b : Val α) = Val.num (a + b) := rfl
@[simp] theorem Val.num_sub (a b : α) : (Val.num a - Val.num b : Val α) = Val.num (a - b) := rfl
@[simp] theorem Val.num_mul (a b : α) : (Val.num a * Val.num b : Val α) = Val.num (a * b) := rfl
@[simp] theorem Val.nan_add (b : Val α) : (Val.nan + b : Val α) = Val.nan := by cases b <;> rfl
@[simp] theorem Val.add_nan (a : Val α) : (a + Val.nan : Val α) = Val.nan := by cases a <;> rfl
@[simp] theorem Val.nan_sub (b : Val α) : (Val.nan - b : Val α) = Val.nan := by cases b <;> rfl
@[simp] theorem Val.sub_nan (a : Val α) : (a - Val.nan : Val α) = Val.nan := by cases a <;> rfl
@[simp] theorem Val.nan_mul (b : Val α) : (Val.nan * b : Val α) = Val.nan := by cases b <;> rfl
@[simp] theorem Val.mul_nan (a : Val α) : (a * Val.nan : Val α) = Val.nan := by cases a <;> rfl
@[simp] theorem Val.nan_div (b : Val α) : (Val.nan / b : Val α) = Val.nan := by cases b <;> rfl
@[simp] theorem Val.div_nan (a : Val α) : (a / Val.nan : Val α) = Val.nan := by cases a <;> rfl

theorem Val.num_div (a b : α) :
    (Val.num a / Val.num b : Val α) = if b = 0 then Val.infOfSign a else Val.num (a / b) := rfl

theorem Val.num_div_of_ne (a : α) {b : α} (hb : b ≠ 0) :
    (Val.num a / Val.num b : Val α) = Val.num (a / b) := by
  rw [Val.num_div, if_neg hb]

@[simp] theorem Val.abs_num (a : α) : Val.abs (Val.num a) = Val.num |a| := rfl
@[simp] theorem Val.abs_nan : Val.abs (Val.nan : Val α) = Val.nan := rfl
@[simp] theorem Val.lt_num (a b : α) : Val.lt (Val.num a) (Val.num b) = decide (a < b) := rfl
@[simp] theorem Val.lt_nan_left (b : Val α) : Val.lt Val.nan b = false := by cases b <;> rfl
@[simp] theorem Val.lt_nan_right (a : Val α) : Val.lt a Val.nan = false := by cases a <;> rfl
@[simp] theorem Val.gt_num (a b : α) : Val.gt (Val.num a) (Val.num b) = decide (b < a) := rfl
@[simp] theorem Val.gt_nan_left (b : Val α) : Val.gt Val.nan b = false := by
  cases b <;> rfl
@[simp] theorem Val.gt_nan_right (a : Val α) : Val.gt a Val.nan = false := by
  cases a <;> rfl

@[simp] theorem Numerics.vsqrt_num (N : Numerics α) (a : α) :
    N.vsqrt (Val.num a) = Val.num (N.sqrt a) := rfl
@[simp] theorem Numerics.vsqrt_nan (N : Numerics α) : N.vsqrt Val.nan = Val.nan := rfl
@[simp] theorem Numerics.vtoFloat_num (N : Numerics α) (a : α) :
    N.vtoFloat (Val.num a) = Val.num (N.toFloat a) := rfl
@[simp] theorem Numerics.vtoFloat_nan (N : Numerics α) : N.vtoFloat Val.nan = Val.nan := rfl

theorem floatEpsilon_pos : (0 : α) < floatEpsilon := by
  unfold floatEpsilon
  positivity

theorem Val.ofNat_ne_zero {n : Nat} (h : n ≠ 0) : ((n : α) ≠ 0) := by
  exact_mod_cast h

end NumberLemmas

section ExtractStatFromSFLemmas

variable {α : Type} [LinearOrderedField α]

/-- The sums accumulated by the loop over numeric values. -/
theorem statLoop_sums (N : Numerics α) (wm : Bool) (f : IScalarFieldWrapper α) :
    ∀ (neigh : List Nat) (vs : List α) (s s2 : α) (m : List (Val α × Nat)),
      neigh.map f.pointValue = vs.map Val.num →
      (statLoop N true wm f neigh (Val.num s, Val.num s2, m)).1 = Val.num (s + vs.sum) ∧
      (statLoop N true wm f neigh (Val.num s, Val.num s2, m)).2.1
        = Val.num (s2 + (vs.map (fun v => v * v)).sum) := by
  intro neigh
  induction neigh with
  | nil =>
    intro vs s s2 m h
    cases vs with
    | nil => simp [statLoop]
    | cons v vs => simp at h
  | cons i rest ih =>
    intro vs s s2 m h
    cases vs with
    | nil => simp at h
    | cons v vs =>
      simp only [List.map_cons, List.cons.injEq] at h
      obtain ⟨hv, hrest⟩ := h
      simp only [statLoop, hv, if_true, Val.num_add, Val.num_mul]
      refine ⟨?_, ?_⟩
      · rw [(ih vs _ _ _ hrest).1]
        simp [add_assoc]
      · rw [(ih vs _ _ _ hrest).2]
        simp [add_assoc]

/-- The running minimum and maximum over numeric values, once seeded. -/
theorem rangeLoop_seeded (f : IScalarFieldWrapper α) :
    ∀ (neigh : List Nat) (vs : List α) (k : Nat) (mn mx : α),
      neigh.map f.pointValue = vs.map Val.num → k ≠ 0 → mn ≤ mx →
      ∃ mn' mx', rangeLoop f neigh k (Val.num mn, Val.num mx) = (Val.num mn', Val.num mx') ∧
        (mn' = mn ∨ mn' ∈ vs) ∧ (mx' = mx ∨ mx' ∈ vs) ∧ mn' ≤ mn ∧ mx ≤ mx' ∧
        ∀ v ∈ vs, mn' ≤ v ∧ v ≤ mx' := by
  intro neigh
  induction neigh with
  | nil =>
    intro vs k mn mx h hk hle
    cases vs with
    | nil => exact ⟨mn, mx, rfl, Or.inl rfl, Or.inl rfl, le_refl _, le_refl _, by simp⟩
    | cons v vs => simp at h
  | cons i rest ih =>
    intro vs k mn mx h hk hle
    cases vs with
    | nil => simp at h
    | cons v vs =>
      simp only [List.map_cons, List.cons.injEq] at h
      obtain ⟨hv, hrest⟩ := h
      simp only [rangeLoop, hv, hk, ne_eq, not_false_eq_true, if_true, Val.lt_num, Val.gt_num,
        decide_eq_true_eq]
      by_cases h1 : v < mn
      · rw [if_pos h1]
        obtain ⟨mn', mx', he, hmn, hmx, hl, hu, hall⟩ :=
          ih vs (k + 1) v mx hrest (Nat.succ_ne_zero k) (le_trans (le_of_lt h1) hle)
        refine ⟨mn', mx', he, ?_, ?_, ?_, hu, ?_⟩
        · rcases hmn with h | h
          · exact Or.inr (by simp [h])
          · exact Or.inr (List.mem_cons_of_mem _ h)
        · rcases hmx with h | h
          · exact Or.inl h
          · exact Or.inr (List.mem_cons_of_mem _ h)
        · exact le_trans hl (le_of_lt h1)
        · intro w hw
          rcases List.mem_cons.1 hw with h | h
          · subst h
            exact ⟨hl, le_trans (le_trans (le_of_lt h1) hle) hu⟩
          · exact hall w h
      · rw [if_neg h1]
        by_cases h2 : mx < v
        · rw [if_pos h2]
          obtain ⟨mn', mx', he, hmn, hmx, hl, hu, hall⟩ :=
            ih vs (k + 1) mn v hrest (Nat.succ_ne_zero k) (le_of_not_lt h1)
          refine ⟨mn', mx', he, ?_, ?_, hl, ?_, ?_⟩
          · rcases hmn with h | h
            · exact Or.inl h
            · exact Or.inr (List.mem_cons_of_mem _ h)
          · rcases hmx with h | h
            · exact Or.inr (by simp [h])
            · exact Or.inr (List.mem_cons_of_mem _ h)
          · exact le_trans (le_of_lt h2) hu
          · intro w hw
            rcases List.mem_cons.1 hw with h | h
            · subst h
              exact ⟨le_trans hl (le_of_not_lt h1), hu⟩
            · exact hall w h
        · rw [if_neg h2]
          obtain ⟨mn', mx', he, hmn, hmx, hl, hu, hall⟩ :=
            ih vs (k + 1) mn mx hrest (Nat.succ_ne_zero k) hle
          refine ⟨mn', mx', he, ?_, ?_, hl, hu, ?_⟩
          · rcases hmn with h | h
            · exact Or.inl h
            · exact Or.inr (List.mem_cons_of_mem _ h)
          · rcases hmx with h | h
            · exact Or.inl h
            · exact Or.inr (List.mem_cons_of_mem _ h)
          · intro w hw
            rcases List.mem_cons.1 hw with h | h
            · subst h
              exact ⟨le_trans hl (le_of_not_lt h1), le_trans (le_of_not_lt h2) hu⟩
            · exact hall w h

theorem foldl_max_spec : ∀ (vs : List α) (v : α),
    (vs.foldl max v = v ∨ vs.foldl max v ∈ vs) ∧ v ≤ vs.foldl max v ∧
      ∀ x ∈ vs, x ≤ vs.foldl max v := by
  intro vs
  induction vs with
  | nil => intro v; simp
  | cons a vs ih =>
    intro v
    obtain ⟨h1, h2, h3⟩ := ih (max v a)
    simp only [List.foldl_cons]
    refine ⟨?_, le_trans (le_max_left v a) h2, ?_⟩
    · rcases h1 with h | h
      · rcases max_choice v a with hm | hm
        · left; rw [h, hm]
        · right; rw [h, hm]; exact List.mem_cons_self _ _
      · right; exact List.mem_cons_of_mem _ h
    · intro x hx
      rcases List.mem_cons.1 hx with h | h
      · rw [h]; exact le_trans (le_max_right v a) h2
      · exact h3 x h

theorem foldl_min_spec : ∀ (vs : List α) (v : α),
    (vs.foldl min v = v ∨ vs.foldl min v ∈ vs) ∧ vs.foldl min v ≤ v ∧
      ∀ x ∈ vs, vs.foldl min v ≤ x := by
  intro vs
  induction vs with
  | nil => intro v; simp
  | cons a vs ih =>
    intro v
    obtain ⟨h1, h2, h3⟩ := ih (min v a)
    simp only [List.foldl_cons]
    refine ⟨?_, le_trans h2 (min_le_left v a), ?_⟩
    · rcases h1 with h | h
      · rcases min_choice v a with hm | hm
        · left; rw [h, hm]
        · right; rw [h, hm]; exact List.mem_cons_self _ _
      · right; exact List.mem_cons_of_mem _ h
    · intro x hx
      rcases List.mem_cons.1 hx with h | h
      · rw [h]; exact le_trans h2 (min_le_right v a)
      · exact h3 x h

/-- The full scans return the greatest and the least member of a non-empty list. -/
theorem fullScan_spec (vs : List α) (hne : vs ≠ []) :
    fullScanMax vs ∈ vs ∧ fullScanMin vs ∈ vs ∧
      ∀ x ∈ vs, fullScanMin vs ≤ x ∧ x ≤ fullScanMax vs := by
  cases vs with
  | nil => exact absurd rfl hne
  | cons v vs =>
    obtain ⟨a1, a2, a3⟩ := foldl_max_spec vs v
    obtain ⟨b1, b2, b3⟩ := foldl_min_spec vs v
    simp only [fullScanMax, fullScanMin]
    refine ⟨?_, ?_, ?_⟩
    · rcases a1 with h | h
      · rw [h]; exact List.mem_cons_self _ _
      · exact List.mem_cons_of_mem _ h
    · rcases b1 with h | h
      · rw [h]; exact List.mem_cons_self _ _
      · exact List.mem_cons_of_mem _ h
    · intro x hx
      rcases List.mem_cons.1 hx with h | h
      · rw [h]; exact ⟨b2, a2⟩
      · exact ⟨b3 x h, a3 x h⟩

/-- The RANGE loop from its initial state: the first value seeds both bounds. -/
theorem rangeLoop_init (f : IScalarFieldWrapper α) (neigh : List Nat) (vs : List α)
    (h : neigh.map f.pointValue = vs.map Val.num) (hne : vs ≠ []) :
    ∃ mn mx, rangeLoop f neigh 0 (Val.num 0, Val.num 0) = (Val.num mn, Val.num mx) ∧
      mn ∈ vs ∧ mx ∈ vs ∧ ∀ v ∈ vs, mn ≤ v ∧ v ≤ mx := by
  cases neigh with
  | nil =>
    cases vs with
    | nil => exact absurd rfl hne
    | cons v vs => simp at h
  | cons i rest =>
    cases vs with
    | nil => simp at h
    | cons v vs =>
      simp only [List.map_cons, List.cons.injEq] at h
      obtain ⟨hv, hrest⟩ := h
      obtain ⟨mn', mx', he, hmn, hmx, hl, hu, hall⟩ :=
        rangeLoop_seeded f rest vs 1 v v hrest (by decide) (le_refl v)
      refine ⟨mn', mx', ?_, ?_, ?_, ?_⟩
      · simp only [rangeLoop, hv, ne_eq, not_true_eq_false, if_false]
        exact he
      · rcases hmn with h | h
        · simp [h]
        · exact List.mem_cons_of_mem _ h
      · rcases hmx with h | h
        · simp [h]
        · exact List.mem_cons_of_mem _ h
      · intro w hw
        rcases List.mem_cons.1 hw with h | h
        · subst h
          exact ⟨hl, hu⟩
        · exact hall w h

/-! #### The counters of the MODE statistic -/

theorem QMap_count_lift (a : α) : ∀ m : List (α × Nat),
    (if QMap.contains (liftMap m) (Val.num a) then QMap.modify (· + 1) (liftMap m) (Val.num a)
      else QMap.modify (fun _ => 1) (liftMap m) (Val.num a)) = liftMap (bucketIns a m) := by
  intro m
  induction m with
  | nil => simp [liftMap, QMap.contains, QMap.modify, bucketIns]
  | cons e m ih =>
    obtain ⟨k, c⟩ := e
    by_cases h1 : k < a
    · have : liftMap (bucketIns a ((k, c) :: m)) = (Val.num k, c) :: liftMap (bucketIns a m) := by
        simp [bucketIns, h1, liftMap]
      rw [this, ← ih]
      simp only [liftMap, List.map_cons, QMap.contains, QMap.modify, Val.lt_num, h1, decide_True,
        if_true]
      split <;> rfl
    · by_cases h2 : a < k
      · simp [liftMap, QMap.contains, QMap.modify, bucketIns, h1, h2]
      · simp [liftMap, QMap.contains, QMap.modify, bucketIns, h1, h2]

theorem statLoop_counters (N : Numerics α) (ws : Bool) (f : IScalarFieldWrapper α) :
    ∀ (neigh : List Nat) (vs : List α) (s s2 : Val α) (m : List (α × Nat)),
      neigh.map f.pointValue = vs.map Val.num →
      (statLoop N ws true f neigh (s, s2, liftMap m)).2.2
        = liftMap ((vs.map N.toFloat).foldl (fun m b => bucketIns b m) m) := by
  intro neigh
  induction neigh with
  | nil =>
    intro vs s s2 m h
    cases vs with
    | nil => simp [statLoop]
    | cons v vs => simp at h
  | cons i rest ih =>
    intro vs s s2 m h
    cases vs with
    | nil => simp at h
    | cons v vs =>
      simp only [List.map_cons, List.cons.injEq] at h
      obtain ⟨hv, hrest⟩ := h
      simp only [statLoop, hv, if_true, Numerics.vtoFloat_num, QMap_count_lift, List.map_cons,
        List.foldl_cons]
      exact ih vs _ _ _ hrest

theorem cnt_eq_zero_of_lt (b : α) : ∀ m : List (α × Nat),
    (∀ e ∈ m, b < e.1) → cnt m b = 0 := by
  intro m
  induction m with
  | nil => intro _; rfl
  | cons e m ih =>
    intro h
    obtain ⟨k, c⟩ := e
    have hk : b < k := h (k, c) (List.mem_cons_self _ _)
    simp only [cnt, if_neg (ne_of_gt hk)]
    exact ih (fun e he => h e (List.mem_cons_of_mem _ he))

theorem bucketIns_lower (b x : α) (hx : x < b) : ∀ m : List (α × Nat),
    (∀ e ∈ m, x < e.1) → ∀ e ∈ bucketIns b m, x < e.1 := by
  intro m
  induction m with
  | nil =>
    intro _ e he
    simp only [bucketIns, List.mem_singleton] at he
    subst he
    exact hx
  | cons e0 m ih =>
    intro h e he
    obtain ⟨k, c⟩ := e0
    have hk : x < k := h (k, c) (List.mem_cons_self _ _)
    have hm : ∀ e ∈ m, x < e.1 := fun e he => h e (List.mem_cons_of_mem _ he)
    simp only [bucketIns] at he
    split_ifs at he with h1 h2
    · rcases List.mem_cons.1 he with h' | h'
      · subst h'; exact hk
      · exact ih hm e h'
    · rcases List.mem_cons.1 he with h' | h'
      · subst h'; exact hx
      · exact h _ h'
    · rcases List.mem_cons.1 he with h' | h'
      · subst h'; exact hk
      · exact hm e h'

theorem bucketIns_sorted (b : α) : ∀ m : List (α × Nat),
    m.Pairwise (fun e e' => e.1 < e'.1) → (bucketIns b m).Pairwise (fun e e' => e.1 < e'.1) := by
  intro m
  induction m with
  | nil => intro _; simp [bucketIns]
  | cons e0 m ih =>
    intro h
    obtain ⟨k, c⟩ := e0
    rw [List.pairwise_cons] at h
    simp only [bucketIns]
    split_ifs with h1 h2
    · rw [List.pairwise_cons]
      exact ⟨fun e he => bucketIns_lower b k h1 m h.1 e he, ih h.2⟩
    · rw [List.pairwise_cons]
      refine ⟨?_, List.pairwise_cons.2 h⟩
      intro e he
      rcases List.mem_cons.1 he with h' | h'
      · subst h'; exact h2
      · exact lt_trans h2 (h.1 e h')
    · rw [List.pairwise_cons]
      exact ⟨h.1, h.2⟩

theorem bucketIns_cnt (b x : α) : ∀ m : List (α × Nat),
    m.Pairwise (fun e e' => e.1 < e'.1) →
    cnt (bucketIns b m) x = cnt m x + (if x = b then 1 else 0) := by
  intro m
  induction m with
  | nil =>
    intro _
    by_cases hx : x = b
    · simp [bucketIns, cnt, hx]
    · simp [bucketIns, cnt, hx, Ne.symm hx]
  | cons e0 m ih =>
    intro h
    obtain ⟨k, c⟩ := e0
    rw [List.pairwise_cons] at h
    by_cases h1 : k < b
    · have hb : bucketIns b ((k, c) :: m) = (k, c) :: bucketIns b m := by
        simp [bucketIns, h1]
      rw [hb]
      simp only [cnt]
      by_cases hk : k = x
      · have hxb : x ≠ b := by rw [← hk]; exact ne_of_lt h1
        simp [hk, hxb]
      · rw [if_neg hk, if_neg hk, ih h.2]
    · by_cases h2 : b < k
      · have hb : bucketIns b ((k, c) :: m) = (b, 1) :: (k, c) :: m := by
          simp [bucketIns, h1, h2]
        rw [hb]
        by_cases hx : x = b
        · subst hx
          have hz : cnt m x = 0 := cnt_eq_zero_of_lt x m (fun e he => lt_trans h2 (h.1 e he))
          simp [cnt, ne_of_gt h2, hz]
        · simp [cnt, hx, Ne.symm hx]
      · have hkb : k = b := le_antisymm (le_of_not_lt h2) (le_of_not_lt h1)
        have hb : bucketIns b ((k, c) :: m) = (k, c + 1) :: m := by
          simp [bucketIns, h1, h2]
        rw [hb]
        by_cases hx : x = b
        · simp [cnt, hx, hkb]
        · have hkx : k ≠ x := by rw [hkb]; exact Ne.symm hx
          simp [cnt, hkx, hx]

theorem bucketIns_pos (b : α) : ∀ m : List (α × Nat),
    (∀ e ∈ m, 0 < e.2) → ∀ e ∈ bucketIns b m, 0 < e.2 := by
  intro m
  induction m with
  | nil =>
    intro _ e he
    simp only [bucketIns, List.mem_singleton] at he
    subst he
    exact Nat.one_pos
  | cons e0 m ih =>
    intro h e he
    obtain ⟨k, c⟩ := e0
    have hm : ∀ e ∈ m, 0 < e.2 := fun e he => h e (List.mem_cons_of_mem _ he)
    simp only [bucketIns] at he
    split_ifs at he with h1 h2
    · rcases List.mem_cons.1 he with h' | h'
      · subst h'; exact h (k, c) (List.mem_cons_self _ _)
      · exact ih hm e h'
    · rcases List.mem_cons.1 he with h' | h'
      · subst h'; exact Nat.one_pos
      · exact h _ h'
    · rcases List.mem_cons.1 he with h' | h'
      · subst h'; exact Nat.succ_pos c
      · exact hm e h'

/-- The counters after a run of bucket counts. -/
theorem foldl_bucketIns (bs : List α) : ∀ m : List (α × Nat),
    m.Pairwise (fun e e' => e.1 < e'.1) → (∀ e ∈ m, 0 < e.2) →
    (bs.foldl (fun m b => bucketIns b m) m).Pairwise (fun e e' => e.1 < e'.1) ∧
    (∀ e ∈ bs.foldl (fun m b => bucketIns b m) m, 0 < e.2) ∧
    ∀ x, cnt (bs.foldl (fun m b => bucketIns b m) m) x = cnt m x + bs.count x := by
  induction bs with
  | nil => intro m h hp; exact ⟨h, hp, by simp⟩
  | cons b bs ih =>
    intro m h hp
    obtain ⟨h1, h2, h3⟩ := ih (bucketIns b m) (bucketIns_sorted b m h) (bucketIns_pos b m hp)
    refine ⟨h1, h2, ?_⟩
    intro x
    rw [List.foldl_cons, h3 x, bucketIns_cnt b x m h, List.count_cons]
    by_cases hx : x = b
    · simp [hx, add_comm, add_assoc]
    · simp [hx, Ne.symm hx]

theorem cnt_of_mem : ∀ (m : List (α × Nat)), m.Pairwise (fun e e' => e.1 < e'.1) →
    ∀ e ∈ m, cnt m e.1 = e.2 := by
  intro m
  induction m with
  | nil => intro _ e he; simp at he
  | cons e0 m ih =>
    intro h e he
    obtain ⟨k, c⟩ := e0
    rw [List.pairwise_cons] at h
    rcases List.mem_cons.1 he with h' | h'
    · subst h'; simp [cnt]
    · have : k ≠ e.1 := ne_of_lt (h.1 e h')
      simp only [cnt, if_neg this]
      exact ih h.2 e h'

theorem mem_of_cnt_pos : ∀ (m : List (α × Nat)) (x : α), 0 < cnt m x → (x, cnt m x) ∈ m := by
  intro m
  induction m with
  | nil => intro x hx; simp [cnt] at hx
  | cons e0 m ih =>
    intro x hx
    obtain ⟨k, c⟩ := e0
    by_cases hk : k = x
    · subst hk; simp [cnt]
    · simp only [cnt, if_neg hk] at hx ⊢
      exact List.mem_cons_of_mem _ (ih x hx)

theorem modeLoop_keep : ∀ (m : List (α × Nat)) (mc : Nat) (md : Val α),
    (∀ e ∈ m, e.2 ≤ mc) → modeLoop (liftMap m) (mc, md) = (mc, md) := by
  intro m
  induction m with
  | nil => intro mc md _; rfl
  | cons e0 m ih =>
    intro mc md h
    obtain ⟨k, c⟩ := e0
    have hc : ¬ c > mc := not_lt.2 (h (k, c) (List.mem_cons_self _ _))
    simp only [liftMap, List.map_cons, modeLoop, if_neg hc]
    exact ih mc md (fun e he => h e (List.mem_cons_of_mem _ he))

theorem modeLoop_pick : ∀ (m : List (α × Nat)) (mc : Nat) (md : Val α),
    (∃ e ∈ m, mc < e.2) →
    ∃ l1 b c l2, m = l1 ++ (b, c) :: l2 ∧ modeLoop (liftMap m) (mc, md) = (c, Val.num b) ∧
      (∀ e ∈ l1, e.2 < c) ∧ (∀ e ∈ l2, e.2 ≤ c) ∧ mc < c := by
  intro m
  induction m with
  | nil => intro mc md h; obtain ⟨e, he, _⟩ := h; simp at he
  | cons e0 m ih =>
    intro mc md h
    obtain ⟨k, v⟩ := e0
    by_cases hv : v > mc
    · by_cases hrest : ∃ e ∈ m, v < e.2
      · obtain ⟨l1, b, c, l2, hm, hres, hl1, hl2, hlt⟩ := ih v (Val.num k) hrest
        refine ⟨(k, v) :: l1, b, c, l2, by simp [hm], ?_, ?_, hl2, lt_trans hv hlt⟩
        · simp only [liftMap, List.map_cons, modeLoop, if_pos hv]
          exact hres
        · intro e he
          rcases List.mem_cons.1 he with h' | h'
          · subst h'; exact hlt
          · exact hl1 e h'
      · have hall : ∀ e ∈ m, e.2 ≤ v := by
          intro e he
          by_contra hcon
          exact hrest ⟨e, he, not_le.1 hcon⟩
        refine ⟨[], k, v, m, rfl, ?_, by simp, hall, hv⟩
        simp only [liftMap, List.map_cons, modeLoop, if_pos hv]
        exact modeLoop_keep m v (Val.num k) hall
    · have hrest : ∃ e ∈ m, mc < e.2 := by
        obtain ⟨e, he, hlt⟩ := h
        rcases List.mem_cons.1 he with h' | h'
        · subst h'; exact absurd hlt hv
        · exact ⟨e, h', hlt⟩
      obtain ⟨l1, b, c, l2, hm, hres, hl1, hl2, hlt⟩ := ih mc md hrest
      refine ⟨(k, v) :: l1, b, c, l2, by simp [hm], ?_, ?_, hl2, hlt⟩
      · simp only [liftMap, List.map_cons, modeLoop, if_neg hv]
        exact hres
      · intro e he
        rcases List.mem_cons.1 he with h' | h'
        · subst h'; exact lt_of_le_of_lt (not_lt.1 hv) hlt
        · exact hl1 e h'

/-- The bucket picked by the search loop: a most frequent one, the least among those. -/
theorem modeLoop_spec (bs : List α) (hne : bs ≠ []) :
    ∃ b, (modeLoop (liftMap (bs.foldl (fun m b => bucketIns b m) [])) (0, Val.nan)).2 = Val.num b ∧
      b ∈ bs ∧ (∀ b' ∈ bs, bs.count b' ≤ bs.count b) ∧
      (∀ b' ∈ bs, bs.count b' = bs.count b → b ≤ b') := by
  obtain ⟨hs, hp, hc⟩ := foldl_bucketIns bs [] List.Pairwise.nil (by simp)
  have hcnt : ∀ x, cnt (bs.foldl (fun m b => bucketIns b m) []) x = bs.count x := by
    intro x
    rw [hc x]
    simp [cnt]
  have hmem : ∀ x ∈ bs, (x, bs.count x) ∈ bs.foldl (fun m b => bucketIns b m) [] := by
    intro x hx
    have hpos : 0 < cnt (bs.foldl (fun m b => bucketIns b m) []) x := by
      rw [hcnt x]
      exact List.count_pos_iff.2 hx
    have := mem_of_cnt_pos _ x hpos
    rwa [hcnt x] at this
  obtain ⟨b0, hb0⟩ := List.exists_mem_of_ne_nil bs hne
  have hex : ∃ e ∈ bs.foldl (fun m b => bucketIns b m) [], 0 < e.2 :=
    ⟨_, hmem b0 hb0, List.count_pos_iff.2 hb0⟩
  obtain ⟨l1, b, c, l2, hm, hres, hl1, hl2, hlt⟩ := modeLoop_pick _ 0 Val.nan hex
  have hbm : (b, c) ∈ bs.foldl (fun m b => bucketIns b m) [] := by
    rw [hm]
    simp
  have hbc : bs.count b = c := by
    rw [← hcnt b]
    exact cnt_of_mem _ hs (b, c) hbm
  rw [hm] at hs
  rw [List.pairwise_append] at hs
  have hs2 := (List.pairwise_cons.1 hs.2.1).1
  refine ⟨b, ?_, ?_, ?_, ?_⟩
  · rw [hres]
  · exact List.count_pos_iff.1 (by rw [hbc]; exact hlt)
  · intro b' hb'
    have h' := hmem b' hb'
    rw [hm] at h'
    rw [hbc]
    rcases List.mem_append.1 h' with h1 | h1
    · exact le_of_lt (hl1 _ h1)
    · rcases List.mem_cons.1 h1 with h2 | h2
      · exact le_of_eq (congrArg Prod.snd h2)
      · exact hl2 _ h2
  · intro b' hb' heq
    have h' := hmem b' hb'
    rw [hm] at h'
    rcases List.mem_append.1 h' with h1 | h1
    · have := hl1 _ h1
      simp only [heq, hbc] at this
      exact absurd this (lt_irrefl c)
    · rcases List.mem_cons.1 h1 with h2 | h2
      · exact le_of_eq (congrArg Prod.fst h2).symm
      · exact le_of_lt (hs2 _ h2)

/-- The result of the MODE statistic in terms of the picked bucket. -/
theorem modeStatistic_eq (N : Numerics α) (q : CCVector3 α) (oct : DgmOctree α)
    (lvl : Nat) (f : IScalarFieldWrapper α) (r : Val α) (out : Val α) (vs : List α)
    (hv : (oct.findNeighborsInASphereStartingFromCell q lvl r).map f.pointValue
      = vs.map Val.num)
    (hne : vs ≠ []) :
    ExtractStatFromSF N q (some oct) lvl Stat.MODE f r out =
      (true, (modeLoop (liftMap ((vs.map N.toFloat).foldl (fun m b => bucketIns b m) []))
        (0, Val.nan)).2) := by
  have hlen : (oct.findNeighborsInASphereStartingFromCell q lvl r).length = vs.length := by
    have := congrArg List.length hv
    simpa using this
  have hpos : vs.length ≠ 0 := by
    intro h
    exact hne (List.length_eq_zero.1 h)
  have hm := statLoop_counters N false f _ vs (Val.num 0) (Val.num 0) [] hv
  simp only [liftMap, List.map_nil] at hm
  simp only [ExtractStatFromSF, hlen, hpos, if_false, reduceCtorEq, decide_False, decide_True,
    or_true, true_or, or_false, false_or, if_true, hm]
  rfl

end ExtractStatFromSFLemmas

/-! ### The claims on `ExtractStatFromSF` -/

section ExtractStatFromSFClaims

variable {α : Type} [LinearOrderedField α]

/-- C1: for neighbours whose values are the numbers `v_1..v_k` (`k ≥ 1`),
`ExtractStatFromSF` with statistic STD succeeds and outputs
`sqrt(|sum2·k − sum·sum|) / k`, where `sum = Σ v_i` and `sum2 = Σ v_i²`. -/
theorem ExtractStatFromSF_STD (N : Numerics α) (q : CCVector3 α) (oct : DgmOctree α)
    (lvl : Nat) (f : IScalarFieldWrapper α) (r : Val α) (out : Val α) (vs : List α)
    (hv : (oct.findNeighborsInASphereStartingFromCell q lvl r).map f.pointValue
      = vs.map Val.num)
    (hne : vs ≠ []) :
    ExtractStatFromSF N q (some oct) lvl Stat.STD f r out =
      (true, Val.num (N.sqrt |(vs.map (fun v => v ^ 2)).sum * (vs.length : α)
        - vs.sum * vs.sum| / (vs.length : α))) := by
  have hlen : (oct.findNeighborsInASphereStartingFromCell q lvl r).length = vs.length := by
    have := congrArg List.length hv
    simpa using this
  have hpos : vs.length ≠ 0 := by
    intro h
    exact hne (List.length_eq_zero.1 h)
  have hk : ((vs.length : α) ≠ 0) := Val.ofNat_ne_zero hpos
  have hs := statLoop_sums N false f _ vs 0 0 [] hv
  simp only [ExtractStatFromSF, hlen, hpos, if_false, reduceCtorEq, decide_False, decide_True,
    or_true, true_or, or_false, false_or, Val.ofNat]
  rw [hs.1, hs.2]
  simp only [zero_add, Val.num_mul, Val.num_sub, Val.abs_num, Numerics.vsqrt_num]
  rw [Val.num_div_of_ne _ hk]
  simp [pow_two]

/-- C2 (amended): for neighbours whose values are the finite numbers `vs` (`k ≥ 1`, no NaN
and no infinity among them), the streaming loop of the RANGE statistic outputs `max − min`
as computed by an independent full scan of the values (the greatest and the least of
them); the output is `0` when `k = 1`. -/
theorem ExtractStatFromSF_RANGE (N : Numerics α) (q : CCVector3 α) (oct : DgmOctree α)
    (lvl : Nat) (f : IScalarFieldWrapper α) (r : Val α) (out : Val α) (vs : List α)
    (hv : (oct.findNeighborsInASphereStartingFromCell q lvl r).map f.pointValue
      = vs.map Val.num)
    (hne : vs ≠ []) :
    ExtractStatFromSF N q (some oct) lvl Stat.RANGE f r out
      = (true, Val.num (fullScanMax vs - fullScanMin vs)) ∧
    (∃ mn mx, mn ∈ vs ∧ mx ∈ vs ∧ (∀ v ∈ vs, mn ≤ v ∧ v ≤ mx) ∧
      ExtractStatFromSF N q (some oct) lvl Stat.RANGE f r out = (true, Val.num (mx - mn))) ∧
    (vs.length = 1 →
      ExtractStatFromSF N q (some oct) lvl Stat.RANGE f r out = (true, Val.num 0)) := by
  have hlen : (oct.findNeighborsInASphereStartingFromCell q lvl r).length = vs.length := by
    have := congrArg List.length hv
    simpa using this
  have hpos : vs.length ≠ 0 := by
    intro h
    exact hne (List.length_eq_zero.1 h)
  obtain ⟨mn, mx, he, hmn, hmx, hall⟩ := rangeLoop_init f _ vs hv hne
  have hout : ExtractStatFromSF N q (some oct) lvl Stat.RANGE f r out
      = (true, Val.num (mx - mn)) := by
    simp only [ExtractStatFromSF, hlen, hpos, if_false, if_true, he, Val.num_sub]
  obtain ⟨smax, smin, sall⟩ := fullScan_spec vs hne
  have hmaxeq : mx = fullScanMax vs :=
    le_antisymm (sall mx hmx).2 (hall _ smax).2
  have hmineq : mn = fullScanMin vs :=
    le_antisymm (hall _ smin).1 (sall mn hmn).1
  refine ⟨by rw [hout, hmaxeq, hmineq], ⟨mn, mx, hmn, hmx, hall, hout⟩, ?_⟩
  intro h1
  obtain ⟨v, rfl⟩ := List.length_eq_one.1 h1
  simp only [List.mem_singleton] at hmn hmx
  rw [hout, hmn, hmx, sub_self]

/-- C4: for neighbours whose values are the numbers `vs` (`k ≥ 1`), the SKEW statistic
succeeds; with `mean = sum/k`, `std = sqrt(|sum2/k − mean²|)` and `mode` the result of the
MODE statistic, the output is `(mean − mode)/std` when `std > epsilon` and the sentinel
missing value when `std ≤ epsilon`; the divisor of the quotient is never zero. -/
theorem ExtractStatFromSF_SKEW (N : Numerics α) (q : CCVector3 α) (oct : DgmOctree α)
    (lvl : Nat) (f : IScalarFieldWrapper α) (r : Val α) (out : Val α) (vs : List α)
    (mean std : α)
    (hv : (oct.findNeighborsInASphereStartingFromCell q lvl r).map f.pointValue
      = vs.map Val.num)
    (hne : vs ≠ [])
    (hmean : mean = vs.sum / (vs.length : α))
    (hstd : std = N.sqrt |(vs.map (fun v => v ^ 2)).sum / (vs.length : α) - mean ^ 2|) :
    ∃ mode, ExtractStatFromSF N q (some oct) lvl Stat.MODE f r out = (true, Val.num mode) ∧
      (floatEpsilon < std →
        std ≠ 0 ∧ ExtractStatFromSF N q (some oct) lvl Stat.SKEW f r out
          = (true, Val.num ((mean - mode) / std))) ∧
      (std ≤ floatEpsilon →
        ExtractStatFromSF N q (some oct) lvl Stat.SKEW f r out = (true, Val.nan)) := by
  have hbs : vs.map N.toFloat ≠ [] := by simpa using hne
  obtain ⟨b, hb, -, -, -⟩ := modeLoop_spec (vs.map N.toFloat) hbs
  have hout := modeStatistic_eq N q oct lvl f r out vs hv hne
  rw [hb] at hout
  have hlen : (oct.findNeighborsInASphereStartingFromCell q lvl r).length = vs.length := by
    have := congrArg List.length hv
    simpa using this
  have hpos : vs.length ≠ 0 := by
    intro h
    exact hne (List.length_eq_zero.1 h)
  have hk : ((vs.length : α) ≠ 0) := Val.ofNat_ne_zero hpos
  have hs := statLoop_sums N true f _ vs 0 0 [] hv
  have hm := statLoop_counters N true f _ vs (Val.num 0) (Val.num 0) [] hv
  simp only [liftMap, List.map_nil] at hm
  have hm' : (modeLoop (statLoop N true true f
      (oct.findNeighborsInASphereStartingFromCell q lvl r) (Val.num 0, Val.num 0, [])).2.2
      (0, Val.nan)).2 = Val.num b := by
    rw [hm]
    exact hb
  have hskew : ExtractStatFromSF N q (some oct) lvl Stat.SKEW f r out
      = if floatEpsilon < std then (true, Val.num (mean - b) / Val.num std)
        else (true, Val.nan) := by
    simp only [ExtractStatFromSF, hlen, hpos, if_false, reduceCtorEq, decide_False, decide_True,
      or_true, true_or, or_false, false_or, if_true, Val.ofNat, hm']
    rw [hs.1, hs.2]
    simp only [zero_add, Val.num_div_of_ne _ hk, Val.num_mul, Val.num_sub, Val.abs_num,
      Numerics.vsqrt_num, Val.gt_num, decide_eq_true_eq]
    have e1 : (vs.map (fun v => v * v)).sum = (vs.map (fun v => v ^ 2)).sum := by
      simp [pow_two]
    rw [e1, ← hmean, ← pow_two, ← hstd]
  refine ⟨b, hout, ?_, ?_⟩
  · intro hgt
    have hne0 : std ≠ 0 := ne_of_gt (lt_trans floatEpsilon_pos hgt)
    refine ⟨hne0, ?_⟩
    rw [hskew, if_pos hgt, Val.num_div_of_ne _ hne0]
  · intro hle
    rw [hskew, if_neg (not_lt.2 hle)]

/-- C5: when the spherical query returns no neighbour, `ExtractStatFromSF` reports success
and outputs the sentinel missing value, whatever the statistic. -/
theorem ExtractStatFromSF_no_neighbour (N : Numerics α) (q : CCVector3 α)
    (oct : DgmOctree α) (lvl : Nat) (stat : Stat) (f : IScalarFieldWrapper α) (r : Val α)
    (out : Val α) (h : oct.findNeighborsInASphereStartingFromCell q lvl r = []) :
    ExtractStatFromSF N q (some oct) lvl stat f r out = (true, Val.nan) := by
  unfold ExtractStatFromSF
  simp only [h, List.length_nil, if_true]

end ExtractStatFromSFClaims

/-! ### `PerformMathOp` -/

section PerformMathOpLemmas

variable {α : Type} [LinearOrderedField α]

theorem World.sf?_setSF_same (w : World α) (p : SFPtr) (sf sf0 : ScalarField α)
    (h : w.sf? p = some sf0) : (w.setSF p sf).sf? p = some sf := by
  unfold World.sf? at h
  have hlt : p.index < (w.clouds p.cloud).scalarFields.length := by
    by_contra hcon
    rw [List.getElem?_eq_none (not_lt.1 hcon)] at h
    exact Option.noConfusion h
  simp [World.sf?, World.setSF, World.setCloud, List.getElem?_set_self hlt]

theorem World.sf?_setSF_ne (w : World α) (p q : SFPtr) (sf : ScalarField α) (h : p ≠ q) :
    (w.setSF p sf).sf? q = w.sf? q := by
  unfold World.sf? World.setSF World.setCloud
  by_cases hc : q.cloud = p.cloud
  · have hi : p.index ≠ q.index := by
      intro hi
      apply h
      cases p
      cases q
      simp only at hc hi
      simp [hc, hi]
    simp only [hc, if_true]
    rw [List.getElem?_set_ne hi]
  · simp only [hc, if_false]

theorem ScalarField.getValue_setValue (sf : ScalarField α) (n i : Nat) (v : Val α)
    (hn : n < sf.values.length) :
    (sf.setValue n v).getValue i = if i = n then v else sf.getValue i := by
  unfold ScalarField.getValue ScalarField.setValue
  simp only [List.getD_eq_getElem?_getD]
  by_cases h : i = n
  · subst h
    simp [List.getElem?_set_self hn]
  · rw [List.getElem?_set_ne (Ne.symm h), if_neg h]

/-- The state of the two fields after the first `n` iterations of the loop; the two
pointers may designate the same field. -/
theorem mathOp_foldl (op : Operation) (p1 p2 : SFPtr) (a b : ScalarField α) :
    ∀ (n : Nat) (w : World α), n ≤ a.values.length → w.sf? p1 = some a → w.sf? p2 = some b →
      ∃ a' b', ((List.range n).foldl (mathOpStep op p1 p2) w).sf? p1 = some a' ∧
        ((List.range n).foldl (mathOpStep op p1 p2) w).sf? p2 = some b' ∧
        a'.name = a.name ∧ a'.values.length = a.values.length ∧
        (∀ i, a'.getValue i
          = if i < n then mathOpValue op (a.getValue i) (b.getValue i) else a.getValue i) ∧
        (∀ i, n ≤ i → b'.getValue i = b.getValue i) ∧
        (p1 ≠ p2 → b' = b) := by
  intro n
  induction n with
  | zero =>
    intro w _ h1 h2
    exact ⟨a, b, h1, h2, rfl, rfl, by simp, fun _ _ => rfl, fun _ => rfl⟩
  | succ n ih =>
    intro w hn h1 h2
    obtain ⟨a', b', ha', hb', hname, hlen, hval, hbval, hbeq⟩ :=
      ih w (Nat.le_of_succ_le hn) h1 h2
    rw [List.range_succ, List.foldl_append]
    simp only [List.foldl_cons, List.foldl_nil]
    have hstep : mathOpStep op p1 p2 ((List.range n).foldl (mathOpStep op p1 p2) w) n
        = ((List.range n).foldl (mathOpStep op p1 p2) w).setSF p1
            (a'.setValue n (mathOpValue op (a'.getValue n) (b'.getValue n))) := by
      simp only [mathOpStep, ha', hb']
    rw [hstep]
    have hn' : n < a'.values.length := by rw [hlen]; exact hn
    have hread : mathOpValue op (a'.getValue n) (b'.getValue n)
        = mathOpValue op (a.getValue n) (b.getValue n) := by
      rw [hval n, if_neg (Nat.lt_irrefl n), hbval n (le_refl n)]
    have hnew := World.sf?_setSF_same _ p1
      (a'.setValue n (mathOpValue op (a'.getValue n) (b'.getValue n))) a' ha'
    by_cases hp : p1 = p2
    · subst hp
      have hab : a' = b' := by
        rw [ha'] at hb'
        exact Option.some.inj hb'
      refine ⟨_, _, hnew, hnew, hname, ?_, ?_, ?_, fun h => absurd rfl h⟩
      · simp [ScalarField.setValue, hlen]
      · intro i
        rw [ScalarField.getValue_setValue a' n i _ hn', hread]
        by_cases hi : i = n
        · subst hi
          rw [if_pos rfl, if_pos (Nat.lt_succ_self i)]
        · rw [if_neg hi, hval i]
          by_cases hlt : i < n
          · rw [if_pos hlt, if_pos (Nat.lt_succ_of_lt hlt)]
          · rw [if_neg hlt, if_neg]
            intro h
            exact hi (Nat.le_antisymm (Nat.le_of_lt_succ h) (not_lt.1 hlt))
      · intro i hi
        have hne : i ≠ n := by omega
        rw [ScalarField.getValue_setValue a' n i _ hn', if_neg hne, hab]
        exact hbval i (by omega)
    · refine ⟨_, b', hnew, ?_, hname, ?_, ?_, ?_, hbeq⟩
      · rw [World.sf?_setSF_ne _ p1 p2 _ hp]
        exact hb'
      · simp [ScalarField.setValue, hlen]
      · intro i
        rw [ScalarField.getValue_setValue a' n i _ hn', hread]
        by_cases hi : i = n
        · subst hi
          rw [if_pos rfl, if_pos (Nat.lt_succ_self i)]
        · rw [if_neg hi, hval i]
          by_cases hlt : i < n
          · rw [if_pos hlt, if_pos (Nat.lt_succ_of_lt hlt)]
          · rw [if_neg hlt, if_neg]
            intro h
            exact hi (Nat.le_antisymm (Nat.le_of_lt_succ h) (not_lt.1 hlt))
      · intro i hi
        exact hbval i (by omega)

theorem scalarEpsilon_pos : (0 : α) < scalarEpsilon := floatEpsilon_pos

end PerformMathOpLemmas

section PerformMathOpClaims

variable {α : Type} [LinearOrderedField α]

/-- C6: for two fields `a`, `b` of equal length and an operation other than NO_OPERATION,
`PerformMathOp` succeeds and the first field then holds at every index `i` `a[i]−b[i]` for
MINUS, `a[i]+b[i]` for PLUS, `a[i]·b[i]` for MULTIPLY, and for DIVIDE `a[i]/b[i]` if
`|b[i]| > epsilon` and the sentinel missing value if `|b[i]| ≤ epsilon`; the length of the
first field is unchanged, and so is the second field (a field other than the first). -/
theorem PerformMathOp_spec (w : World α) (p1 p2 : SFPtr) (a b : ScalarField α)
    (op : Operation) (h1 : w.sf? p1 = some a) (h2 : w.sf? p2 = some b)
    (hlen : a.size = b.size) (hop : op ≠ Operation.NO_OPERATION) :
    (PerformMathOp w (some p1) (some p2) op).1 = true ∧
    (∃ a', (PerformMathOp w (some p1) (some p2) op).2.sf? p1 = some a' ∧
      a'.size = a.size ∧
      ∀ i, i < a.size →
        (op = Operation.MINUS → a'.getValue i = a.getValue i - b.getValue i) ∧
        (op = Operation.PLUS → a'.getValue i = a.getValue i + b.getValue i) ∧
        (op = Operation.MULTIPLY → a'.getValue i = a.getValue i * b.getValue i) ∧
        (op = Operation.DIVIDE →
          (a'.getValue i = if Val.gt (Val.abs (b.getValue i)) (Val.num scalarEpsilon)
            then a.getValue i / b.getValue i else Val.nan) ∧
          (∀ x y, a.getValue i = Val.num x → b.getValue i = Val.num y → scalarEpsilon < |y| →
            a'.getValue i = Val.num (x / y)) ∧
          (∀ y, b.getValue i = Val.num y → |y| ≤ scalarEpsilon → a'.getValue i = Val.nan))) ∧
    (p1 ≠ p2 → (PerformMathOp w (some p1) (some p2) op).2.sf? p2 = some b) := by
  obtain ⟨a', b', ha', hb', -, hl, hval, -, hbeq⟩ :=
    mathOp_foldl op p1 p2 a b a.values.length w (le_refl _) h1 h2
  have hrun : PerformMathOp w (some p1) (some p2) op
      = (true, (List.range a.size).foldl (mathOpStep op p1 p2) w) := by
    simp [PerformMathOp, h1, h2, hlen, hop]
  rw [hrun]
  refine ⟨rfl, ⟨a', ha', hl, ?_⟩, fun hne => by rw [← hbeq hne]; exact hb'⟩
  intro i hi
  have hv := hval i
  rw [if_pos (show i < a.values.length from hi)] at hv
  refine ⟨?_, ?_, ?_, ?_⟩
  · intro h; rw [hv, h]; rfl
  · intro h; rw [hv, h]; rfl
  · intro h; rw [hv, h]; rfl
  · intro h
    rw [h] at hv
    refine ⟨hv, ?_, ?_⟩
    · intro x y hx hy hgt
      have hy0 : y ≠ 0 := by
        intro h0
        rw [h0, abs_zero] at hgt
        exact absurd hgt (not_lt.2 (le_of_lt scalarEpsilon_pos))
      rw [hv, hx, hy]
      simp [mathOpValue, hgt, Val.num_div_of_ne _ hy0]
    · intro y hy hle
      rw [hv, hy]
      simp [mathOpValue, not_lt.2 hle]

/-- C7: a descriptor accepted by `Feature::checkValidity` has at least one cloud set; a
statistic only with a finite scale and the type PointFeature; an operation only with a
finite scale, both clouds set and a type other than DualCloudFeature; and both clouds set
when its type is DualCloudFeature or ContextBasedFeature. -/
theorem checkValidity_contract (f : Feature α) (error : String)
    (h : (f.checkValidity error).1 = true) :
    (f.cloud1 ≠ none ∨ f.cloud2 ≠ none) ∧
    (f.stat ≠ Stat.NO_STAT → f.scaled = true ∧ f.getType = FeatureType.PointFeature) ∧
    (f.op ≠ Operation.NO_OPERATION →
      f.scaled = true ∧ f.cloud1 ≠ none ∧ f.cloud2 ≠ none ∧
      f.getType ≠ FeatureType.DualCloudFeature) ∧
    (f.getType = FeatureType.DualCloudFeature ∨ f.getType = FeatureType.ContextBasedFeature →
      f.cloud1 ≠ none ∧ f.cloud2 ≠ none) := by
  unfold Feature.checkValidity at h
  cases h1 : f.cloud1 <;> cases h2 : f.cloud2 <;> cases hs : f.scaled <;>
    simp [h1, h2, hs] at h ⊢ <;> split_ifs at h <;> simp_all

end PerformMathOpClaims

/-! ### `PointFeature::prepare`, scale-less branch -/

section UnscaledLemmas

variable {α : Type} [LinearOrderedField α]

theorem findSF_some (p : ScalarField α → Bool) : ∀ (l : List (ScalarField α)) (i : Nat),
    findSF p l = some i → ∃ sf, l[i]? = some sf ∧ p sf = true := by
  intro l
  induction l with
  | nil => intro i h; simp [findSF] at h
  | cons a l ih =>
    intro i h
    by_cases ha : p a = true
    · simp only [findSF, ha, if_true, Option.some.injEq] at h
      subst h
      exact ⟨a, by simp, ha⟩
    · simp only [findSF, ha, Bool.false_eq_true, if_false, Option.map_eq_some'] at h
      obtain ⟨j, hj, rfl⟩ := h
      obtain ⟨sf, hsf, hp⟩ := ih j hj
      exact ⟨sf, by simpa using hsf, hp⟩

theorem findSF_none (p : ScalarField α → Bool) : ∀ (l : List (ScalarField α)),
    findSF p l = none → ∀ sf ∈ l, p sf = false := by
  intro l
  induction l with
  | nil => intro _ sf hsf; simp at hsf
  | cons a l ih =>
    intro h sf hsf
    by_cases ha : p a = true
    · simp [findSF, ha] at h
    · simp only [findSF, ha, Bool.false_eq_true, if_false, Option.map_eq_none'] at h
      rcases List.mem_cons.1 hsf with h' | h'
      · subst h'; simpa using ha
      · exact ih h sf h'

theorem findSF_append_some (p : ScalarField α → Bool) (l' : List (ScalarField α)) :
    ∀ (l : List (ScalarField α)) (i : Nat), findSF p l = some i → findSF p (l ++ l') = some i := by
  intro l
  induction l with
  | nil => intro i h; simp [findSF] at h
  | cons a l ih =>
    intro i h
    by_cases ha : p a = true
    · simp only [findSF, ha, if_true] at h ⊢
      simpa [findSF, ha] using h
    · simp only [findSF, ha, Bool.false_eq_true, if_false, Option.map_eq_some'] at h
      obtain ⟨j, hj, rfl⟩ := h
      simp [findSF, ha, ih j hj]

theorem findSF_append_none (p : ScalarField α → Bool) (sf : ScalarField α) :
    ∀ (l : List (ScalarField α)), findSF p l = none → p sf = true →
      findSF p (l ++ [sf]) = some l.length := by
  intro l
  induction l with
  | nil => intro _ hp; simp [findSF, hp]
  | cons a l ih =>
    intro h hp
    by_cases ha : p a = true
    · simp [findSF, ha] at h
    · simp only [findSF, ha, Bool.false_eq_true, if_false, Option.map_eq_none'] at h
      simp [findSF, ha, ih h hp]

theorem FieldWrapper.pointValue?_congr (fw : FieldWrapper) (w w' : World α)
    (h : w'.clouds = w.clouds) (i : Nat) : fw.pointValue? w' i = fw.pointValue? w i := by
  unfold FieldWrapper.pointValue? World.sf?
  rw [h]

/-- The copy loop writes, at every index it visits, the source value at the mapped origin
index, and keeps the name and the length of the field. -/
theorem copyLoop_spec (w : World α) (field1 : FieldWrapper) (cp : CorePoints) :
    ∀ (is : List Nat) (sf : ScalarField α) (S : Nat → Prop),
      (∀ i ∈ is, i < sf.size ∧ ∃ v, field1.pointValue? w (cp.originIndex i) = some v) →
      (∀ j, S j → sf.values[j]? = field1.pointValue? w (cp.originIndex j)) →
      ∃ sf', copyLoop w field1 cp is sf = Run.done sf' ∧ sf'.name = sf.name ∧
        sf'.values.length = sf.values.length ∧
        ∀ j, (S j ∨ j ∈ is) → sf'.values[j]? = field1.pointValue? w (cp.originIndex j) := by
  intro is
  induction is with
  | nil =>
    intro sf S _ hS
    refine ⟨sf, rfl, rfl, rfl, ?_⟩
    intro j hj
    rcases hj with h | h
    · exact hS j h
    · simp at h
  | cons i rest ih =>
    intro sf S hall hS
    obtain ⟨hi, v, hv⟩ := hall i (List.mem_cons_self _ _)
    have hi' : i < sf.values.length := hi
    obtain ⟨sf', hrun, hname, hlen, hvals⟩ := ih (sf.setValue i v) (fun j => S j ∨ j = i)
      (by
        intro k hk
        obtain ⟨hk1, hk2⟩ := hall k (List.mem_cons_of_mem _ hk)
        refine ⟨?_, hk2⟩
        simpa [ScalarField.size, ScalarField.setValue] using hk1)
      (by
        intro j hj
        by_cases hji : j = i
        · subst hji
          simp [ScalarField.setValue, List.getElem?_set_self hi', hv]
        · rcases hj with h | h
          · simp only [ScalarField.setValue]
            rw [List.getElem?_set_ne (Ne.symm hji)]
            exact hS j h
          · exact absurd h hji)
    refine ⟨sf', ?_, ?_, ?_, ?_⟩
    · simp only [copyLoop, hv, hi, if_true]
      exact hrun
    · rw [hname]; rfl
    · rw [hlen]; simp [ScalarField.setValue]
    · intro j hj
      apply hvals j
      rcases hj with h | h
      · exact Or.inl (Or.inl h)
      · rcases List.mem_cons.1 h with h' | h'
        · exact Or.inl (Or.inr h')
        · exact Or.inr h'

/-- The copy loop keeps the name of the field whenever it completes. -/
theorem copyLoop_name (w : World α) (field1 : FieldWrapper) (cp : CorePoints) :
    ∀ (is : List Nat) (sf sf' : ScalarField α),
      copyLoop w field1 cp is sf = Run.done sf' → sf'.name = sf.name := by
  intro is
  induction is with
  | nil =>
    intro sf sf' h
    simp only [copyLoop, Run.done.injEq] at h
    rw [← h]
  | cons i rest ih =>
    intro sf sf' h
    simp only [copyLoop] at h
    split at h
    · exact Run.noConfusion h
    · split_ifs at h
      have := ih (sf.setValue i _) sf' h
      simpa [ScalarField.setValue] using this

theorem retrieveField_sourceName (E : Env α) (w : World α) (pf : PointFeature α)
    (cloud : Option Nat) (error : String) (name : String) :
    PointFeature.retrieveField E w { pf with sourceName := name } cloud error
      = pf.retrieveField E w cloud error := rfl

/-- A field found by `RetrieveSF` is found again, unchanged, after fields are appended. -/
theorem RetrieveSF_stable (E : Env α) (w w' : World α) (c : Nat) (extra : List (ScalarField α))
    (hsf : (w'.clouds c).scalarFields = (w.clouds c).scalarFields ++ extra)
    (n : String) (cs : Bool) (p : SFPtr) (h : RetrieveSF E w c n cs = some p) :
    RetrieveSF E w' c n cs = some p ∧ w'.sf? p = w.sf? p := by
  simp only [RetrieveSF, Option.map_eq_some'] at h
  obtain ⟨i, hi, rfl⟩ := h
  obtain ⟨sf, hsf', -⟩ := findSF_some _ _ i hi
  have hlt : i < (w.clouds c).scalarFields.length := by
    by_contra hcon
    rw [List.getElem?_eq_none (not_lt.1 hcon)] at hsf'
    exact Option.noConfusion hsf'
  refine ⟨?_, ?_⟩
  · simp only [RetrieveSF, hsf, findSF_append_some _ extra _ i hi, Option.map_some']
  · simp only [World.sf?, hsf]
    exact List.getElem?_append_left hlt

theorem retrieveStored_stable (E : Env α) (w w' : World α) (c : Nat)
    (extra : List (ScalarField α))
    (hsf : (w'.clouds c).scalarFields = (w.clouds c).scalarFields ++ extra)
    (n : String) (cs : Bool) (msg error error2 e' : String) (fw : FieldWrapper)
    (h : retrieveStored E w c n cs msg error = (some fw, e')) :
    retrieveStored E w' c n cs msg error2 = (some fw, error2) := by
  unfold retrieveStored at h ⊢
  cases hr : RetrieveSF E w c n cs with
  | none => rw [hr] at h; simp at h
  | some p =>
    rw [hr] at h
    obtain ⟨h1, h2⟩ := RetrieveSF_stable E w w' c extra hsf n cs p hr
    simp only [Prod.mk.injEq, Option.some.injEq] at h
    rw [h1]
    simp only [ScalarFieldWrapper, h2]
    simp only [ScalarFieldWrapper] at h
    rw [h.1]

/-- A source resolved on a cloud is resolved again, to the same wrapper, after fields are
appended to the cloud. -/
theorem retrieveField_stable (E : Env α) (w w' : World α) (pf : PointFeature α) (c : Nat)
    (extra : List (ScalarField α))
    (hsf : (w'.clouds c).scalarFields = (w.clouds c).scalarFields ++ extra)
    (hpts : (w'.clouds c).points = (w.clouds c).points)
    (hnorm : (w'.clouds c).hasNormals = (w.clouds c).hasNormals)
    (error error2 e' : String) (fw : FieldWrapper)
    (h : pf.retrieveField E w (some c) error = (some fw, e')) :
    pf.retrieveField E w' (some c) error2 = (some fw, error2) := by
  unfold PointFeature.retrieveField at h ⊢
  cases ht : pf.type <;> simp only [ht] at h ⊢
  case Intensity => exact retrieveStored_stable E w w' c extra hsf _ _ _ _ _ _ _ h
  case NbRet => exact retrieveStored_stable E w w' c extra hsf _ _ _ _ _ _ _ h
  case RetNb => exact retrieveStored_stable E w w' c extra hsf _ _ _ _ _ _ _ h
  case NIR => exact retrieveStored_stable E w w' c extra hsf _ _ _ _ _ _ _ h
  case M3C2 => exact retrieveStored_stable E w w' c extra hsf _ _ _ _ _ _ _ h
  case PCV => exact retrieveStored_stable E w w' c extra hsf _ _ _ _ _ _ _ h
  case X => simp only [Prod.mk.injEq, Option.some.injEq] at h ⊢; exact ⟨h.1, trivial⟩
  case Y => simp only [Prod.mk.injEq, Option.some.injEq] at h ⊢; exact ⟨h.1, trivial⟩
  case Z => simp only [Prod.mk.injEq, Option.some.injEq] at h ⊢; exact ⟨h.1, trivial⟩
  case R => simp only [Prod.mk.injEq, Option.some.injEq] at h ⊢; exact ⟨h.1, trivial⟩
  case G => simp only [Prod.mk.injEq, Option.some.injEq] at h ⊢; exact ⟨h.1, trivial⟩
  case B => simp only [Prod.mk.injEq, Option.some.injEq] at h ⊢; exact ⟨h.1, trivial⟩
  case Invalid => simp at h
  case DipAng =>
    rw [hnorm]
    split_ifs at h ⊢ with hn
    · simp at h
    · simp only [Prod.mk.injEq, Option.some.injEq] at h ⊢; exact ⟨h.1, trivial⟩
  case DipDir =>
    rw [hnorm]
    split_ifs at h ⊢ with hn
    · simp at h
    · simp only [Prod.mk.injEq, Option.some.injEq] at h ⊢; exact ⟨h.1, trivial⟩
  case SF =>
    split_ifs at h with hidx
    · simp at h
    · have hidx' : ¬ (pf.sourceSFIndex < 0
          ∨ pf.sourceSFIndex ≥ ((w'.clouds c).scalarFields.length : Int)) := by
        intro hcon
        apply hidx
        rcases hcon with h0 | h0
        · exact Or.inl h0
        · right
          rw [hsf, List.length_append] at h0
          push_cast at h0
          have : (0 : Int) ≤ (extra.length : Int) := Int.ofNat_nonneg _
          push_neg at hidx
          omega
      rw [if_neg hidx']
      push_neg at hidx
      have hlt : pf.sourceSFIndex.toNat < (w.clouds c).scalarFields.length := by
        omega
      have hsame : w'.sf? ⟨c, pf.sourceSFIndex.toNat⟩ = w.sf? ⟨c, pf.sourceSFIndex.toNat⟩ := by
        simp only [World.sf?, hsf]
        exact List.getElem?_append_left hlt
      simp only [Prod.mk.injEq, Option.some.injEq] at h ⊢
      refine ⟨?_, trivial⟩
      rw [← h.1]
      simp only [ScalarFieldWrapper, hsame]
  case EchoRat =>
    cases h1 : RetrieveSF E w c E.LAS_NUMBER_OF_RETURNS false with
    | none => rw [h1] at h; simp at h
    | some p1 =>
      rw [h1] at h
      simp only at h
      cases h2 : RetrieveSF E w c E.LAS_RETURN_NUMBER false with
      | none => rw [h2] at h; simp at h
      | some p2 =>
        rw [h2] at h
        simp only at h
        obtain ⟨h1a, h1b⟩ := RetrieveSF_stable E w w' c extra hsf _ _ p1 h1
        obtain ⟨h2a, h2b⟩ := RetrieveSF_stable E w w' c extra hsf _ _ p2 h2
        rw [h1a, h2a]
        simp only [h1b, h2b, ccPointCloud.size, hpts]
        simp only [ccPointCloud.size] at h
        split_ifs at h ⊢ with hs
        · simp at h
        · simp only [Prod.mk.injEq, Option.some.injEq] at h ⊢; exact ⟨h.1, trivial⟩

/-- The scale-less branch when the core cloud already holds a field named like the
source: the field is reused and the state is left as it is. -/
theorem prepare_unscaled_reuse (E : Env α) (N : Numerics α) (pf : PointFeature α)
    (w : World α) (cp : CorePoints) (coreId c1 : Nat) (error e1 : String)
    (cb : Option (Nat → Bool)) (field1 : FieldWrapper) (sfIdx : Nat)
    (hscaled : pf.scaled = false) (hcore : cp.cloud = some coreId)
    (hc1 : pf.cloud1 = some c1)
    (hrf : pf.retrieveField E w (some c1) error = (some field1, e1))
    (g1 : ¬ (some c1 ≠ some coreId ∧ some c1 ≠ cp.origin))
    (g2 : ¬ (pf.cloud2.isSome = true ∧ pf.op ≠ Operation.NO_OPERATION))
    (hlook : (w.clouds coreId).getScalarFieldIndexByName field1.name = some sfIdx) :
    pf.prepare E N w cp error cb = Run.done
      ⟨true, { pf with sourceName := w.sfName ⟨coreId, sfIdx⟩ }, e1, w⟩ := by
  simp only [PointFeature.prepare, hc1, hcore, hrf, hscaled, Bool.false_eq_true, if_false,
    PointFeature.prepareUnscaled]
  rw [if_neg g1, if_neg g2]
  simp only [hlook]

theorem sfName_of_lookup (w : World α) (coreId : Nat) (name : String) (sfIdx : Nat)
    (h : (w.clouds coreId).getScalarFieldIndexByName name = some sfIdx) :
    w.sfName ⟨coreId, sfIdx⟩ = name ∧
      name ∈ (w.clouds coreId).scalarFields.map (fun f => f.name) := by
  obtain ⟨sf, hsf, hp⟩ := findSF_some _ _ sfIdx h
  have hn : sf.name = name := by simpa using hp
  refine ⟨?_, ?_⟩
  · simp [World.sfName, World.sf?, hsf, hn]
  · rw [List.mem_map]
    exact ⟨sf, List.getElem?_mem hsf, hn⟩

end UnscaledLemmas

section UnscaledClaims

variable {α : Type} [LinearOrderedField α]

/-- C9 (amended): for an unscaled descriptor whose `cloud1` is the core-points cloud or its
origin cloud, whose source resolves and which has no second cloud or no operation, if no
field named like the source exists on the core cloud, the new field can be allocated, the
core-point count is the size of the core cloud and the source is defined at every
`originIndex(i)`, then `prepare` succeeds and attaches one new field with the bare
source-field name, of the length of the core cloud, whose value at every core point `i`
is the source value at `originIndex(i)`; the recorded output name is that name. -/
theorem prepare_unscaled_new_field (E : Env α) (N : Numerics α) (pf : PointFeature α)
    (w : World α) (cp : CorePoints) (coreId c1 : Nat) (error : String)
    (cb : Option (Nat → Bool)) (field1 : FieldWrapper)
    (hscaled : pf.scaled = false)
    (hcore : cp.cloud = some coreId)
    (hc1 : pf.cloud1 = some c1)
    (hsrc : pf.cloud1 = cp.cloud ∨ pf.cloud1 = cp.origin)
    (hres : (pf.retrieveField E w pf.cloud1 error).1 = some field1)
    (hop : pf.cloud2 = none ∨ pf.op = Operation.NO_OPERATION)
    (hnew : (w.clouds coreId).getScalarFieldIndexByName field1.name = none)
    (halloc : E.resizeSafe w.allocations (w.clouds coreId).size = true)
    (hsize : cp.size = (w.clouds coreId).size)
    (hidx : ∀ i, i < cp.size → ∃ v, field1.pointValue? w (cp.originIndex i) = some v) :
    ∃ r sf, pf.prepare E N w cp error cb = Run.done r ∧ r.ok = true ∧
      r.feature.sourceName = field1.name ∧
      (r.world.clouds coreId).scalarFields = (w.clouds coreId).scalarFields ++ [sf] ∧
      sf.name = field1.name ∧ sf.values.length = (w.clouds coreId).size ∧
      ∀ i, i < cp.size → sf.values[i]? = field1.pointValue? w (cp.originIndex i) := by
  cases hrf : pf.retrieveField E w pf.cloud1 error with
  | mk fw e1 =>
    rw [hrf] at hres
    simp only at hres
    subst hres
    have hguard1 : ¬ (pf.cloud1 ≠ cp.cloud ∧ pf.cloud1 ≠ cp.origin) := by
      intro h
      rcases hsrc with h' | h'
      · exact h.1 h'
      · exact h.2 h'
    have hguard2 : ¬ (pf.cloud2.isSome = true ∧ pf.op ≠ Operation.NO_OPERATION) := by
      intro h
      rcases hop with h' | h'
      · rw [h'] at h; simp at h
      · exact h.2 h'
    obtain ⟨sf', hrun, hname, hlen, hvals⟩ :=
      copyLoop_spec ({ w with allocations := w.allocations + 1 } : World α) field1 cp
        (List.range cp.size)
        ⟨field1.name, List.replicate (w.clouds coreId).size (Val.num 0)⟩ (fun _ => False)
        (by
          intro i hi
          have hi' : i < cp.size := List.mem_range.1 hi
          refine ⟨?_, ?_⟩
          · simp only [ScalarField.size, List.length_replicate]
            rw [← hsize]; exact hi'
          · rw [FieldWrapper.pointValue?_congr field1 w
              { w with allocations := w.allocations + 1 } rfl]
            exact hidx i hi')
        (by intro j hj; exact False.elim hj)
    have hname' : sf'.name = field1.name := hname
    have hlook : ccPointCloud.getScalarFieldIndexByName (w.clouds coreId) sf'.name = none := by
      rw [hname']; exact hnew
    have hprep : pf.prepare E N w cp error cb = Run.done
        ⟨true, { pf with sourceName := sf'.name }, e1,
          World.setCloud { w with allocations := w.allocations + 1 } coreId
            ((w.clouds coreId).addScalarField sf').2⟩ := by
      rw [hc1] at hrf
      rw [hc1, hcore] at hguard1
      simp only [PointFeature.prepare, hc1, hcore, hrf, hscaled, Bool.false_eq_true, if_false,
        PointFeature.prepareUnscaled]
      rw [if_neg hguard1, if_neg hguard2]
      simp only [hnew, halloc, Bool.not_true, Bool.false_eq_true, if_false, hrun]
    refine ⟨_, sf', hprep, rfl, hname', ?_, hname', ?_, ?_⟩
    · simp only [World.setCloud, if_true, ccPointCloud.addScalarField, hlook]
    · rw [hlen]; simp
    · intro i hi
      rw [hvals i (Or.inr (List.mem_range.2 hi))]
      exact FieldWrapper.pointValue?_congr field1 w _ rfl _

/-- C10 (amended): when `prepare` of an unscaled descriptor succeeds on a core cloud whose
field names are distinct, a second `prepare` of the same descriptor against the same core cloud
succeeds, records the same name and leaves the state as the first call left it (so the
values of the field are those left by the first call), and the core cloud carries exactly
one field with the output name. -/
theorem prepare_unscaled_idempotent (E : Env α) (N : Numerics α) (pf : PointFeature α)
    (w : World α) (cp : CorePoints) (coreId : Nat) (error error2 : String)
    (cb cb2 : Option (Nat → Bool)) (r1 : PrepareResult α)
    (hscaled : pf.scaled = false) (hcore : cp.cloud = some coreId)
    (hnodup : ((w.clouds coreId).scalarFields.map (fun f => f.name)).Nodup)
    (h1 : pf.prepare E N w cp error cb = Run.done r1) (hok : r1.ok = true) :
    ∃ r2, r1.feature.prepare E N r1.world cp error2 cb2 = Run.done r2 ∧ r2.ok = true ∧
      r2.feature.sourceName = r1.feature.sourceName ∧
      r2.world = r1.world ∧
      (r2.world.clouds coreId).scalarFields = (r1.world.clouds coreId).scalarFields ∧
      ((r2.world.clouds coreId).scalarFields.map (fun f => f.name)).count
        r1.feature.sourceName = 1 := by
  cases hc1 : pf.cloud1 with
  | none =>
    simp only [PointFeature.prepare, hc1, Run.done.injEq] at h1
    rw [← h1] at hok
    simp at hok
  | some c1 =>
    cases hrf : pf.retrieveField E w (some c1) error with
    | mk fw e1 =>
      cases fw with
      | none =>
        simp only [PointFeature.prepare, hc1, hcore, hrf, Run.done.injEq] at h1
        rw [← h1] at hok
        simp at hok
      | some field1 =>
        simp only [PointFeature.prepare, hc1, hcore, hrf, hscaled, Bool.false_eq_true, if_false,
          PointFeature.prepareUnscaled] at h1
        by_cases g1 : some c1 ≠ some coreId ∧ some c1 ≠ cp.origin
        · rw [if_pos g1] at h1
          simp only [Run.done.injEq] at h1
          rw [← h1] at hok
          simp at hok
        rw [if_neg g1] at h1
        by_cases g2 : pf.cloud2.isSome = true ∧ pf.op ≠ Operation.NO_OPERATION
        · rw [if_pos g2] at h1
          simp only [Run.done.injEq] at h1
          rw [← h1] at hok
          simp at hok
        rw [if_neg g2] at h1
        cases hlook : (w.clouds coreId).getScalarFieldIndexByName field1.name with
          | some sfIdx =>
            rw [hlook] at h1
            simp only [Run.done.injEq] at h1
            subst h1
            have hrf2 := retrieveField_stable E w w pf c1 [] (by simp) rfl rfl error error2 e1
              field1 hrf
            obtain ⟨hname, hmem⟩ := sfName_of_lookup w coreId field1.name sfIdx hlook
            refine ⟨_, prepare_unscaled_reuse E N _ w cp coreId c1 error2 error2 cb2 field1 sfIdx
              hscaled hcore rfl hrf2 g1 g2 hlook, rfl, rfl, rfl, rfl, ?_⟩
            simp only [hname]
            exact List.count_eq_one_of_mem hnodup hmem
          | none =>
            rw [hlook] at h1
            simp only at h1
            by_cases halloc : (!E.resizeSafe w.allocations (w.clouds coreId).size) = true
            · rw [if_pos halloc] at h1
              simp only [Run.done.injEq] at h1
              rw [← h1] at hok
              simp at hok
            · rw [if_neg halloc] at h1
              cases hcopy : copyLoop ({ w with allocations := w.allocations + 1 } : World α)
                  field1 cp (List.range cp.size)
                  ⟨field1.name, List.replicate (w.clouds coreId).size (Val.num 0)⟩ with
              | fault => rw [hcopy] at h1; exact Run.noConfusion h1
              | done sf' =>
                rw [hcopy] at h1
                simp only [Run.done.injEq] at h1
                subst h1
                have hsfname : sf'.name = field1.name := copyLoop_name _ _ _ _ _ _ hcopy
                have hlook' : ccPointCloud.getScalarFieldIndexByName (w.clouds coreId) sf'.name
                    = none := by rw [hsfname]; exact hlook
                have hfields : ∀ c, ((World.setCloud
                    ({ w with allocations := w.allocations + 1 } : World α) coreId
                    ((w.clouds coreId).addScalarField sf').2).clouds c).scalarFields
                    = (w.clouds c).scalarFields ++ (if c = coreId then [sf'] else []) := by
                  intro c
                  by_cases hc : c = coreId
                  · subst hc
                    simp [World.setCloud, ccPointCloud.addScalarField, hlook']
                  · simp [World.setCloud, hc]
                have hpts : ∀ c, ((World.setCloud
                    ({ w with allocations := w.allocations + 1 } : World α) coreId
                    ((w.clouds coreId).addScalarField sf').2).clouds c).points
                    = (w.clouds c).points := by
                  intro c
                  by_cases hc : c = coreId
                  · subst hc
                    simp [World.setCloud, ccPointCloud.addScalarField, hlook']
                  · simp [World.setCloud, hc]
                have hnorm : ∀ c, ((World.setCloud
                    ({ w with allocations := w.allocations + 1 } : World α) coreId
                    ((w.clouds coreId).addScalarField sf').2).clouds c).hasNormals
                    = (w.clouds c).hasNormals := by
                  intro c
                  by_cases hc : c = coreId
                  · subst hc
                    simp [World.setCloud, ccPointCloud.addScalarField, hlook']
                  · simp [World.setCloud, hc]
                have hrf2 := retrieveField_stable E w _ pf c1 _ (hfields c1) (hpts c1) (hnorm c1)
                  error error2 e1 field1 hrf
                have hlook2 : ccPointCloud.getScalarFieldIndexByName ((World.setCloud
                    ({ w with allocations := w.allocations + 1 } : World α) coreId
                    ((w.clouds coreId).addScalarField sf').2).clouds coreId) field1.name
                    = some (w.clouds coreId).scalarFields.length := by
                  unfold ccPointCloud.getScalarFieldIndexByName
                  rw [hfields coreId, if_pos rfl]
                  exact findSF_append_none _ sf' _ hlook (by simp [hsfname])
                obtain ⟨hname, -⟩ := sfName_of_lookup _ coreId field1.name _ hlook2
                refine ⟨_, prepare_unscaled_reuse E N _ _ cp coreId c1 error2 error2 cb2 field1 _
                  hscaled hcore rfl hrf2 g1 g2 hlook2, rfl, ?_, rfl, rfl, ?_⟩
                · simp only [hname, hsfname]
                · simp only [hsfname]
                  rw [hfields coreId, if_pos rfl, List.map_append, List.count_append]
                  have hzero : ((w.clouds coreId).scalarFields.map (fun f => f.name)).count
                      field1.name = 0 := by
                    rw [List.count_eq_zero]
                    intro hmem
                    rw [List.mem_map] at hmem
                    obtain ⟨sf, hsf, hn⟩ := hmem
                    have := findSF_none _ _ hlook sf hsf
                    simp [hn] at this
                  rw [hzero]
                  simp [hsfname]

end UnscaledClaims

/-! ### `PointFeature::prepare`, scaled branch -/

section ScaledLemmas

variable {α : Type} [LinearOrderedField α]

theorem NamesKept.refl (w : World α) : NamesKept w w :=
  fun _ _ sf h => ⟨sf, h, rfl⟩

theorem NamesKept.trans {w1 w2 w3 : World α} (h12 : NamesKept w1 w2) (h23 : NamesKept w2 w3) :
    NamesKept w1 w3 := by
  intro c i sf h
  obtain ⟨sf2, h2, hn2⟩ := h12 c i sf h
  obtain ⟨sf3, h3, hn3⟩ := h23 c i sf2 h2
  exact ⟨sf3, h3, hn3.trans hn2⟩

theorem NamesKept.of_clouds_eq {w w' : World α} (h : w'.clouds = w.clouds) : NamesKept w w' := by
  intro c i sf hsf
  exact ⟨sf, by rw [h]; exact hsf, rfl⟩

theorem NamesKept.setSF (w : World α) (p : SFPtr) (sf0 sf : ScalarField α)
    (h0 : w.sf? p = some sf0) (hn : sf.name = sf0.name) : NamesKept w (w.setSF p sf) := by
  intro c i f hf
  by_cases hp : p = ⟨c, i⟩
  · subst hp
    have hsame := World.sf?_setSF_same w _ sf sf0 h0
    refine ⟨sf, hsame, ?_⟩
    have : w.sf? ⟨c, i⟩ = some f := hf
    rw [h0] at this
    rw [hn]
    exact congrArg ScalarField.name (Option.some.inj this)
  · have hne := World.sf?_setSF_ne w p ⟨c, i⟩ sf hp
    exact ⟨f, by
      have : (w.setSF p sf).sf? ⟨c, i⟩ = some f := by rw [hne]; exact hf
      exact this, rfl⟩

theorem NamesKept.setCloud_fields (w : World α) (id : Nat) (c' : ccPointCloud α)
    (h : c'.scalarFields = (w.clouds id).scalarFields) : NamesKept w (w.setCloud id c') := by
  intro c i sf hsf
  by_cases hc : c = id
  · subst hc
    exact ⟨sf, by simp [World.setCloud, h, hsf], rfl⟩
  · exact ⟨sf, by simp [World.setCloud, hc, hsf], rfl⟩

theorem NamesKept.setCloud_append (w : World α) (id : Nat) (c' : ccPointCloud α)
    (extra : List (ScalarField α))
    (h : c'.scalarFields = (w.clouds id).scalarFields ++ extra) :
    NamesKept w (w.setCloud id c') := by
  intro c i sf hsf
  by_cases hc : c = id
  · subst hc
    have hlt : i < (w.clouds c).scalarFields.length := by
      by_contra hcon
      rw [List.getElem?_eq_none (not_lt.1 hcon)] at hsf
      exact Option.noConfusion hsf
    refine ⟨sf, ?_, rfl⟩
    simp only [World.setCloud, if_true, h]
    rw [List.getElem?_append_left hlt]
    exact hsf
  · exact ⟨sf, by simp [World.setCloud, hc, hsf], rfl⟩

theorem NamesKept.fillSF (w : World α) (p : SFPtr) (v : Val α) : NamesKept w (w.fillSF p v) := by
  unfold World.fillSF
  cases h : w.sf? p with
  | none => exact NamesKept.refl w
  | some sf => exact NamesKept.setSF w p sf _ h rfl

theorem ResultSF.setValue_spec (coreId : Nat) (w w1 : World α) (rsf rsf1 : ResultSF α)
    (i : Nat) (v : Val α) (h : rsf.setValue coreId w i v = some (w1, rsf1)) :
    NamesKept w w1 ∧ rsf.sameTarget rsf1 ∧ w1.polls = w.polls ∧
      (∀ sf, rsf = ResultSF.detached sf → w1.clouds = w.clouds) := by
  cases rsf with
  | attached index =>
    simp only [ResultSF.setValue] at h
    cases hsf : w.sf? ⟨coreId, index⟩ with
    | none => rw [hsf] at h; simp at h
    | some sf =>
      rw [hsf] at h
      simp only at h
      split_ifs at h with hi
      simp only [Option.some.injEq, Prod.mk.injEq] at h
      obtain ⟨rfl, rfl⟩ := h
      refine ⟨NamesKept.setSF w _ sf _ hsf rfl, rfl, rfl, ?_⟩
      intro sf' hcon
      exact ResultSF.noConfusion hcon
  | detached sf =>
    simp only [ResultSF.setValue] at h
    split_ifs at h with hi
    simp only [Option.some.injEq, Prod.mk.injEq] at h
    obtain ⟨rfl, rfl⟩ := h
    exact ⟨NamesKept.refl _, rfl, rfl, fun _ _ => rfl⟩

theorem ResultSF.sameTarget_trans {a b c : ResultSF α} (h1 : a.sameTarget b)
    (h2 : b.sameTarget c) : a.sameTarget c := by
  cases a <;> cases b <;> cases c <;> simp only [ResultSF.sameTarget] at h1 h2 ⊢
  · exact h1.trans h2
  · exact h2.trans h1

/-- The loop of `ExtractStat` keeps every field of every cloud in place, and the field it
builds remains the same object; a detached field leaves the clouds untouched. -/
theorem extractStatLoop_spec (N : Numerics α) (cb : Option (Nat → Bool)) (coreId : Nat)
    (octree : DgmOctree α) (lvl : Nat) (stat : Stat) (field : FieldWrapper) (radius : Val α) :
    ∀ (is : List Nat) (w : World α) (rsf : ResultSF α) (w' : World α)
      (res : Option (ResultSF α)),
      extractStatLoop N cb coreId octree lvl stat field radius is (w, rsf) = Run.done (w', res) →
      NamesKept w w' ∧ (∀ rsf', res = some rsf' → rsf.sameTarget rsf') ∧
        (∀ sf, rsf = ResultSF.detached sf → w'.clouds = w.clouds) := by
  intro is
  induction is with
  | nil =>
    intro w rsf w' res h
    simp only [extractStatLoop, Run.done.injEq, Prod.mk.injEq] at h
    obtain ⟨rfl, rfl⟩ := h
    refine ⟨NamesKept.refl _, ?_, fun _ _ => rfl⟩
    intro rsf' hr
    simp only [Option.some.injEq] at hr
    subst hr
    cases rsf <;> simp [ResultSF.sameTarget]
  | cons i rest ih =>
    intro w rsf w' res h
    simp only [extractStatLoop] at h
    cases hq : (w.clouds coreId).points[i]? with
    | none => rw [hq] at h; exact Run.noConfusion h
    | some q =>
      rw [hq] at h
      simp only at h
      split_ifs at h with hfail
      · simp only [Run.done.injEq, Prod.mk.injEq] at h
        obtain ⟨rfl, rfl⟩ := h
        exact ⟨NamesKept.refl _, fun _ hr => Option.noConfusion hr, fun _ _ => rfl⟩
      · cases hset : rsf.setValue coreId w i
            (ExtractStatFromSF N q (some octree) lvl stat (field.view w) radius (Val.num 0)).2 with
        | none => rw [hset] at h; exact Run.noConfusion h
        | some pr =>
          obtain ⟨w1, rsf1⟩ := pr
          rw [hset] at h
          simp only at h
          obtain ⟨hk, hsame, -, hdet⟩ := ResultSF.setValue_spec coreId w w1 rsf rsf1 i _ hset
          cases cb with
          | none =>
            simp only at h
            obtain ⟨hk2, hsame2, hdet2⟩ := ih w1 rsf1 w' res h
            refine ⟨hk.trans hk2, ?_, ?_⟩
            · intro rsf' hr
              exact ResultSF.sameTarget_trans hsame (hsame2 rsf' hr)
            · intro sf hsf
              subst hsf
              cases rsf1 with
              | attached j => simp [ResultSF.sameTarget] at hsame
              | detached sf1 => rw [hdet2 sf1 rfl, hdet sf rfl]
          | some f =>
            simp only at h
            split_ifs at h with hcancel
            · simp only [Run.done.injEq, Prod.mk.injEq] at h
              obtain ⟨rfl, rfl⟩ := h
              refine ⟨hk.trans (NamesKept.of_clouds_eq rfl), fun _ hr => Option.noConfusion hr, ?_⟩
              intro sf hsf
              exact hdet sf hsf
            · obtain ⟨hk2, hsame2, hdet2⟩ := ih _ rsf1 w' res h
              have hk1 : NamesKept w1 { w1 with polls := w1.polls + 1 } :=
                NamesKept.of_clouds_eq rfl
              refine ⟨hk.trans (hk1.trans hk2), ?_, ?_⟩
              · intro rsf' hr
                exact ResultSF.sameTarget_trans hsame (hsame2 rsf' hr)
              · intro sf hsf
                subst hsf
                cases rsf1 with
                | attached j => simp [ResultSF.sameTarget] at hsame
                | detached sf1 =>
                  rw [hdet2 sf1 rfl]
                  exact hdet sf rfl

theorem extractStatRun_attached (N : Numerics α) (cb : Option (Nat → Bool)) (cp : CorePoints)
    (coreId : Nat) (octree : DgmOctree α) (stat : Stat) (field : FieldWrapper) (scale : Val α)
    (w2 w' : World α) (idx : Nat) (res : Option SFPtr) (name : String) (sf : ScalarField α)
    (hsf : w2.sf? ⟨coreId, idx⟩ = some sf) (hname : sf.name = name)
    (h : extractStatRun N cb cp coreId octree stat field scale w2 (ResultSF.attached idx)
      = Run.done (res, w')) :
    NamesKept w2 w' ∧ ∀ ptr, res = some ptr →
      ptr.cloud = coreId ∧ ∃ sf', w'.sf? ptr = some sf' ∧ sf'.name = name := by
  unfold extractStatRun at h
  cases cb with
  | none => exact Run.noConfusion h
  | some f =>
    simp only at h
    cases hloop : extractStatLoop N (some f) coreId octree
        (octree.findBestLevelForAGivenNeighbourhoodSizeExtraction (scale / Val.num 2)) stat field
        (scale / Val.num 2) (List.range cp.size) (w2, ResultSF.attached idx) with
    | fault => rw [hloop] at h; exact Run.noConfusion h
    | done pr =>
      obtain ⟨w3, r⟩ := pr
      rw [hloop] at h
      obtain ⟨hk, hsame, -⟩ := extractStatLoop_spec N _ coreId octree _ stat field _ _ _ _ _ _ hloop
      cases r with
      | none =>
        simp only [Run.done.injEq, Prod.mk.injEq] at h
        obtain ⟨rfl, rfl⟩ := h
        exact ⟨hk, fun _ hp => Option.noConfusion hp⟩
      | some rsf' =>
        have hs := hsame rsf' rfl
        cases rsf' with
        | detached sf' => simp [ResultSF.sameTarget] at hs
        | attached j =>
          simp only [ResultSF.sameTarget] at hs
          subst hs
          simp only [Run.done.injEq, Prod.mk.injEq] at h
          obtain ⟨rfl, rfl⟩ := h
          refine ⟨hk, ?_⟩
          intro ptr hp
          simp only [Option.some.injEq] at hp
          subst hp
          obtain ⟨sf', h1, h2⟩ := hk coreId idx sf hsf
          exact ⟨rfl, sf', h1, h2.trans hname⟩

theorem extractStatRun_detached (N : Numerics α) (cb : Option (Nat → Bool)) (cp : CorePoints)
    (coreId : Nat) (octree : DgmOctree α) (stat : Stat) (field : FieldWrapper) (scale : Val α)
    (w2 w' : World α) (res : Option SFPtr) (name : String) (sf : ScalarField α)
    (hname : sf.name = name)
    (hlook : (w2.clouds coreId).getScalarFieldIndexByName name = none)
    (h : extractStatRun N cb cp coreId octree stat field scale w2 (ResultSF.detached sf)
      = Run.done (res, w')) :
    NamesKept w2 w' ∧ ∀ ptr, res = some ptr →
      ptr.cloud = coreId ∧ ∃ sf', w'.sf? ptr = some sf' ∧ sf'.name = name := by
  unfold extractStatRun at h
  cases cb with
  | none => exact Run.noConfusion h
  | some f =>
    simp only at h
    cases hloop : extractStatLoop N (some f) coreId octree
        (octree.findBestLevelForAGivenNeighbourhoodSizeExtraction (scale / Val.num 2)) stat field
        (scale / Val.num 2) (List.range cp.size) (w2, ResultSF.detached sf) with
    | fault => rw [hloop] at h; exact Run.noConfusion h
    | done pr =>
      obtain ⟨w3, r⟩ := pr
      rw [hloop] at h
      obtain ⟨hk, hsame, hdet⟩ :=
        extractStatLoop_spec N _ coreId octree _ stat field _ _ _ _ _ _ hloop
      cases r with
      | none =>
        simp only [Run.done.injEq, Prod.mk.injEq] at h
        obtain ⟨rfl, rfl⟩ := h
        exact ⟨hk, fun _ hp => Option.noConfusion hp⟩
      | some rsf' =>
        have hs := hsame rsf' rfl
        cases rsf' with
        | attached j => simp [ResultSF.sameTarget] at hs
        | detached sf' =>
          simp only [ResultSF.sameTarget] at hs
          have hcl := hdet sf rfl
          have hlook3 : ccPointCloud.getScalarFieldIndexByName (w3.clouds coreId) sf'.name
              = none := by
            rw [hcl, hs, hname]
            exact hlook
          simp only [Run.done.injEq, Prod.mk.injEq] at h
          obtain ⟨rfl, rfl⟩ := h
          have hadd : ((w3.clouds coreId).addScalarField sf').2.scalarFields
              = (w3.clouds coreId).scalarFields ++ [sf'] := by
            simp [ccPointCloud.addScalarField, hlook3]
          refine ⟨hk.trans (NamesKept.setCloud_append w3 coreId _ [sf'] hadd), ?_⟩
          intro ptr hp
          simp only [Option.some.injEq] at hp
          subst hp
          refine ⟨rfl, sf', ?_, hs.trans hname⟩
          simp [World.sf?, World.setCloud, hadd]

/-- `ExtractStat` keeps every field of every cloud in place and, when it returns a field,
that field is held by the core cloud under the requested name. -/
theorem ExtractStat_spec (E : Env α) (N : Numerics α) (w w' : World α) (cp : CorePoints)
    (src : Option Nat) (field : Option FieldWrapper) (scale : Val α) (stat : Stat)
    (resultSFName : Option String) (cb : Option (Nat → Bool)) (res : Option SFPtr)
    (h : ExtractStat E N w cp src field scale stat resultSFName cb = Run.done (res, w')) :
    NamesKept w w' ∧ ∀ ptr, res = some ptr →
      cp.cloud = some ptr.cloud ∧
      ∃ sf' name, w'.sf? ptr = some sf' ∧ resultSFName = some name ∧ sf'.name = name := by
  unfold ExtractStat at h
  cases hc : cp.cloud with
  | none =>
    simp only [hc, Run.done.injEq, Prod.mk.injEq] at h
    obtain ⟨rfl, rfl⟩ := h
    exact ⟨NamesKept.refl _, fun _ hp => Option.noConfusion hp⟩
  | some coreId =>
    cases src with
    | none =>
      simp only [hc, Run.done.injEq, Prod.mk.injEq] at h
      obtain ⟨rfl, rfl⟩ := h
      exact ⟨NamesKept.refl _, fun _ hp => Option.noConfusion hp⟩
    | some srcId =>
      cases field with
      | none =>
        simp only [hc, Run.done.injEq, Prod.mk.injEq] at h
        obtain ⟨rfl, rfl⟩ := h
        exact ⟨NamesKept.refl _, fun _ hp => Option.noConfusion hp⟩
      | some fw =>
        cases resultSFName with
        | none =>
          simp only [hc, Run.done.injEq, Prod.mk.injEq] at h
          obtain ⟨rfl, rfl⟩ := h
          exact ⟨NamesKept.refl _, fun _ hp => Option.noConfusion hp⟩
        | some name =>
          simp only [hc] at h
          by_cases hg : Val.le scale (Val.num 0) = true ∨ stat = Stat.NO_STAT
          · rw [if_pos hg] at h
            simp only [Run.done.injEq, Prod.mk.injEq] at h
            obtain ⟨rfl, rfl⟩ := h
            exact ⟨NamesKept.refl _, fun _ hp => Option.noConfusion hp⟩
          rw [if_neg hg] at h
          -- the octree
          have hoct : ∀ (o : Option (DgmOctree α × World α)),
              o = (match (w.clouds srcId).octree with
                | some oct => some (oct, w)
                | none =>
                  match E.computeOctree srcId (w.clouds srcId) with
                  | some oct =>
                    some (oct, w.setCloud srcId { w.clouds srcId with octree := some oct })
                  | none => none) →
              ∀ oct w1, o = some (oct, w1) → NamesKept w w1 := by
            intro o ho oct w1 ho1
            rw [ho1] at ho
            cases h1 : (w.clouds srcId).octree with
            | some oct0 =>
              rw [h1] at ho
              simp only [Option.some.injEq, Prod.mk.injEq] at ho
              rw [ho.2]
              exact NamesKept.refl _
            | none =>
              rw [h1] at ho
              simp only at ho
              cases h2 : E.computeOctree srcId (w.clouds srcId) with
              | none => rw [h2] at ho; exact Option.noConfusion ho
              | some oct0 =>
                rw [h2] at ho
                simp only [Option.some.injEq, Prod.mk.injEq] at ho
                rw [ho.2]
                exact NamesKept.setCloud_fields w srcId _ rfl
          generalize hodef : (match (w.clouds srcId).octree with
                | some oct => some (oct, w)
                | none =>
                  match E.computeOctree srcId (w.clouds srcId) with
                  | some oct =>
                    some (oct, w.setCloud srcId { w.clouds srcId with octree := some oct })
                  | none => none) = o at h
          cases o with
          | none =>
            simp only [Run.done.injEq, Prod.mk.injEq] at h
            obtain ⟨rfl, rfl⟩ := h
            exact ⟨NamesKept.refl _, fun _ hp => Option.noConfusion hp⟩
          | some pr =>
            obtain ⟨oct, w1⟩ := pr
            have hk1 : NamesKept w w1 := hoct _ hodef.symm oct w1 rfl
            simp only at h
            cases hlook : (w1.clouds coreId).getScalarFieldIndexByName name with
            | some sfIdx =>
              rw [hlook] at h
              simp only at h
              obtain ⟨sf, hsf, hp⟩ := findSF_some _ _ sfIdx hlook
              have hn : sf.name = name := by simpa using hp
              have hfill : (w1.fillSF ⟨coreId, sfIdx⟩ Val.nan).sf? ⟨coreId, sfIdx⟩
                  = some (sf.fill Val.nan) := by
                have hsf1 : w1.sf? ⟨coreId, sfIdx⟩ = some sf := hsf
                simp only [World.fillSF, hsf1]
                exact World.sf?_setSF_same w1 _ _ sf hsf1
              obtain ⟨hk2, hres⟩ := extractStatRun_attached N cb cp coreId oct stat fw scale _ w'
                sfIdx res name _ hfill hn h
              refine ⟨hk1.trans ((NamesKept.fillSF w1 _ _).trans hk2), ?_⟩
              intro ptr hptr
              obtain ⟨h1, sf', h2, h3⟩ := hres ptr hptr
              exact ⟨by rw [h1], sf', name, h2, rfl, h3⟩
            | none =>
              rw [hlook] at h
              simp only at h
              by_cases halloc : E.resizeSafe w1.allocations (w1.clouds coreId).size = true
              · rw [if_pos halloc] at h
                obtain ⟨hk2, hres⟩ := extractStatRun_detached N cb cp coreId oct stat fw scale
                  { w1 with allocations := w1.allocations + 1 } w' res name _ rfl hlook h
                have hk12 : NamesKept w1 { w1 with allocations := w1.allocations + 1 } :=
                  NamesKept.of_clouds_eq rfl
                refine ⟨hk1.trans (hk12.trans hk2), ?_⟩
                intro ptr hptr
                obtain ⟨h1, sf', h2, h3⟩ := hres ptr hptr
                exact ⟨by rw [h1], sf', name, h2, rfl, h3⟩
              · rw [if_neg halloc] at h
                simp only [Run.done.injEq, Prod.mk.injEq] at h
                obtain ⟨rfl, rfl⟩ := h
                have hk12 : NamesKept w1 { w1 with allocations := w1.allocations + 1 } :=
                  NamesKept.of_clouds_eq rfl
                exact ⟨hk1.trans hk12, fun _ hp => Option.noConfusion hp⟩

theorem mathOpStep_names (op : Operation) (p1 p2 : SFPtr) (w : World α) (i : Nat) :
    NamesKept w (mathOpStep op p1 p2 w i) := by
  unfold mathOpStep
  cases h1 : w.sf? p1 with
  | none => exact NamesKept.refl _
  | some sf1 =>
    cases h2 : w.sf? p2 with
    | none => exact NamesKept.refl _
    | some sf2 => exact NamesKept.setSF w p1 sf1 _ h1 rfl

theorem mathOp_foldl_names (op : Operation) (p1 p2 : SFPtr) :
    ∀ (is : List Nat) (w : World α), NamesKept w (is.foldl (mathOpStep op p1 p2) w) := by
  intro is
  induction is with
  | nil => intro w; exact NamesKept.refl _
  | cons i rest ih =>
    intro w
    rw [List.foldl_cons]
    exact (mathOpStep_names op p1 p2 w i).trans (ih _)

theorem PerformMathOp_names (w : World α) (sf1 sf2 : Option SFPtr) (op : Operation) :
    NamesKept w (PerformMathOp w sf1 sf2 op).2 := by
  unfold PerformMathOp
  cases sf1 with
  | none => exact NamesKept.refl _
  | some p1 =>
    cases sf2 with
    | none => exact NamesKept.refl _
    | some p2 =>
      simp only
      cases h1 : w.sf? p1 with
      | none => exact NamesKept.refl _
      | some f1 =>
        cases h2 : w.sf? p2 with
        | none => exact NamesKept.refl _
        | some f2 =>
          simp only
          split_ifs
          · exact NamesKept.refl _
          · exact mathOp_foldl_names op p1 p2 _ w

/-- Deleting the field found under a name keeps every field of another name. -/
theorem deleteScalarField_keeps (c : ccPointCloud α) (name other : String) (i : Nat)
    (sf : ScalarField α) (hsf : c.scalarFields[i]? = some sf) (hname : sf.name = name)
    (hne : name ≠ other) :
    ∃ sf' ∈ (c.deleteScalarField (c.getScalarFieldIndexByName other)).scalarFields,
      sf'.name = name := by
  cases hlook : c.getScalarFieldIndexByName other with
  | none => exact ⟨sf, List.getElem?_mem hsf, hname⟩
  | some j =>
    obtain ⟨sfj, hj, hpj⟩ := findSF_some _ _ j hlook
    have hnj : sfj.name = other := by simpa using hpj
    have hjlt : j < c.scalarFields.length := by
      by_contra hcon
      rw [List.getElem?_eq_none (not_lt.1 hcon)] at hj
      exact Option.noConfusion hj
    have hilt : i < c.scalarFields.length := by
      by_contra hcon
      rw [List.getElem?_eq_none (not_lt.1 hcon)] at hsf
      exact Option.noConfusion hsf
    have hij : i ≠ j := by
      intro h
      subst h
      rw [hsf] at hj
      have := Option.some.inj hj
      rw [← this] at hnj
      exact hne (hname.symm.trans hnj)
    have hlast : c.scalarFields.getLast? = c.scalarFields[c.scalarFields.length - 1]? :=
      List.getLast?_eq_getElem? _
    have hlastlt : c.scalarFields.length - 1 < c.scalarFields.length := by omega
    obtain ⟨last, hl⟩ : ∃ last, c.scalarFields[c.scalarFields.length - 1]? = some last :=
      ⟨_, List.getElem?_eq_getElem hlastlt⟩
    simp only [ccPointCloud.deleteScalarField, hjlt, if_true, hlast, hl]
    by_cases hi : i < c.scalarFields.length - 1
    · refine ⟨sf, ?_, hname⟩
      apply List.getElem?_mem (n := i)
      rw [List.getElem?_dropLast, List.length_set, if_pos hi, List.getElem?_set_ne (Ne.symm hij)]
      exact hsf
    · have hieq : i = c.scalarFields.length - 1 := by omega
      have hsl : sf = last := by
        rw [hieq, hl] at hsf
        exact (Option.some.inj hsf).symm
      have hjl : j < c.scalarFields.length - 1 := by omega
      refine ⟨last, ?_, by rw [← hsl]; exact hname⟩
      apply List.getElem?_mem (n := j)
      rw [List.getElem?_dropLast, List.length_set, if_pos hjl, List.getElem?_set_self hjlt]

/-- The name of the combined field differs from the name of the second statistic. -/
theorem resultSFName_ne (base op l2 n2 st sc : String) :
    base ++ ("_" ++ op ++ "_" ++ l2 ++ "." ++ n2 ++ "_" ++ st) ++ ("@" ++ sc)
      ≠ l2 ++ "." ++ n2 ++ "_" ++ st ++ "@" ++ sc := by
  intro h
  have hl := congrArg String.length h
  simp only [String.length_append] at hl
  have h1 : ("_" : String).length = 1 := rfl
  rw [h1] at hl
  omega

/-- The statistics part of the scaled branch: on success the recorded name is the composed
name and the core cloud holds a field of that name. -/
theorem prepareStats_spec (E : Env α) (N : Numerics α) (pf : PointFeature α) (w : World α)
    (cp : CorePoints) (coreId : Nat) (field1 : FieldWrapper) (field2 : Option FieldWrapper)
    (error : String) (cb : Option (Nat → Bool)) (r : PrepareResult α)
    (hcore : cp.cloud = some coreId)
    (h : pf.prepareStats E N w cp coreId field1 field2 error cb = Run.done r)
    (hok : r.ok = true) :
    r.feature.sourceName = pf.resultSFName N field1 field2 ∧
    ∃ sf ∈ (r.world.clouds coreId).scalarFields, sf.name = r.feature.sourceName := by
  unfold PointFeature.prepareStats at h
  generalize hname1 : pf.resultSFName N field1 field2 = name1 at h ⊢
  cases hx1 : ExtractStat E N w cp pf.cloud1 (some field1) pf.scale pf.stat (some name1) cb with
  | fault => rw [hx1] at h; exact Run.noConfusion h
  | done pr1 =>
    obtain ⟨res1, w1⟩ := pr1
    rw [hx1] at h
    obtain ⟨-, hres1⟩ := ExtractStat_spec E N w w1 cp _ _ _ _ _ cb res1 hx1
    cases res1 with
    | none =>
      simp only [Run.done.injEq] at h
      rw [← h] at hok
      simp at hok
    | some statSF1 =>
      obtain ⟨hcl, sf1, nm, hsf1, hnm, hsfn⟩ := hres1 statSF1 rfl
      simp only [Option.some.injEq] at hnm
      subst hnm
      rw [hcore] at hcl
      simp only [Option.some.injEq] at hcl
      have hsrc : w1.sfName statSF1 = name1 := by
        simp [World.sfName, hsf1, hsfn]
      have hidx1 : (w1.clouds coreId).scalarFields[statSF1.index]? = some sf1 := by
        have := hsf1
        unfold World.sf? at this
        rw [← hcl] at this
        exact this
      have hpresent1 : ∃ sf ∈ (w1.clouds coreId).scalarFields, sf.name = name1 :=
        ⟨sf1, List.getElem?_mem hidx1, hsfn⟩
      simp only at h
      cases hc2 : pf.cloud2 with
      | none =>
        rw [hc2] at h
        simp only [Run.done.injEq] at h
        subst h
        exact ⟨hsrc, by simpa [hsrc] using hpresent1⟩
      | some c2 =>
        rw [hc2] at h
        cases field2 with
        | none =>
          simp only [Run.done.injEq] at h
          subst h
          exact ⟨hsrc, by simpa [hsrc] using hpresent1⟩
        | some f2 =>
          simp only at h
          by_cases hop : pf.op ≠ Operation.NO_OPERATION
          · rw [if_pos hop] at h
            cases hx2 : ExtractStat E N w1 cp (some c2) (some f2) pf.scale pf.stat
                (some (pf.resultSFName2 N f2)) cb with
            | fault => rw [hx2] at h; exact Run.noConfusion h
            | done pr2 =>
              obtain ⟨res2, w2⟩ := pr2
              rw [hx2] at h
              obtain ⟨hk12, -⟩ := ExtractStat_spec E N w1 w2 cp _ _ _ _ _ cb res2 hx2
              cases res2 with
              | none =>
                simp only [Run.done.injEq] at h
                rw [← h] at hok
                simp at hok
              | some statSF2 =>
                simp only at h
                have hk23 := PerformMathOp_names w2 (some statSF1) (some statSF2) pf.op
                cases hpm : PerformMathOp w2 (some statSF1) (some statSF2) pf.op with
                | mk b w3 =>
                  rw [hpm] at h hk23
                  simp only at hk23
                  obtain ⟨sf3, hsf3, hn3⟩ := (hk12.trans hk23) coreId statSF1.index sf1 hidx1
                  cases b with
                  | false =>
                    simp only [Run.done.injEq] at h
                    rw [← h] at hok
                    simp at hok
                  | true =>
                    simp only at h
                    cases hidx2 : (w1.clouds coreId).getScalarFieldIndexByName
                        (pf.resultSFName2 N f2) with
                    | some j =>
                      rw [hidx2] at h
                      simp only [Run.done.injEq] at h
                      subst h
                      refine ⟨hsrc, sf3, List.getElem?_mem hsf3, ?_⟩
                      simp only [hsrc]
                      exact hn3.trans hsfn
                    | none =>
                      rw [hidx2] at h
                      simp only [Run.done.injEq] at h
                      subst h
                      refine ⟨hsrc, ?_⟩
                      have hne : name1 ≠ pf.resultSFName2 N f2 := by
                        rw [← hname1]
                        simp only [PointFeature.resultSFName, PointFeature.resultSFName2,
                          if_pos hop]
                        exact resultSFName_ne _ _ _ _ _ _
                      obtain ⟨sf', hmem, hn'⟩ := deleteScalarField_keeps (w3.clouds coreId) name1
                        _ statSF1.index sf3 hsf3 (hn3.trans hsfn) hne
                      refine ⟨sf', ?_, ?_⟩
                      · simpa [World.setCloud] using hmem
                      · simp only [hsrc]
                        exact hn'
          · rw [if_neg hop] at h
            simp only [Run.done.injEq] at h
            subst h
            exact ⟨hsrc, by simpa [hsrc] using hpresent1⟩

end ScaledLemmas

section ScaledClaims

variable {α : Type} [LinearOrderedField α]

/-- C8: after a successful `PointFeature::prepare` of a scaled descriptor, the recorded
output name is `cloud1Label + "." + field1Name + "_" + STAT`, followed by
`"_" + OP + "_" + cloud2Label + "." + field2Name + "_" + STAT` exactly when a second cloud
is set and the operation is not NO_OPERATION, followed by `"@" + scale`; and a field with
that name is present on the core-points cloud. -/
theorem prepare_scaled_name (E : Env α) (N : Numerics α) (pf : PointFeature α) (w : World α)
    (cp : CorePoints) (coreId : Nat) (error : String) (cb : Option (Nat → Bool))
    (r : PrepareResult α)
    (hscaled : pf.scaled = true) (hcore : cp.cloud = some coreId)
    (hrun : pf.prepare E N w cp error cb = Run.done r) (hok : r.ok = true) :
    ∃ field1, (pf.retrieveField E w pf.cloud1 error).1 = some field1 ∧
      (pf.cloud2 ≠ none ∧ pf.op ≠ Operation.NO_OPERATION →
        ∃ field2, (pf.retrieveField E w pf.cloud2 error).1 = some field2 ∧
          r.feature.sourceName
            = pf.cloud1Label ++ "." ++ field1.name ++ "_" ++ StatToString pf.stat
              ++ "_" ++ OpToString pf.op ++ "_" ++ pf.cloud2Label ++ "." ++ field2.name ++ "_"
              ++ StatToString pf.stat ++ "@" ++ scaleText N pf.scale) ∧
      (¬ (pf.cloud2 ≠ none ∧ pf.op ≠ Operation.NO_OPERATION) →
        r.feature.sourceName
          = pf.cloud1Label ++ "." ++ field1.name ++ "_" ++ StatToString pf.stat
            ++ "@" ++ scaleText N pf.scale) ∧
      ∃ sf ∈ (r.world.clouds coreId).scalarFields, sf.name = r.feature.sourceName := by
  cases hc1 : pf.cloud1 with
  | none =>
    simp only [PointFeature.prepare, hc1, Run.done.injEq] at hrun
    rw [← hrun] at hok
    simp at hok
  | some c1 =>
    cases hrf : pf.retrieveField E w (some c1) error with
    | mk fw e1 =>
      cases fw with
      | none =>
        simp only [PointFeature.prepare, hc1, hcore, hrf, Run.done.injEq] at hrun
        rw [← hrun] at hok
        simp at hok
      | some field1 =>
        have he1 : e1 = error := by
          have := retrieveField_stable E w w pf c1 [] (by simp) rfl rfl error error e1 field1 hrf
          rw [hrf] at this
          exact (Prod.mk.inj this).2
        subst he1
        have hsome : ∀ o : Option Nat, o ≠ none ↔ o.isSome = true := by
          intro o; cases o <;> simp
        simp only [PointFeature.prepare, hc1, hcore, hrf, hscaled, if_true,
          PointFeature.prepareScaled] at hrun
        by_cases hstat : pf.stat = Stat.NO_STAT
        · rw [if_pos hstat] at hrun
          simp only [Run.done.injEq] at hrun
          rw [← hrun] at hok
          simp at hok
        rw [if_neg hstat] at hrun
        refine ⟨field1, rfl, ?_⟩
        by_cases hsecond : pf.cloud2.isSome = true ∧ pf.op ≠ Operation.NO_OPERATION
        · rw [if_pos hsecond] at hrun
          obtain ⟨c2, hc2⟩ := Option.isSome_iff_exists.1 hsecond.1
          cases hrf2 : pf.retrieveField E w pf.cloud2 e1 with
          | mk fw2 e2 =>
            rw [hrf2] at hrun
            cases fw2 with
            | none =>
              simp only [Run.done.injEq] at hrun
              rw [← hrun] at hok
              simp at hok
            | some field2 =>
              simp only at hrun
              obtain ⟨hname, hpresent⟩ :=
                prepareStats_spec E N pf w cp coreId field1 (some field2) e2 cb r hcore hrun hok
              refine ⟨?_, ?_, hpresent⟩
              · intro _
                refine ⟨field2, rfl, ?_⟩
                rw [hname]
                simp only [PointFeature.resultSFName, if_pos hsecond.2, String.append_assoc]
              · intro hcon
                exact absurd ⟨(hsome _).2 hsecond.1, hsecond.2⟩ hcon
        · rw [if_neg hsecond] at hrun
          obtain ⟨hname, hpresent⟩ :=
            prepareStats_spec E N pf w cp coreId field1 none e1 cb r hcore hrun hok
          refine ⟨?_, ?_, hpresent⟩
          · intro hcon
            exact absurd ⟨(hsome _).1 hcon.1, hcon.2⟩ hsecond
          · intro _
            rw [hname]
            simp only [PointFeature.resultSFName, String.append_assoc]

end ScaledClaims

/-! ### The results at concrete inputs -/

section Witnesses

theorem ExtractStatFromSF_STD_witness :
    ExtractStatFromSF demoNumerics ⟨0, 0, 0⟩ (some (demoOctree 5)) 0 Stat.STD
        (demoField [1, 2, 2, 3, 10]) (Val.num 1) (Val.num 0) =
      (true, Val.num (demoNumerics.sqrt
        |(([1, 2, 2, 3, 10] : List ℚ).map (fun v => v ^ 2)).sum
            * ((([1, 2, 2, 3, 10] : List ℚ).length : ℚ))
          - ([1, 2, 2, 3, 10] : List ℚ).sum * ([1, 2, 2, 3, 10] : List ℚ).sum|
        / ((([1, 2, 2, 3, 10] : List ℚ).length : ℚ)))) :=
  ExtractStatFromSF_STD demoNumerics ⟨0, 0, 0⟩ (demoOctree 5) 0 (demoField [1, 2, 2, 3, 10])
    (Val.num 1) (Val.num 0) [1, 2, 2, 3, 10] rfl (by simp)

/-- Witness of C2 on the four neighbour values `3, 1, 5, 2` (a new minimum, a new maximum
and a value in between after the first one): the output is `5 - 1`; and on the single
value `5`: the output is `0`. -/
theorem ExtractStatFromSF_RANGE_witness :
    (demoOctree 4).findNeighborsInASphereStartingFromCell ⟨0, 0, 0⟩ 0 (Val.num 1)
      = [0, 1, 2, 3] ∧
    ExtractStatFromSF demoNumerics ⟨0, 0, 0⟩ (some (demoOctree 4)) 0 Stat.RANGE
        (demoField [3, 1, 5, 2]) (Val.num 1) (Val.num 7)
      = (true, Val.num (fullScanMax [3, 1, 5, 2] - fullScanMin [3, 1, 5, 2])) ∧
    fullScanMax ([3, 1, 5, 2] : List ℚ) = 5 ∧ fullScanMin ([3, 1, 5, 2] : List ℚ) = 1 ∧
    ExtractStatFromSF demoNumerics ⟨0, 0, 0⟩ (some (demoOctree 1)) 0 Stat.RANGE
        (demoField [5]) (Val.num 1) (Val.num 7) = (true, Val.num 0) :=
  ⟨rfl, (ExtractStatFromSF_RANGE demoNumerics ⟨0, 0, 0⟩ (demoOctree 4) 0
      (demoField [3, 1, 5, 2]) (Val.num 1) (Val.num 7) [3, 1, 5, 2] rfl (by simp)).1,
    by norm_num [fullScanMax], by norm_num [fullScanMin],
    (ExtractStatFromSF_RANGE demoNumerics ⟨0, 0, 0⟩ (demoOctree 1) 0 (demoField [5])
      (Val.num 1) (Val.num 7) [5] rfl (by simp)).2.2 rfl⟩

theorem ExtractStatFromSF_SKEW_witness :
    ∃ mode, ExtractStatFromSF demoNumerics ⟨0, 0, 0⟩ (some (demoOctree 3)) 0 Stat.MODE
        (demoField [2, 2, 2]) (Val.num 1) (Val.num 0) = (true, Val.num mode) ∧
      ((floatEpsilon : ℚ) < demoNumerics.sqrt
          |(([2, 2, 2] : List ℚ).map (fun v => v ^ 2)).sum / ((([2, 2, 2] : List ℚ).length : ℚ))
            - (([2, 2, 2] : List ℚ).sum / ((([2, 2, 2] : List ℚ).length : ℚ))) ^ 2| →
        demoNumerics.sqrt
          |(([2, 2, 2] : List ℚ).map (fun v => v ^ 2)).sum / ((([2, 2, 2] : List ℚ).length : ℚ))
            - (([2, 2, 2] : List ℚ).sum / ((([2, 2, 2] : List ℚ).length : ℚ))) ^ 2| ≠ 0 ∧
        ExtractStatFromSF demoNumerics ⟨0, 0, 0⟩ (some (demoOctree 3)) 0 Stat.SKEW
          (demoField [2, 2, 2]) (Val.num 1) (Val.num 0)
          = (true, Val.num ((([2, 2, 2] : List ℚ).sum / ((([2, 2, 2] : List ℚ).length : ℚ))
              - mode) / demoNumerics.sqrt
            |(([2, 2, 2] : List ℚ).map (fun v => v ^ 2)).sum
                / ((([2, 2, 2] : List ℚ).length : ℚ))
              - (([2, 2, 2] : List ℚ).sum / ((([2, 2, 2] : List ℚ).length : ℚ))) ^ 2|))) ∧
      (demoNumerics.sqrt
          |(([2, 2, 2] : List ℚ).map (fun v => v ^ 2)).sum / ((([2, 2, 2] : List ℚ).length : ℚ))
            - (([2, 2, 2] : List ℚ).sum / ((([2, 2, 2] : List ℚ).length : ℚ))) ^ 2|
          ≤ (floatEpsilon : ℚ) →
        ExtractStatFromSF demoNumerics ⟨0, 0, 0⟩ (some (demoOctree 3)) 0 Stat.SKEW
          (demoField [2, 2, 2]) (Val.num 1) (Val.num 0) = (true, Val.nan)) :=
  ExtractStatFromSF_SKEW demoNumerics ⟨0, 0, 0⟩ (demoOctree 3) 0 (demoField [2, 2, 2])
    (Val.num 1) (Val.num 0) [2, 2, 2] _ _ rfl (by simp) rfl rfl

theorem ExtractStatFromSF_no_neighbour_witness :
    (demoOctree 0).findNeighborsInASphereStartingFromCell ⟨0, 0, 0⟩ 0 (Val.num 1) = [] ∧
    ExtractStatFromSF demoNumerics ⟨0, 0, 0⟩ (some (demoOctree 0)) 0 Stat.MEAN
        (demoField [5]) (Val.num 1) (Val.num 7) = (true, Val.nan) :=
  ⟨rfl, ExtractStatFromSF_no_neighbour demoNumerics ⟨0, 0, 0⟩ (demoOctree 0) 0 Stat.MEAN
    (demoField [5]) (Val.num 1) (Val.num 7) rfl⟩

theorem PerformMathOp_spec_witness :
    (PerformMathOp demoWorldWithFields (some ⟨0, 0⟩) (some ⟨0, 1⟩) Operation.DIVIDE).1 = true ∧
    ((⟨0, 0⟩ : SFPtr) ≠ ⟨0, 1⟩ →
      (PerformMathOp demoWorldWithFields (some ⟨0, 0⟩) (some ⟨0, 1⟩) Operation.DIVIDE).2.sf?
        ⟨0, 1⟩ = some ⟨"B", [Val.num 3, Val.num 0]⟩) :=
  ⟨(PerformMathOp_spec demoWorldWithFields ⟨0, 0⟩ ⟨0, 1⟩ ⟨"A", [Val.num 6, Val.num 1]⟩
      ⟨"B", [Val.num 3, Val.num 0]⟩ Operation.DIVIDE rfl rfl rfl (by decide)).1,
    (PerformMathOp_spec demoWorldWithFields ⟨0, 0⟩ ⟨0, 1⟩ ⟨"A", [Val.num 6, Val.num 1]⟩
      ⟨"B", [Val.num 3, Val.num 0]⟩ Operation.DIVIDE rfl rfl rfl (by decide)).2.2⟩

theorem checkValidity_contract_witness :
    (demoFeature.checkValidity "").1 = true ∧
    (demoFeature.op ≠ Operation.NO_OPERATION →
      demoFeature.scaled = true ∧ demoFeature.cloud1 ≠ none ∧ demoFeature.cloud2 ≠ none ∧
      demoFeature.getType ≠ FeatureType.DualCloudFeature) :=
  ⟨rfl, (checkValidity_contract demoFeature "" rfl).2.2.1⟩

theorem demoScaledRun_eq :
    demoScaled.prepare (demoEnv true) demoNumerics demoWorld demoCorePoints "" demoCallback
      = Run.done demoScaledRun ∧ demoScaledRun.ok = true := by
  have hex : ∃ r, demoScaled.prepare (demoEnv true) demoNumerics demoWorld demoCorePoints ""
      demoCallback = Run.done r ∧ r.ok = true := by
    have h20 : ¬ ((2 : ℚ) ≤ 0) := by norm_num
    simp [h20, PointFeature.prepare, demoScaled, demoUnscaled, demoCorePoints,
      PointFeature.retrieveField, Feature.scaled, Val.isfinite, PointFeature.prepareScaled,
      PointFeature.prepareStats, ExtractStat, Val.le, demoWorld, demoCloud,
      ccPointCloud.getScalarFieldIndexByName, findSF, demoEnv, extractStatRun, demoCallback,
      extractStatLoop, List.range_succ, CorePoints.size, ExtractStatFromSF, demoOctree,
      ResultSF.setValue, ScalarField.fill, ScalarField.size, ScalarField.setValue,
      ccPointCloud.size, ccPointCloud.addScalarField, World.setCloud]
  obtain ⟨r, hr, hok⟩ := hex
  have hget : demoScaledRun = r := by
    unfold demoScaledRun
    rw [hr]
    rfl
  rw [hget]
  exact ⟨hr, hok⟩

theorem prepare_scaled_name_witness :
    demoScaledRun.ok = true ∧
    ∃ sf ∈ (demoScaledRun.world.clouds 0).scalarFields,
      sf.name = demoScaledRun.feature.sourceName :=
  ⟨demoScaledRun_eq.2, (prepare_scaled_name (demoEnv true) demoNumerics demoScaled demoWorld
    demoCorePoints 0 "" demoCallback demoScaledRun rfl rfl demoScaledRun_eq.1
    demoScaledRun_eq.2).elim (fun _ h => h.2.2.2)⟩

theorem prepare_unscaled_new_field_witness :
    ∃ r sf, demoUnscaled.prepare (demoEnv true) demoNumerics demoWorld demoCorePoints "" none
        = Run.done r ∧ r.ok = true ∧ r.feature.sourceName = "X" ∧
      (r.world.clouds 0).scalarFields = (demoWorld.clouds 0).scalarFields ++ [sf] ∧
      sf.name = "X" ∧ sf.values.length = (demoWorld.clouds 0).size ∧
      ∀ i, i < demoCorePoints.size →
        sf.values[i]? = (⟨"X", WrapperSource.dimension 1 Dim.DimX⟩ : FieldWrapper).pointValue?
          demoWorld (demoCorePoints.originIndex i) :=
  prepare_unscaled_new_field (demoEnv true) demoNumerics demoUnscaled demoWorld demoCorePoints
    0 1 "" none ⟨"X", WrapperSource.dimension 1 Dim.DimX⟩ rfl rfl rfl (Or.inr rfl) rfl
    (Or.inl rfl) rfl rfl rfl
    (by
      intro i hi
      have hi' : i < 2 := hi
      interval_cases i
      · exact ⟨_, rfl⟩
      · exact ⟨_, rfl⟩)

/-- C9, as stated, fails: an unscaled descriptor on the origin cloud whose source (the X
coordinate) resolves, with no field named like the source on the core cloud, is refused
by `prepare` when it carries a second cloud and an operation, and also when the new field
cannot be allocated. -/
theorem prepare_unscaled_counterexample :
    demoUnscaledWithOp.scaled = false ∧
    demoUnscaledWithOp.cloud1 = demoCorePoints.origin ∧
    (demoUnscaledWithOp.retrieveField (demoEnv true) demoWorld demoUnscaledWithOp.cloud1 "").1
      = some ⟨"X", WrapperSource.dimension 1 Dim.DimX⟩ ∧
    (demoWorld.clouds 0).getScalarFieldIndexByName "X" = none ∧
    ((demoUnscaledWithOp.prepare (demoEnv true) demoNumerics demoWorld demoCorePoints ""
      none).get?.map (fun r => r.ok)) = some false ∧
    ((demoUnscaled.prepare (demoEnv false) demoNumerics demoWorld demoCorePoints ""
      none).get?.map (fun r => (r.ok, r.error))) = some (false, "Not enough memory") :=
  ⟨rfl, rfl, rfl, rfl, rfl, rfl⟩

theorem prepare_unscaled_idempotent_witness :
    demoFirstRun.ok = true ∧
    ∃ r2, demoFirstRun.feature.prepare (demoEnv true) demoNumerics demoFirstRun.world
        demoCorePoints "" none = Run.done r2 ∧ r2.ok = true ∧
      r2.feature.sourceName = demoFirstRun.feature.sourceName ∧
      r2.world = demoFirstRun.world ∧
      (r2.world.clouds 0).scalarFields = (demoFirstRun.world.clouds 0).scalarFields ∧
      ((r2.world.clouds 0).scalarFields.map (fun f => f.name)).count
        demoFirstRun.feature.sourceName = 1 :=
  ⟨rfl, prepare_unscaled_idempotent (demoEnv true) demoNumerics demoUnscaled demoWorld
    demoCorePoints 0 "" "" none none demoFirstRun rfl rfl (by simp [demoWorld, demoCloud]) rfl
    rfl⟩

/-- C10, as stated, fails: when the new field cannot be allocated, both calls of `prepare`
with the unscaled `demoUnscaled` return false with "Not enough memory" and the core cloud
carries no field at all; and with a second cloud and an operation both calls are
refused. -/
theorem prepare_unscaled_idempotent_counterexample :
    (∃ r1 r2, demoUnscaled.prepare (demoEnv false) demoNumerics demoWorld demoCorePoints ""
        none = Run.done r1 ∧
      r1.feature.prepare (demoEnv false) demoNumerics r1.world demoCorePoints "" none
        = Run.done r2 ∧
      r1.ok = false ∧ r2.ok = false ∧ r1.error = "Not enough memory" ∧
      r2.error = "Not enough memory" ∧ (r2.world.clouds 0).scalarFields = []) ∧
    (∃ r1 r2, demoUnscaledWithOp.prepare (demoEnv true) demoNumerics demoWorld
        demoCorePoints "" none = Run.done r1 ∧
      r1.feature.prepare (demoEnv true) demoNumerics r1.world demoCorePoints "" none
        = Run.done r2 ∧
      r1.ok = false ∧ r2.ok = false ∧ (r2.world.clouds 0).scalarFields = []) :=
  ⟨⟨_, _, rfl, rfl, rfl, rfl, rfl, rfl, rfl⟩, ⟨_, _, rfl, rfl, rfl, rfl, rfl⟩⟩

end Witnesses

/-! ### `PerformMathOp`: failure and self-combination -/

section PerformMathOpMore

variable {α : Type} [LinearOrderedField α]

/-- C17: `PerformMathOp` returns failure if and only if a field is absent, the two fields
have different lengths, or the operation is NO_OPERATION; and whenever it returns failure
the state, hence the values of the first field, is left unchanged. -/
theorem PerformMathOp_failure_iff (w : World α) (sf1 sf2 : Option SFPtr) (op : Operation) :
    ((PerformMathOp w sf1 sf2 op).1 = false ↔
      (sf1.bind w.sf? = none ∨ sf2.bind w.sf? = none ∨
        (∃ a b, sf1.bind w.sf? = some a ∧ sf2.bind w.sf? = some b ∧ a.size ≠ b.size) ∨
        op = Operation.NO_OPERATION)) ∧
    ((PerformMathOp w sf1 sf2 op).1 = false → (PerformMathOp w sf1 sf2 op).2 = w) := by
  unfold PerformMathOp
  cases sf1 with
  | none => simp
  | some p1 =>
    cases sf2 with
    | none => simp
    | some p2 =>
      simp only [Option.some_bind]
      cases h1 : w.sf? p1 with
      | none => simp
      | some f1 =>
        cases h2 : w.sf? p2 with
        | none => simp
        | some f2 =>
          simp only
          by_cases hg : f1.size ≠ f2.size ∨ op = Operation.NO_OPERATION
          · rw [if_pos hg]
            refine ⟨⟨fun _ => ?_, fun _ => rfl⟩, fun _ => rfl⟩
            rcases hg with hg | hg
            · exact Or.inr (Or.inr (Or.inl ⟨f1, f2, rfl, rfl, hg⟩))
            · exact Or.inr (Or.inr (Or.inr hg))
          · rw [if_neg hg]
            refine ⟨⟨fun h => Bool.noConfusion h, fun h => ?_⟩, fun h => Bool.noConfusion h⟩
            exfalso
            apply hg
            rcases h with h | h | h | h
            · exact Option.noConfusion h
            · exact Option.noConfusion h
            · obtain ⟨a, b, ha, hb, hab⟩ := h
              left
              rw [← Option.some.inj ha, ← Option.some.inj hb] at hab
              exact hab
            · exact Or.inr h

/-- C14 (amended): combining a field with itself under MINUS succeeds and leaves `0` at
every position that held a finite number, and the sentinel missing value (NaN) at every
position that held it or held an infinite value. -/
theorem PerformMathOp_self_minus (w : World α) (p : SFPtr) (a : ScalarField α)
    (h : w.sf? p = some a) :
    (PerformMathOp w (some p) (some p) Operation.MINUS).1 = true ∧
    ∃ a', (PerformMathOp w (some p) (some p) Operation.MINUS).2.sf? p = some a' ∧
      a'.size = a.size ∧
      ∀ i, i < a.size →
        (∀ x, a.getValue i = Val.num x → a'.getValue i = Val.num 0) ∧
        (a.getValue i = Val.nan → a'.getValue i = Val.nan) ∧
        (a.getValue i = Val.pinf → a'.getValue i = Val.nan) ∧
        (a.getValue i = Val.ninf → a'.getValue i = Val.nan) := by
  obtain ⟨a', b', ha', -, -, hl, hval, -, -⟩ :=
    mathOp_foldl Operation.MINUS p p a a a.values.length w (le_refl _) h h
  have hrun : PerformMathOp w (some p) (some p) Operation.MINUS
      = (true, (List.range a.size).foldl (mathOpStep Operation.MINUS p p) w) := by
    simp [PerformMathOp, h]
  rw [hrun]
  refine ⟨rfl, a', ha', hl, ?_⟩
  intro i hi
  have hv := hval i
  rw [if_pos (show i < a.values.length from hi)] at hv
  refine ⟨?_, ?_, ?_, ?_⟩
  · intro x hx
    rw [hv, hx]
    simp [mathOpValue]
  · intro hx
    rw [hv, hx]
    rfl
  · intro hx
    rw [hv, hx]
    rfl
  · intro hx
    rw [hv, hx]
    rfl

end PerformMathOpMore

section PerformMathOpMoreWitnesses

/-- Witness of C17: without operation the call fails and the state is unchanged. -/
theorem PerformMathOp_failure_iff_witness :
    (PerformMathOp demoWorldWithFields (some ⟨0, 0⟩) (some ⟨0, 1⟩)
      Operation.NO_OPERATION).1 = false ∧
    (PerformMathOp demoWorldWithFields (some ⟨0, 0⟩) (some ⟨0, 1⟩)
      Operation.NO_OPERATION).2 = demoWorldWithFields :=
  ⟨rfl, (PerformMathOp_failure_iff demoWorldWithFields (some ⟨0, 0⟩) (some ⟨0, 1⟩)
    Operation.NO_OPERATION).2 rfl⟩

/-- Witness of C14 on the field `[6, 1]`: the call succeeds and the field holds `[0, 0]`
afterwards. -/
theorem PerformMathOp_self_minus_witness :
    demoWorldWithFields.sf? ⟨0, 0⟩ = some ⟨"A", [Val.num 6, Val.num 1]⟩ ∧
    (((PerformMathOp demoWorldWithFields (some ⟨0, 0⟩) (some ⟨0, 0⟩) Operation.MINUS).2.sf?
        ⟨0, 0⟩).map (fun f => f.values)) = some [Val.num 0, Val.num 0] ∧
    (PerformMathOp demoWorldWithFields (some ⟨0, 0⟩) (some ⟨0, 0⟩) Operation.MINUS).1 = true :=
  ⟨rfl, by simp [PerformMathOp, demoWorldWithFields, demoCloudWithFields, World.sf?,
      ScalarField.size, List.range_succ, mathOpStep, World.setSF, World.setCloud, mathOpValue,
      ScalarField.getValue, ScalarField.setValue],
    (PerformMathOp_self_minus demoWorldWithFields ⟨0, 0⟩ ⟨"A", [Val.num 6, Val.num 1]⟩ rfl).1⟩

/-- C14, as stated, fails: a position that holds the sentinel missing value still holds it
after the field is combined with itself under MINUS, and a position that holds an infinite
value holds the missing value afterwards. -/
theorem PerformMathOp_self_minus_counterexample :
    demoWorldWithNaN.sf? ⟨0, 0⟩ = some ⟨"A", [Val.nan, Val.num 1]⟩ ∧
    (((PerformMathOp demoWorldWithNaN (some ⟨0, 0⟩) (some ⟨0, 0⟩) Operation.MINUS).2.sf?
        ⟨0, 0⟩).map (fun f => f.getValue 0)) = some Val.nan ∧
    (Val.nan : Val ℚ) ≠ Val.num 0 ∧
    demoWorldWithInf.sf? ⟨0, 0⟩ = some ⟨"A", [Val.pinf, Val.ninf]⟩ ∧
    (((PerformMathOp demoWorldWithInf (some ⟨0, 0⟩) (some ⟨0, 0⟩) Operation.MINUS).2.sf?
        ⟨0, 0⟩).map (fun f => f.values)) = some [Val.nan, Val.nan] :=
  ⟨rfl, rfl, by simp, rfl, rfl⟩

end PerformMathOpMoreWitnesses

/-! ### The STD statistic: the fixture and the population standard deviation -/

section StdStatistic

variable {α : Type} [LinearOrderedField α]

/-- The value of the STD branch over numeric neighbour values. -/
theorem stdStatistic_value (N : Numerics α) (q : CCVector3 α) (oct : DgmOctree α)
    (lvl : Nat) (f : IScalarFieldWrapper α) (r : Val α) (out : Val α) (vs : List α)
    (hv : (oct.findNeighborsInASphereStartingFromCell q lvl r).map f.pointValue
      = vs.map Val.num)
    (hne : vs ≠ []) :
    ExtractStatFromSF N q (some oct) lvl Stat.STD f r out =
      (true, Val.num (N.sqrt |(vs.map (fun v => v ^ 2)).sum * (vs.length : α)
        - vs.sum * vs.sum| / (vs.length : α))) := by
  have hlen : (oct.findNeighborsInASphereStartingFromCell q lvl r).length = vs.length := by
    have := congrArg List.length hv
    simpa using this
  have hpos : vs.length ≠ 0 := by
    intro h
    exact hne (List.length_eq_zero.1 h)
  have hk : ((vs.length : α) ≠ 0) := Val.ofNat_ne_zero hpos
  have hs := statLoop_sums N false f _ vs 0 0 [] hv
  simp only [ExtractStatFromSF, hlen, hpos, if_false, reduceCtorEq, decide_False, decide_True,
    or_true, true_or, or_false, false_or, Val.ofNat]
  rw [hs.1, hs.2]
  simp only [zero_add, Val.num_mul, Val.num_sub, Val.abs_num, Numerics.vsqrt_num]
  rw [Val.num_div_of_ne _ hk]
  simp [pow_two]

/-- With a genuine square root, `sqrt(|s2·k − s²|)/k` is `sqrt(|s2/k − (s/k)²|)`. -/
theorem sqrt_scaled_eq (sqrt : α → α)
    (hsqrt : ∀ x, 0 ≤ x → 0 ≤ sqrt x ∧ sqrt x * sqrt x = x) (s s2 k : α) (hk : 0 < k) :
    sqrt |s2 * k - s * s| / k = sqrt |s2 / k - (s / k) ^ 2| := by
  have hk0 : k ≠ 0 := ne_of_gt hk
  have hB : |s2 / k - (s / k) ^ 2| = |s2 * k - s * s| / (k * k) := by
    have : s2 / k - (s / k) ^ 2 = (s2 * k - s * s) / (k * k) := by
      field_simp
      ring
    rw [this, abs_div, abs_of_pos (mul_pos hk hk)]
  obtain ⟨h1, h2⟩ := hsqrt |s2 * k - s * s| (abs_nonneg _)
  obtain ⟨h3, h4⟩ := hsqrt |s2 / k - (s / k) ^ 2| (abs_nonneg _)
  have hsq : sqrt |s2 * k - s * s| / k * (sqrt |s2 * k - s * s| / k)
      = sqrt |s2 / k - (s / k) ^ 2| * sqrt |s2 / k - (s / k) ^ 2| := by
    rw [h4, hB, div_mul_div_comm, h2]
  exact (mul_self_inj (div_nonneg h1 (le_of_lt hk)) h3).1 hsq

/-- The STD branch returns the population standard deviation, for a genuine square root. -/
theorem stdStatistic_population (N : Numerics α) (q : CCVector3 α) (oct : DgmOctree α)
    (lvl : Nat) (f : IScalarFieldWrapper α) (r : Val α) (out : Val α) (vs : List α)
    (hv : (oct.findNeighborsInASphereStartingFromCell q lvl r).map f.pointValue
      = vs.map Val.num)
    (hne : vs ≠ [])
    (hsqrt : ∀ x, 0 ≤ x → 0 ≤ N.sqrt x ∧ N.sqrt x * N.sqrt x = x) :
    ExtractStatFromSF N q (some oct) lvl Stat.STD f r out =
      (true, Val.num (N.sqrt |(vs.map (fun v => v ^ 2)).sum / (vs.length : α)
        - (vs.sum / (vs.length : α)) ^ 2|)) := by
  have hpos : 0 < vs.length := List.length_pos.2 hne
  have hk : (0 : α) < (vs.length : α) := by exact_mod_cast hpos
  rw [stdStatistic_value N q oct lvl f r out vs hv hne,
    sqrt_scaled_eq N.sqrt hsqrt vs.sum _ _ hk]

/-- C15 (amended): for the fixture values `[1,2,2,3,10]` (`k = 5`) the sums are `Σv = 18`
and `Σv² = 118`, and the STD statistic computed by `ExtractStatFromSF` is
`sqrt(|5·118 − 324|)/5 = sqrt(266)/5`. -/
theorem STD_fixture_value (N : Numerics α) (q : CCVector3 α) (oct : DgmOctree α)
    (lvl : Nat) (f : IScalarFieldWrapper α) (r : Val α) (out : Val α)
    (hv : (oct.findNeighborsInASphereStartingFromCell q lvl r).map f.pointValue
      = ([1, 2, 2, 3, 10] : List α).map Val.num) :
    ([1, 2, 2, 3, 10] : List α).sum = 18 ∧
    (([1, 2, 2, 3, 10] : List α).map (fun v => v ^ 2)).sum = 118 ∧
    ExtractStatFromSF N q (some oct) lvl Stat.STD f r out
      = (true, Val.num (N.sqrt |5 * 118 - 324| / 5)) ∧
    ExtractStatFromSF N q (some oct) lvl Stat.STD f r out
      = (true, Val.num (N.sqrt 266 / 5)) := by
  have hsum : ([1, 2, 2, 3, 10] : List α).sum = 18 := by
    simp only [List.sum_cons, List.sum_nil]
    norm_num
  have hsum2 : (([1, 2, 2, 3, 10] : List α).map (fun v => v ^ 2)).sum = 118 := by
    simp only [List.map_cons, List.map_nil, List.sum_cons, List.sum_nil]
    norm_num
  have hval := stdStatistic_value N q oct lvl f r out [1, 2, 2, 3, 10] hv (by simp)
  rw [hsum, hsum2] at hval
  have hlen : ((([1, 2, 2, 3, 10] : List α).length : ℕ) : α) = 5 := by
    simp
  rw [hlen] at hval
  have h1 : |(118 : α) * 5 - 18 * 18| = 266 := by
    norm_num
  have h2 : |(5 : α) * 118 - 324| = 266 := by
    norm_num
  refine ⟨hsum, hsum2, ?_, ?_⟩
  · rw [hval, h1, h2]
  · rw [hval, h1]

/-- C16 (amended): with the square root of exact arithmetic, the value
`sqrt(|sum2·k − sum²|)/k` of the STD branch is the population standard deviation
`sqrt(|sum2/k − (sum/k)²|)` computed in the SKEW branch, for every non-empty list of
neighbour values: the STD statistic returns the latter. -/
theorem STD_equals_population (N : Numerics α) (q : CCVector3 α)
    (oct : DgmOctree α) (lvl : Nat) (f : IScalarFieldWrapper α) (r : Val α) (out : Val α)
    (vs : List α)
    (hv : (oct.findNeighborsInASphereStartingFromCell q lvl r).map f.pointValue
      = vs.map Val.num)
    (hne : vs ≠ [])
    (hsqrt : ∀ x, 0 ≤ x → 0 ≤ N.sqrt x ∧ N.sqrt x * N.sqrt x = x) :
    N.sqrt |(vs.map (fun v => v ^ 2)).sum * (vs.length : α) - vs.sum * vs.sum|
        / (vs.length : α)
      = N.sqrt |(vs.map (fun v => v ^ 2)).sum / (vs.length : α)
        - (vs.sum / (vs.length : α)) ^ 2| ∧
    ExtractStatFromSF N q (some oct) lvl Stat.STD f r out =
      (true, Val.num (N.sqrt |(vs.map (fun v => v ^ 2)).sum / (vs.length : α)
        - (vs.sum / (vs.length : α)) ^ 2|)) := by
  have hpos : 0 < vs.length := List.length_pos.2 hne
  have hk : (0 : α) < (vs.length : α) := by exact_mod_cast hpos
  exact ⟨sqrt_scaled_eq N.sqrt hsqrt vs.sum _ _ hk,
    stdStatistic_population N q oct lvl f r out vs hv hne hsqrt⟩

end StdStatistic

section StdStatisticWitnesses

theorem STD_fixture_value_witness :
    ExtractStatFromSF demoNumerics ⟨0, 0, 0⟩ (some (demoOctree 5)) 0 Stat.STD
        (demoField [1, 2, 2, 3, 10]) (Val.num 1) (Val.num 0)
      = (true, Val.num (demoNumerics.sqrt 266 / 5)) :=
  (STD_fixture_value demoNumerics ⟨0, 0, 0⟩ (demoOctree 5) 0
    (demoField [1, 2, 2, 3, 10]) (Val.num 1) (Val.num 0) rfl).2.2.2

/-- C15, as stated, fails: the squares of the fixture sum to `118`, not `122`, and the STD
statistic of the fixture, `sqrt(266)/5`, is not `sqrt(286)/5`. -/
theorem STD_fixture_value_counterexample :
    (([1, 2, 2, 3, 10] : List ℝ).map (fun v => v ^ 2)).sum ≠ 122 ∧
    ExtractStatFromSF (⟨Real.sqrt, fun x => x, fun _ => ""⟩ : Numerics ℝ) ⟨0, 0, 0⟩
        (some ⟨fun _ _ _ => [0, 1, 2, 3, 4], fun _ => 0⟩) 0 Stat.STD
        ⟨"f", fun i => Val.num (([1, 2, 2, 3, 10] : List ℝ).getD i 0)⟩ (Val.num 1) (Val.num 0)
      ≠ (true, Val.num (Real.sqrt 286 / 5)) := by
  refine ⟨by norm_num, ?_⟩
  have hval := stdStatistic_value (⟨Real.sqrt, fun x => x, fun _ => ""⟩ : Numerics ℝ)
    ⟨0, 0, 0⟩ ⟨fun _ _ _ => [0, 1, 2, 3, 4], fun _ => 0⟩ 0
    ⟨"f", fun i => Val.num (([1, 2, 2, 3, 10] : List ℝ).getD i 0)⟩ (Val.num 1) (Val.num 0)
    [1, 2, 2, 3, 10] (by simp) (by simp)
  rw [hval]
  intro h
  simp only [Prod.mk.injEq, true_and, Val.num.injEq] at h
  have h5 : ((([1, 2, 2, 3, 10] : List ℝ).length : ℕ) : ℝ) = 5 := by simp
  rw [h5] at h
  have habs : |(([1, 2, 2, 3, 10] : List ℝ).map (fun v => v ^ 2)).sum * 5
      - ([1, 2, 2, 3, 10] : List ℝ).sum * ([1, 2, 2, 3, 10] : List ℝ).sum| = 266 := by
    norm_num
  rw [habs, div_left_inj' (by norm_num : (5 : ℝ) ≠ 0),
    Real.sqrt_inj (by norm_num) (by norm_num)] at h
  norm_num at h

theorem STD_equals_population_witness :
    ExtractStatFromSF (⟨Real.sqrt, fun x => x, fun _ => ""⟩ : Numerics ℝ) ⟨0, 0, 0⟩
        (some ⟨fun _ _ _ => [0, 1], fun _ => 0⟩) 0 Stat.STD
        ⟨"f", fun i => Val.num (i : ℝ)⟩ (Val.num 1) (Val.num 0)
      = (true, Val.num (Real.sqrt |(([0, 1] : List ℝ).map (fun v => v ^ 2)).sum
          / ((([0, 1] : List ℝ).length : ℝ))
        - (([0, 1] : List ℝ).sum / ((([0, 1] : List ℝ).length : ℝ))) ^ 2|)) :=
  (STD_equals_population (⟨Real.sqrt, fun x => x, fun _ => ""⟩ : Numerics ℝ)
    ⟨0, 0, 0⟩ ⟨fun _ _ _ => [0, 1], fun _ => 0⟩ 0 ⟨"f", fun i => Val.num (i : ℝ)⟩ (Val.num 1)
    (Val.num 0) [0, 1] (by simp) (by simp)
    (fun x hx => ⟨Real.sqrt_nonneg x, Real.mul_self_sqrt hx⟩)).2

/-- C16, as stated, fails: in exact real arithmetic no non-empty list of neighbour values
makes the output of the STD statistic differ from the standard deviation
`sqrt(|sum2/k − (sum/k)²|)` of the SKEW branch. -/
theorem STD_equals_population_counterexample :
    ¬ ∃ (q : CCVector3 ℝ) (oct : DgmOctree ℝ) (lvl : Nat) (f : IScalarFieldWrapper ℝ)
        (r out : Val ℝ) (vs : List ℝ),
      (oct.findNeighborsInASphereStartingFromCell q lvl r).map f.pointValue
          = vs.map Val.num ∧
        vs ≠ [] ∧
        ExtractStatFromSF (⟨Real.sqrt, fun x => x, fun _ => ""⟩ : Numerics ℝ) q (some oct)
            lvl Stat.STD f r out
          ≠ (true, Val.num (Real.sqrt |(vs.map (fun v => v ^ 2)).sum / (vs.length : ℝ)
            - (vs.sum / (vs.length : ℝ)) ^ 2|)) := by
  rintro ⟨q, oct, lvl, f, r, out, vs, hv, hne, hdiff⟩
  exact hdiff (stdStatistic_population (⟨Real.sqrt, fun x => x, fun _ => ""⟩ : Numerics ℝ)
    q oct lvl f r out vs hv hne (fun x hx => ⟨Real.sqrt_nonneg x, Real.mul_self_sqrt hx⟩))

end StdStatisticWitnesses

/-! ### `checkValidity` and `retrieveField`: further results -/

section ValidityMore

variable {α : Type} [LinearOrderedField α]

/-- C20: a descriptor with a finite scale that `Feature::checkValidity` accepts has a
statistic set and is of type PointFeature; and no rejection by `checkValidity` carries the
message "math operations can't be defined on dual-cloud features". -/
theorem checkValidity_scaled (f : Feature α) (error : String) :
    ((f.checkValidity error).1 = true → f.scaled = true →
      f.stat ≠ Stat.NO_STAT ∧ f.getType = FeatureType.PointFeature) ∧
    ((f.checkValidity error).1 = false →
      (f.checkValidity error).2 ≠ "math operations can't be defined on dual-cloud features") := by
  unfold Feature.checkValidity
  simp only
  generalize (if f.cloud1.isSome = true then if f.cloud2.isSome = true then 2 else 1 else 0)
    = cloudCount
  refine ⟨?_, ?_⟩
  · intro hacc hsc
    split_ifs at hacc with c0 c1 c2 c3 c4 c5 c6 c7
    · have hst : f.stat ≠ Stat.NO_STAT := by
        intro hcon
        apply c1
        simp [hsc, hcon]
      refine ⟨hst, ?_⟩
      by_contra hcon
      exact c2 ⟨hst, hcon⟩
  · split_ifs with c0 c1 c2 c3 c4 c5 c6 c7
    · intro _; decide
    · intro _; decide
    · intro _; decide
    · intro _; decide
    · intro _; decide
    · intro _
      exfalso
      have hsc : f.scaled = true := by
        by_contra hcon
        apply c4
        refine ⟨c5.1, ?_⟩
        simpa using hcon
      have hst : f.stat ≠ Stat.NO_STAT := by
        intro hcon
        apply c1
        simp [hsc, hcon]
      have hty : f.getType = FeatureType.PointFeature := by
        by_contra hcon
        exact c2 ⟨hst, hcon⟩
      rw [c5.2] at hty
      exact FeatureType.noConfusion hty
    · intro _; decide
    · intro _; decide
    · intro h
      simp at h

end ValidityMore

/-! ### The echo ratio in `retrieveField` -/

section EchoRatio

variable {α : Type} [LinearOrderedField α]

/-- The lookup `RetrieveSF` finds nothing exactly when no field of the cloud bears the name. -/
theorem RetrieveSF_eq_none_iff (E : Env α) (w : World α) (c : Nat) (n : String) (cs : Bool) :
    RetrieveSF E w c n cs = none ↔
      ∀ sf ∈ (w.clouds c).scalarFields, E.sameName cs sf.name n = false := by
  constructor
  · intro h sf hsf
    simp only [RetrieveSF, Option.map_eq_none'] at h
    exact findSF_none _ _ h sf hsf
  · intro h
    cases hf : RetrieveSF E w c n cs with
    | none => rfl
    | some p =>
      simp only [RetrieveSF, Option.map_eq_some'] at hf
      obtain ⟨i, hi, -⟩ := hf
      obtain ⟨sf, hsf, hp⟩ := findSF_some _ _ i hi
      have := h sf (List.getElem?_mem hsf)
      rw [this] at hp
      exact Bool.noConfusion hp

/-- The pointer `RetrieveSF` returns designates a field of the cloud that bears the name. -/
theorem RetrieveSF_valid (E : Env α) (w : World α) (c : Nat) (n : String) (cs : Bool)
    (p : SFPtr) (h : RetrieveSF E w c n cs = some p) :
    p.cloud = c ∧ ∃ sf, w.sf? p = some sf ∧ E.sameName cs sf.name n = true := by
  simp only [RetrieveSF, Option.map_eq_some'] at h
  obtain ⟨i, hi, rfl⟩ := h
  obtain ⟨sf, hsf, hp⟩ := findSF_some _ _ i hi
  exact ⟨rfl, sf, hsf, hp⟩

/-- C19: for a non-null cloud, `retrieveField` of the echo ratio returns a source exactly when
both LAS fields are found and both have the size of the cloud; a missing number-of-returns
field, then a missing return-number field, then inconsistent sizes each give their own
message; a lookup fails exactly when no field of the cloud bears the name. -/
theorem retrieveField_EchoRat (E : Env α) (w : World α) (pf : PointFeature α) (c : Nat)
    (error : String) (hty : pf.type = PointFeatureType.EchoRat) :
    ((pf.retrieveField E w (some c) error).1.isSome = true ↔
      ∃ nb rn a b, RetrieveSF E w c E.LAS_NUMBER_OF_RETURNS false = some nb ∧
        RetrieveSF E w c E.LAS_RETURN_NUMBER false = some rn ∧
        w.sf? nb = some a ∧ w.sf? rn = some b ∧
        a.size = (w.clouds c).size ∧ b.size = (w.clouds c).size) ∧
    (RetrieveSF E w c E.LAS_NUMBER_OF_RETURNS false = none →
      pf.retrieveField E w (some c) error =
        (none, "Can't compute the 'echo ratio' field: no 'Number of Return' SF available")) ∧
    (RetrieveSF E w c E.LAS_NUMBER_OF_RETURNS false ≠ none →
      RetrieveSF E w c E.LAS_RETURN_NUMBER false = none →
      pf.retrieveField E w (some c) error =
        (none, "Can't compute the 'echo ratio' field: no 'Return number' SF available")) ∧
    (∀ nb rn a b, RetrieveSF E w c E.LAS_NUMBER_OF_RETURNS false = some nb →
      RetrieveSF E w c E.LAS_RETURN_NUMBER false = some rn →
      w.sf? nb = some a → w.sf? rn = some b →
      ¬ (a.size = (w.clouds c).size ∧ b.size = (w.clouds c).size) →
      pf.retrieveField E w (some c) error =
        (none, "Internal error (inconsistent scalar fields)")) ∧
    (∀ nb rn a b, RetrieveSF E w c E.LAS_NUMBER_OF_RETURNS false = some nb →
      RetrieveSF E w c E.LAS_RETURN_NUMBER false = some rn →
      w.sf? nb = some a → w.sf? rn = some b →
      a.size = (w.clouds c).size → b.size = (w.clouds c).size →
      pf.retrieveField E w (some c) error =
        (some ⟨"EchoRat", WrapperSource.quotient rn nb⟩, error)) ∧
    (∀ n, RetrieveSF E w c n false = none ↔
      ∀ sf ∈ (w.clouds c).scalarFields, E.sameName false sf.name n = false) := by
  have hkey : ∀ nb rn a b, RetrieveSF E w c E.LAS_NUMBER_OF_RETURNS false = some nb →
      RetrieveSF E w c E.LAS_RETURN_NUMBER false = some rn →
      w.sf? nb = some a → w.sf? rn = some b →
      pf.retrieveField E w (some c) error =
        if b.size ≠ a.size ∨ b.size ≠ (w.clouds c).size then
          (none, "Internal error (inconsistent scalar fields)")
        else (some ⟨"EchoRat", WrapperSource.quotient rn nb⟩, error) := by
    intro nb rn a b hnb hrn ha hb
    simp only [PointFeature.retrieveField, hty, hnb, hrn, ha, hb, Option.map_some',
      Option.getD_some]
  have h1 : RetrieveSF E w c E.LAS_NUMBER_OF_RETURNS false = none →
      pf.retrieveField E w (some c) error =
        (none, "Can't compute the 'echo ratio' field: no 'Number of Return' SF available") := by
    intro hnb
    simp only [PointFeature.retrieveField, hty, hnb]
  have h2 : RetrieveSF E w c E.LAS_NUMBER_OF_RETURNS false ≠ none →
      RetrieveSF E w c E.LAS_RETURN_NUMBER false = none →
      pf.retrieveField E w (some c) error =
        (none, "Can't compute the 'echo ratio' field: no 'Return number' SF available") := by
    intro hnb hrn
    obtain ⟨nb, hnb'⟩ := Option.ne_none_iff_exists'.1 hnb
    simp only [PointFeature.retrieveField, hty, hnb', hrn]
  have h3 : ∀ nb rn a b, RetrieveSF E w c E.LAS_NUMBER_OF_RETURNS false = some nb →
      RetrieveSF E w c E.LAS_RETURN_NUMBER false = some rn →
      w.sf? nb = some a → w.sf? rn = some b →
      ¬ (a.size = (w.clouds c).size ∧ b.size = (w.clouds c).size) →
      pf.retrieveField E w (some c) error =
        (none, "Internal error (inconsistent scalar fields)") := by
    intro nb rn a b hnb hrn ha hb hsz
    rw [hkey nb rn a b hnb hrn ha hb, if_pos]
    by_contra hcon
    push_neg at hcon
    exact hsz ⟨by rw [← hcon.1, hcon.2], hcon.2⟩
  have h4 : ∀ nb rn a b, RetrieveSF E w c E.LAS_NUMBER_OF_RETURNS false = some nb →
      RetrieveSF E w c E.LAS_RETURN_NUMBER false = some rn →
      w.sf? nb = some a → w.sf? rn = some b →
      a.size = (w.clouds c).size → b.size = (w.clouds c).size →
      pf.retrieveField E w (some c) error =
        (some ⟨"EchoRat", WrapperSource.quotient rn nb⟩, error) := by
    intro nb rn a b hnb hrn ha hb hsa hsb
    rw [hkey nb rn a b hnb hrn ha hb, if_neg]
    intro hcon
    rcases hcon with hcon | hcon
    · exact hcon (by rw [hsa, hsb])
    · exact hcon hsb
  refine ⟨?_, h1, h2, h3, h4, fun n => RetrieveSF_eq_none_iff E w c n false⟩
  constructor
  · intro hsome
    cases hnb : RetrieveSF E w c E.LAS_NUMBER_OF_RETURNS false with
    | none =>
      rw [h1 hnb] at hsome
      exact Bool.noConfusion hsome
    | some nb =>
      cases hrn : RetrieveSF E w c E.LAS_RETURN_NUMBER false with
      | none =>
        rw [h2 (by rw [hnb]; exact Option.some_ne_none nb) hrn] at hsome
        exact Bool.noConfusion hsome
      | some rn =>
        obtain ⟨-, a, ha, -⟩ := RetrieveSF_valid E w c _ _ nb hnb
        obtain ⟨-, b, hb, -⟩ := RetrieveSF_valid E w c _ _ rn hrn
        by_cases hsz : a.size = (w.clouds c).size ∧ b.size = (w.clouds c).size
        · exact ⟨nb, rn, a, b, rfl, rfl, ha, hb, hsz.1, hsz.2⟩
        · rw [h3 nb rn a b hnb hrn ha hb hsz] at hsome
          exact Bool.noConfusion hsome
  · rintro ⟨nb, rn, a, b, hnb, hrn, ha, hb, hsa, hsb⟩
    rw [h4 nb rn a b hnb hrn ha hb hsa hsb]
    rfl

end EchoRatio

section MoreWitnesses

/-- Witness of C20 on `demoFeature`, and on its dual-cloud variant that an earlier check
rejects. -/
theorem checkValidity_scaled_witness :
    ((demoFeature.checkValidity "").1 = true ∧ demoFeature.scaled = true ∧
      demoFeature.stat ≠ Stat.NO_STAT ∧ demoFeature.getType = FeatureType.PointFeature) ∧
    (({ demoFeature with getType := FeatureType.DualCloudFeature }.checkValidity "").1 = false ∧
      ({ demoFeature with getType := FeatureType.DualCloudFeature }.checkValidity "").2 ≠
        "math operations can't be defined on dual-cloud features") :=
  ⟨⟨rfl, rfl, (checkValidity_scaled demoFeature "").1 rfl rfl⟩,
    rfl, (checkValidity_scaled { demoFeature with getType := FeatureType.DualCloudFeature }
      "").2 rfl⟩

/-- Witness of C19: a cloud with both LAS fields gives the quotient wrapper, a cloud without
fields gives the first message. -/
theorem retrieveField_EchoRat_witness :
    demoEchoRat.type = PointFeatureType.EchoRat ∧
    (demoEchoRat.retrieveField (demoEnv true) demoWorldLAS (some 0) "").1.isSome = true ∧
    (demoEchoRat.retrieveField (demoEnv true) demoWorld (some 0) "") =
      (none, "Can't compute the 'echo ratio' field: no 'Number of Return' SF available") :=
  ⟨rfl,
    (retrieveField_EchoRat (demoEnv true) demoWorldLAS demoEchoRat 0 "" rfl).1.2
      ⟨⟨0, 0⟩, ⟨0, 1⟩, _, _, by decide, by decide, rfl, rfl, rfl, rfl⟩,
    (retrieveField_EchoRat (demoEnv true) demoWorld demoEchoRat 0 "" rfl).2.1 rfl⟩

end MoreWitnesses

/-! ### The second cloud and the operation in the scale-less branch -/

section UnscaledSecondCloud

variable {α : Type} [LinearOrderedField α]

/-- C13 (amended): for an unscaled descriptor that does not carry both a second cloud and an
operation, `prepare` behaves as for the same descriptor with `cloud2` unset and no
operation: both runs fault, or both return, with the same success flag, the same recorded
output name, the same error message and the same final state (hence the same fields on
the core cloud).  With both a second cloud and an operation, `prepare` returns false and
leaves the state untouched. -/
theorem prepare_unscaled_second_cloud (E : Env α) (N : Numerics α) (pf : PointFeature α)
    (w : World α) (cp : CorePoints) (error : String) (cb : Option (Nat → Bool))
    (hscaled : pf.scaled = false) :
    (¬ (pf.cloud2.isSome = true ∧ pf.op ≠ Operation.NO_OPERATION) →
      (pf.prepare E N w cp error cb = Run.fault ∧
        ({ pf with cloud2 := none, op := Operation.NO_OPERATION } : PointFeature α).prepare
          E N w cp error cb = Run.fault) ∨
      ∃ r r0, pf.prepare E N w cp error cb = Run.done r ∧
        ({ pf with cloud2 := none, op := Operation.NO_OPERATION } : PointFeature α).prepare
          E N w cp error cb = Run.done r0 ∧
        r.ok = r0.ok ∧ r.feature.sourceName = r0.feature.sourceName ∧
        r.error = r0.error ∧ r.world = r0.world) ∧
    (pf.cloud2.isSome = true → pf.op ≠ Operation.NO_OPERATION →
      ∃ r, pf.prepare E N w cp error cb = Run.done r ∧ r.ok = false ∧ r.world = w ∧
        r.feature = pf) := by
  have hscaled0 : ({ pf with cloud2 := none, op := Operation.NO_OPERATION } :
      PointFeature α).scaled = false := hscaled
  have hrf0 : ∀ c e, ({ pf with cloud2 := none, op := Operation.NO_OPERATION } :
      PointFeature α).retrieveField E w c e = pf.retrieveField E w c e := fun _ _ => rfl
  refine ⟨?_, ?_⟩
  · intro hnot
    have hnot0 : ¬ ((none : Option Nat).isSome = true ∧
        Operation.NO_OPERATION ≠ Operation.NO_OPERATION) := fun h => h.2 rfl
    unfold PointFeature.prepare
    rw [hscaled, hscaled0]
    simp only [hrf0]
    cases h1 : pf.cloud1 with
    | none => exact Or.inr ⟨_, _, rfl, rfl, rfl, rfl, rfl, rfl⟩
    | some c1 =>
      cases hc : cp.cloud with
      | none => exact Or.inr ⟨_, _, rfl, rfl, rfl, rfl, rfl, rfl⟩
      | some coreId =>
        simp only
        cases hrf : pf.retrieveField E w (some c1) error with
        | mk fw e1 =>
          cases fw with
          | none => exact Or.inr ⟨_, _, rfl, rfl, rfl, rfl, rfl, rfl⟩
          | some field1 =>
            simp only [Bool.false_eq_true, if_false]
            unfold PointFeature.prepareUnscaled
            simp only [h1, hc]
            by_cases hg1 : some c1 ≠ some coreId ∧ some c1 ≠ cp.origin
            · rw [if_pos hg1, if_pos hg1]
              exact Or.inr ⟨_, _, rfl, rfl, rfl, rfl, rfl, rfl⟩
            · rw [if_neg hg1, if_neg hg1, if_neg hnot, if_neg hnot0]
              cases hidx : (w.clouds coreId).getScalarFieldIndexByName field1.name with
              | some sfIdx => exact Or.inr ⟨_, _, rfl, rfl, rfl, rfl, rfl, rfl⟩
              | none =>
                simp only
                by_cases hal : (!E.resizeSafe w.allocations (w.clouds coreId).size) = true
                · rw [if_pos hal, if_pos hal]
                  exact Or.inr ⟨_, _, rfl, rfl, rfl, rfl, rfl, rfl⟩
                · rw [if_neg hal, if_neg hal]
                  cases hcopy : copyLoop { w with allocations := w.allocations + 1 } field1 cp
                      (List.range cp.size)
                      ⟨field1.name, List.replicate (w.clouds coreId).size (Val.num 0)⟩ with
                  | fault => exact Or.inl ⟨rfl, rfl⟩
                  | done resultSF => exact Or.inr ⟨_, _, rfl, rfl, rfl, rfl, rfl, rfl⟩
  · intro h2 hop
    unfold PointFeature.prepare
    rw [hscaled]
    cases h1 : pf.cloud1 with
    | none => exact ⟨_, rfl, rfl, rfl, rfl⟩
    | some c1 =>
      cases hc : cp.cloud with
      | none => exact ⟨_, rfl, rfl, rfl, rfl⟩
      | some coreId =>
        simp only
        cases hrf : pf.retrieveField E w (some c1) error with
        | mk fw e1 =>
          cases fw with
          | none => exact ⟨_, rfl, rfl, rfl, rfl⟩
          | some field1 =>
            simp only [Bool.false_eq_true, if_false]
            unfold PointFeature.prepareUnscaled
            by_cases hg1 : pf.cloud1 ≠ cp.cloud ∧ pf.cloud1 ≠ cp.origin
            · rw [if_pos hg1]
              exact ⟨_, rfl, rfl, rfl, rfl⟩
            · rw [if_neg hg1, if_pos ⟨h2, hop⟩]
              exact ⟨_, rfl, rfl, rfl, rfl⟩

end UnscaledSecondCloud

section UnscaledSecondCloudWitnesses

/-- Witness of C13 on `demoUnscaled` with a second cloud and no operation: both runs succeed
and record the name "X". -/
theorem prepare_unscaled_second_cloud_witness :
    ({ demoUnscaled with cloud2 := some 1 } : PointFeature ℚ).scaled = false ∧
    ¬ (({ demoUnscaled with cloud2 := some 1 } : PointFeature ℚ).cloud2.isSome = true ∧
      ({ demoUnscaled with cloud2 := some 1 } : PointFeature ℚ).op ≠
        Operation.NO_OPERATION) ∧
    ((({ demoUnscaled with cloud2 := some 1 } : PointFeature ℚ).prepare (demoEnv true)
      demoNumerics demoWorld demoCorePoints "" none).get?.map
        (fun r => (r.ok, r.feature.sourceName))) = some (true, "X") ∧
    ((({ demoUnscaled with cloud2 := some 1 } : PointFeature ℚ).prepare (demoEnv true)
        demoNumerics demoWorld demoCorePoints "" none = Run.fault ∧
      ({ ({ demoUnscaled with cloud2 := some 1 } : PointFeature ℚ) with
        cloud2 := none, op := Operation.NO_OPERATION } : PointFeature ℚ).prepare (demoEnv true)
        demoNumerics demoWorld demoCorePoints "" none = Run.fault) ∨
      ∃ r r0, ({ demoUnscaled with cloud2 := some 1 } : PointFeature ℚ).prepare (demoEnv true)
        demoNumerics demoWorld demoCorePoints "" none = Run.done r ∧
        ({ ({ demoUnscaled with cloud2 := some 1 } : PointFeature ℚ) with
          cloud2 := none, op := Operation.NO_OPERATION } : PointFeature ℚ).prepare
          (demoEnv true) demoNumerics demoWorld demoCorePoints "" none = Run.done r0 ∧
        r.ok = r0.ok ∧ r.feature.sourceName = r0.feature.sourceName ∧
        r.error = r0.error ∧ r.world = r0.world) :=
  ⟨rfl, fun h => h.2 rfl, rfl,
    (prepare_unscaled_second_cloud (demoEnv true) demoNumerics
      ({ demoUnscaled with cloud2 := some 1 } : PointFeature ℚ) demoWorld demoCorePoints ""
      none rfl).1 (fun h => h.2 rfl)⟩

/-- C13, as stated, fails: with both a second cloud and an operation the unscaled
`demoUnscaledWithOp` is refused and the core cloud gets no field, while the same descriptor
with `cloud2` unset and no operation succeeds, records the name "X" and adds a field to the
core cloud. -/
theorem prepare_unscaled_second_cloud_counterexample :
    demoUnscaledWithOp.scaled = false ∧ demoUnscaledWithOp.cloud2 = some 1 ∧
    demoUnscaledWithOp.op = Operation.MINUS ∧
    ((demoUnscaledWithOp.prepare (demoEnv true) demoNumerics demoWorld demoCorePoints ""
      none).get?.map (fun r => (r.ok, r.feature.sourceName,
        ((r.world.clouds 0).scalarFields.map (fun sf => sf.name))))) = some (false, "", []) ∧
    ((({ demoUnscaledWithOp with cloud2 := none, op := Operation.NO_OPERATION } :
      PointFeature ℚ).prepare (demoEnv true) demoNumerics demoWorld demoCorePoints ""
      none).get?.map (fun r => (r.ok, r.feature.sourceName,
        ((r.world.clouds 0).scalarFields.map (fun sf => sf.name))))) =
      some (true, "X", ["X"]) :=
  ⟨rfl, rfl, rfl, rfl, rfl⟩

end UnscaledSecondCloudWitnesses

/-! ### The error message of a failing `prepare` -/

section FailureMessage

variable {α : Type} [LinearOrderedField α]

theorem append_ne_empty (a b : String) (h : a ≠ "") : a ++ b ≠ "" := by
  intro hab
  apply h
  have h1 := congrArg String.data hab
  simp only [String.data_append, List.append_eq_nil] at h1
  exact String.ext h1.1

theorem extractError_ne_empty (N : Numerics α) (n : String) (s : Val α) :
    extractError N n s ≠ "" := by
  unfold extractError
  exact append_ne_empty _ _ (append_ne_empty _ _ (append_ne_empty _ _ (by decide)))

theorem retrieveStored_message (E : Env α) (w : World α) (c : Nat) (n : String) (cs : Bool)
    (msg error : String) (hmsg : msg ≠ "")
    (h : (retrieveStored E w c n cs msg error).1 = none) :
    (retrieveStored E w c n cs msg error).2 ≠ "" := by
  unfold retrieveStored at h ⊢
  cases hr : RetrieveSF E w c n cs with
  | none => simpa [hr] using hmsg
  | some p => simp [hr] at h

/-- A failing `retrieveField` on a non-null cloud leaves a non-empty message. -/
theorem retrieveField_message (E : Env α) (w : World α) (pf : PointFeature α) (c : Nat)
    (error : String) (h : (pf.retrieveField E w (some c) error).1 = none) :
    (pf.retrieveField E w (some c) error).2 ≠ "" := by
  unfold PointFeature.retrieveField at h ⊢
  revert h
  cases pf.type <;> simp only <;> intro h
  case Intensity => exact retrieveStored_message E w c _ _ _ _ (by decide) h
  case NbRet => exact retrieveStored_message E w c _ _ _ _ (by decide) h
  case RetNb => exact retrieveStored_message E w c _ _ _ _ (by decide) h
  case NIR => exact retrieveStored_message E w c _ _ _ _ (by decide) h
  case M3C2 => exact retrieveStored_message E w c _ _ _ _ (by decide) h
  case PCV => exact retrieveStored_message E w c _ _ _ _ (by decide) h
  case X => exact absurd h (by simp)
  case Y => exact absurd h (by simp)
  case Z => exact absurd h (by simp)
  case R => exact absurd h (by simp)
  case G => exact absurd h (by simp)
  case B => exact absurd h (by simp)
  case Invalid => decide
  case EchoRat =>
    revert h
    split
    · intro _; decide
    · split
      · intro _; decide
      · split
        · intro _; decide
        · intro h; exact absurd h (by simp)
  case DipAng =>
    revert h
    split
    · intro _; decide
    · intro h; exact absurd h (by simp)
  case DipDir =>
    revert h
    split
    · intro _; decide
    · intro h; exact absurd h (by simp)
  case SF =>
    revert h
    split
    · intro _
      exact append_ne_empty _ _ (append_ne_empty _ _ (by decide))
    · intro h; exact absurd h (by simp)

end FailureMessage

section FailureMessageMore

variable {α : Type} [LinearOrderedField α]

/-- A failing `prepareStats` leaves a non-empty message. -/
theorem prepareStats_message (E : Env α) (N : Numerics α) (pf : PointFeature α)
    (w : World α) (cp : CorePoints) (coreId : Nat) (field1 : FieldWrapper)
    (field2 : Option FieldWrapper) (error : String) (cb : Option (Nat → Bool))
    (r : PrepareResult α)
    (h : pf.prepareStats E N w cp coreId field1 field2 error cb = Run.done r)
    (hok : r.ok = false) : r.error ≠ "" := by
  unfold PointFeature.prepareStats at h
  split at h
  · exact Run.noConfusion h
  · cases h
    exact extractError_ne_empty N _ _
  · simp only at h
    split at h
    · split at h
      · split at h
        · exact Run.noConfusion h
        · cases h
          exact extractError_ne_empty N _ _
        · split at h
          · cases h
            exact (by decide : ("Failed to perform the MATH operation" : String) ≠ "")
          · split at h
            · cases h
              exact Bool.noConfusion hok
            · cases h
              exact Bool.noConfusion hok
      · cases h
        exact Bool.noConfusion hok
    · cases h
      exact Bool.noConfusion hok

/-- C11 (amended): the three `prepare` methods that are not implemented return false and
leave `error` as it was; a `PointFeature::prepare` that returns false on a non-null
`cloud1` and a non-null core cloud, for a descriptor that is neither scaled without a
statistic nor unscaled with both a second cloud and an operation, leaves a non-empty
message in `error`, whatever `error` held before. -/
theorem prepare_failure_message (E : Env α) (N : Numerics α) (pf : PointFeature α)
    (w : World α) (cp : CorePoints) (error : String) (cb : Option (Nat → Bool)) :
    NeighborhoodFeature.prepare cp error cb = (false, error) ∧
    ContextBasedFeature.prepare cp error cb = (false, error) ∧
    DualCloudFeature.prepare cp error cb = (false, error) ∧
    (pf.cloud1 ≠ none → cp.cloud ≠ none →
      ¬ (pf.scaled = true ∧ pf.stat = Stat.NO_STAT) →
      ¬ (pf.scaled = false ∧ pf.cloud2.isSome = true ∧ pf.op ≠ Operation.NO_OPERATION) →
      ∀ r, pf.prepare E N w cp error cb = Run.done r → r.ok = false → r.error ≠ "") := by
  refine ⟨rfl, rfl, rfl, ?_⟩
  intro h1 hc hns hnu r h hok
  obtain ⟨c1, hc1⟩ := Option.ne_none_iff_exists'.1 h1
  obtain ⟨coreId, hcore⟩ := Option.ne_none_iff_exists'.1 hc
  have hmsg := retrieveField_message E w pf c1 error
  unfold PointFeature.prepare at h
  rw [hcore] at h
  rw [hc1] at h
  simp only at h
  cases hrf : pf.retrieveField E w (some c1) error with
  | mk fw e1 =>
    rw [hrf] at h hmsg
    cases fw with
    | none =>
      simp only at h
      cases h
      exact hmsg rfl
    | some field1 =>
      simp only at h
      by_cases hsc : pf.scaled = true
      · rw [if_pos hsc] at h
        unfold PointFeature.prepareScaled at h
        rw [if_neg (fun hst => hns ⟨hsc, hst⟩)] at h
        split at h
        · rename_i hcond
          obtain ⟨c2, hc2⟩ := Option.isSome_iff_exists.1 hcond.1
          have hmsg2 := retrieveField_message E w pf c2 e1
          rw [hc2] at h
          cases hrf2 : pf.retrieveField E w (some c2) e1 with
          | mk fw2 e2 =>
            rw [hrf2] at h hmsg2
            cases fw2 with
            | none =>
              simp only at h
              cases h
              exact hmsg2 rfl
            | some field2 =>
              simp only at h
              exact prepareStats_message E N pf w cp coreId field1 _ _ cb r h hok
        · exact prepareStats_message E N pf w cp coreId field1 _ _ cb r h hok
      · rw [if_neg hsc] at h
        have hsc' : pf.scaled = false := by simpa using hsc
        unfold PointFeature.prepareUnscaled at h
        split at h
        · cases h
          exact (by decide : ("Scale-less features (SC0) can only be defined on the core points (origin) cloud"
            : String) ≠ "")
        · rw [if_neg (fun hcon => hnu ⟨hsc', hcon.1, hcon.2⟩)] at h
          simp only at h
          split at h
          · cases h
            exact Bool.noConfusion hok
          · split at h
            · cases h
              exact (by decide : ("Not enough memory" : String) ≠ "")
            · split at h
              · exact Run.noConfusion h
              · cases h
                exact Bool.noConfusion hok

end FailureMessageMore

section FailureMessageWitnesses

/-- Witness of C11: the echo ratio on a cloud without LAS fields is refused with a message. -/
theorem prepare_failure_message_witness :
    demoEchoRat.cloud1 ≠ none ∧ demoCorePoints.cloud ≠ none ∧
    demoEchoRat.prepare (demoEnv true) demoNumerics demoWorld demoCorePoints "" none =
      Run.done ⟨false, demoEchoRat,
        "Can't compute the 'echo ratio' field: no 'Number of Return' SF available",
        demoWorld⟩ ∧
    ("Can't compute the 'echo ratio' field: no 'Number of Return' SF available" : String)
      ≠ "" :=
  ⟨by decide, by decide, rfl,
    (prepare_failure_message (demoEnv true) demoNumerics demoEchoRat demoWorld demoCorePoints
      "" none).2.2.2 (by decide) (by decide) (by decide)
      (fun h => h.2.2 rfl) _ rfl rfl⟩

/-- C11, as stated, fails: called with an empty `error`, the `prepare` of a dual-cloud
descriptor returns false with `error` still empty; so do `PointFeature::prepare` on a
null core cloud, on a scaled descriptor without statistic and on an unscaled descriptor
with a second cloud and an operation. -/
theorem prepare_failure_message_counterexample :
    DualCloudFeature.prepare demoCorePoints "" none = (false, "") ∧
    NeighborhoodFeature.prepare demoCorePoints "" none = (false, "") ∧
    ContextBasedFeature.prepare demoCorePoints "" none = (false, "") ∧
    ((demoUnscaled.prepare (demoEnv true) demoNumerics demoWorld ⟨none, some 1, [1, 0]⟩ ""
      none).get?.map (fun r => (r.ok, r.error))) = some (false, "") ∧
    ((({ demoScaled with stat := Stat.NO_STAT } : PointFeature ℚ).prepare (demoEnv true)
      demoNumerics demoWorld demoCorePoints "" demoCallback).get?.map
        (fun r => (r.ok, r.error))) = some (false, "") ∧
    ((demoUnscaledWithOp.prepare (demoEnv true) demoNumerics demoWorld demoCorePoints ""
      none).get?.map (fun r => (r.ok, r.error))) = some (false, "") :=
  ⟨rfl, rfl, rfl, rfl, rfl, rfl⟩

end FailureMessageWitnesses

/-! ### Cancellation -/

section Cancellation

variable {α : Type} [LinearOrderedField α]

/-- With an octree and a statistic, `ExtractStatFromSF` returns true. -/
theorem ExtractStatFromSF_true (N : Numerics α) (q : CCVector3 α) (oct : DgmOctree α)
    (lvl : Nat) (stat : Stat) (f : IScalarFieldWrapper α) (r out : Val α)
    (hstat : stat ≠ Stat.NO_STAT) :
    (ExtractStatFromSF N q (some oct) lvl stat f r out).1 = true := by
  cases stat with
  | NO_STAT => exact absurd rfl hstat
  | RANGE =>
    unfold ExtractStatFromSF
    simp only
    split_ifs <;> rfl
  | MEAN =>
    unfold ExtractStatFromSF
    simp only
    split_ifs <;> rfl
  | MODE =>
    unfold ExtractStatFromSF
    simp only
    split_ifs <;> rfl
  | STD =>
    unfold ExtractStatFromSF
    simp only
    split_ifs <;> rfl
  | SKEW =>
    unfold ExtractStatFromSF
    simp only
    split_ifs <;> rfl

/-- The loop of `ExtractStat` on a field that is not attached yet, when the callback
requests cancellation at its `j`-th poll from now: the loop is left without field after
`j + 1` polls, and no cloud has changed. -/
theorem extractStatLoop_cancel (N : Numerics α) (f : Nat → Bool) (coreId : Nat)
    (oct : DgmOctree α) (lvl : Nat) (stat : Stat) (field : FieldWrapper) (radius : Val α)
    (hstat : stat ≠ Stat.NO_STAT) :
    ∀ (n s j : Nat) (w : World α) (sf : ScalarField α), j < n →
      (∀ m, m < j → f (w.polls + m) = false) → f (w.polls + j) = true →
      s + j < (w.clouds coreId).points.length → s + j < sf.size →
      extractStatLoop N (some f) coreId oct lvl stat field radius (List.range' s n)
          (w, ResultSF.detached sf)
        = Run.done ({ w with polls := w.polls + j + 1 }, none) := by
  intro n
  induction n with
  | zero => intro s j w sf hj; exact absurd hj (Nat.not_lt_zero j)
  | succ n ih =>
    intro s j w sf hj hbefore hcancel hpts hsize
    have hs : s < (w.clouds coreId).points.length := by omega
    have hs' : s < sf.size := by omega
    rw [List.range'_succ]
    unfold extractStatLoop
    rw [List.getElem?_eq_getElem hs]
    simp only
    rw [if_neg (by rw [ExtractStatFromSF_true N _ oct lvl stat _ _ _ hstat]; exact Bool.noConfusion)]
    simp only [ResultSF.setValue, if_pos hs']
    cases j with
    | zero =>
      rw [if_pos (by simpa using hcancel)]
    | succ j =>
      have h0 : f w.polls = false := by simpa using hbefore 0 (Nat.succ_pos j)
      rw [if_neg (by rw [h0]; exact Bool.noConfusion)]
      rw [ih (s + 1) j { w with polls := w.polls + 1 } _ (Nat.lt_of_succ_lt_succ hj)
        (fun m hm => by
          have := hbefore (m + 1) (Nat.succ_lt_succ hm)
          simpa [Nat.add_assoc, Nat.add_comm 1 m] using this)
        (by simpa [Nat.add_assoc, Nat.add_comm 1 j] using hcancel)
        (by simpa [Nat.add_assoc, Nat.add_comm 1 j] using hpts)
        (by simpa [ScalarField.setValue, ScalarField.size, Nat.add_assoc, Nat.add_comm 1 j]
          using hsize)]
      simp [Nat.add_assoc, Nat.add_comm 1 j]

end Cancellation

section CancellationMore

variable {α : Type} [LinearOrderedField α]

theorem extractStatRun_cancel (N : Numerics α) (f : Nat → Bool) (cp : CorePoints)
    (coreId : Nat) (oct : DgmOctree α) (stat : Stat) (field : FieldWrapper) (scale : Val α)
    (w2 : World α) (sf : ScalarField α) (j : Nat) (hstat : stat ≠ Stat.NO_STAT)
    (hj : j < cp.size) (hbefore : ∀ m, m < j → f (w2.polls + m) = false)
    (hcancel : f (w2.polls + j) = true)
    (hpts : j < (w2.clouds coreId).points.length) (hsize : j < sf.size) :
    extractStatRun N (some f) cp coreId oct stat field scale w2 (ResultSF.detached sf)
      = Run.done (none, { w2 with polls := w2.polls + j + 1 }) := by
  unfold extractStatRun
  simp only [List.range_eq_range']
  rw [extractStatLoop_cancel N f coreId oct _ stat field _ hstat cp.size 0 j w2 sf hj hbefore
    hcancel (by simpa using hpts) (by simpa using hsize)]

/-- A cancelled `ExtractStat` whose result field had to be created returns no field and
leaves the fields of every cloud as they were. -/
theorem ExtractStat_cancel (E : Env α) (N : Numerics α) (w : World α) (cp : CorePoints)
    (coreId c1 : Nat) (field : FieldWrapper) (scale : Val α) (stat : Stat) (name : String)
    (f : Nat → Bool) (j : Nat)
    (hcore : cp.cloud = some coreId)
    (hpos : Val.le scale (Val.num 0) = false) (hstat : stat ≠ Stat.NO_STAT)
    (hoct : (w.clouds c1).octree ≠ none ∨ E.computeOctree c1 (w.clouds c1) ≠ none)
    (hnew : (w.clouds coreId).getScalarFieldIndexByName name = none)
    (halloc : E.resizeSafe w.allocations (w.clouds coreId).size = true)
    (hj : j < cp.size) (hjc : j < (w.clouds coreId).size)
    (hbefore : ∀ m, m < j → f (w.polls + m) = false) (hcancel : f (w.polls + j) = true) :
    ∃ w', ExtractStat E N w cp (some c1) (some field) scale stat (some name) (some f)
        = Run.done (none, w') ∧
      (∀ c, (w'.clouds c).scalarFields = (w.clouds c).scalarFields) ∧
      w'.polls = w.polls + j + 1 := by
  have hguard : ¬ (Val.le scale (Val.num 0) = true ∨ stat = Stat.NO_STAT) := by
    rintro (h | h)
    · rw [hpos] at h; exact Bool.noConfusion h
    · exact hstat h
  -- the rest of the function, from any state that differs from `w` by an octree only
  have hrest : ∀ (oct : DgmOctree α) (w1 : World α), w1.polls = w.polls →
      w1.allocations = w.allocations →
      (∀ c, (w1.clouds c).scalarFields = (w.clouds c).scalarFields) →
      (w1.clouds coreId).points = (w.clouds coreId).points →
      ∃ w', (match (w1.clouds coreId).getScalarFieldIndexByName name with
        | some sfIdx =>
          extractStatRun N (some f) cp coreId oct stat field scale
            (w1.fillSF ⟨coreId, sfIdx⟩ Val.nan) (ResultSF.attached sfIdx)
        | none =>
          if E.resizeSafe w1.allocations (w1.clouds coreId).size then
            extractStatRun N (some f) cp coreId oct stat field scale
              { w1 with allocations := w1.allocations + 1 }
              (ResultSF.detached
                (ScalarField.fill ⟨name, List.replicate (w1.clouds coreId).size (Val.num 0)⟩
                  Val.nan))
          else Run.done (none, { w1 with allocations := w1.allocations + 1 }))
        = Run.done (none, w') ∧
      (∀ c, (w'.clouds c).scalarFields = (w.clouds c).scalarFields) ∧
      w'.polls = w.polls + j + 1 := by
    intro oct w1 hp ha hf hpt
    have hnew1 : (w1.clouds coreId).getScalarFieldIndexByName name = none := by
      unfold ccPointCloud.getScalarFieldIndexByName at hnew ⊢
      rw [hf coreId]
      exact hnew
    have hsz : (w1.clouds coreId).size = (w.clouds coreId).size := by
      unfold ccPointCloud.size
      rw [hpt]
    rw [hnew1]
    simp only
    rw [ha, hsz, if_pos halloc]
    rw [extractStatRun_cancel N f cp coreId oct stat field scale _ _ j hstat hj
      (by simpa [hp] using hbefore) (by simpa [hp] using hcancel)
      (by simpa [hpt, ccPointCloud.size] using hjc)
      (by simpa [ScalarField.fill, ScalarField.size, ccPointCloud.size] using hjc)]
    exact ⟨_, rfl, fun c => hf c, by simp [hp]⟩
  unfold ExtractStat
  simp only [hcore]
  rw [if_neg hguard]
  cases ho : (w.clouds c1).octree with
  | some oct =>
    simp only
    exact hrest oct w rfl rfl (fun _ => rfl) rfl
  | none =>
    cases hco : E.computeOctree c1 (w.clouds c1) with
    | none =>
      rcases hoct with h | h
      · exact absurd ho h
      · exact absurd hco h
    | some oct =>
      simp only
      refine hrest oct _ rfl rfl (fun c => ?_) ?_
      · simp only [World.setCloud]
        split_ifs with hc
        · rw [hc]
        · rfl
      · simp only [World.setCloud]
        split_ifs with hc
        · rw [hc]
        · rfl

end CancellationMore

section CancelledPrepare

variable {α : Type} [LinearOrderedField α]

/-- The run of `prepare` when the first extraction is cancelled at core point `j`. -/
theorem cancelled_run (E : Env α) (N : Numerics α) (pf : PointFeature α)
    (w : World α) (cp : CorePoints) (coreId c1 : Nat) (error : String) (f : Nat → Bool)
    (field1 : FieldWrapper) (e1 : String) (j : Nat)
    (hcore : cp.cloud = some coreId) (hc1 : pf.cloud1 = some c1)
    (hres : pf.retrieveField E w pf.cloud1 error = (some field1, e1))
    (hf2 : pf.cloud2.isSome = true → pf.op ≠ Operation.NO_OPERATION →
      (pf.retrieveField E w pf.cloud2 e1).1 ≠ none)
    (hscaled : pf.scaled = true) (hstat : pf.stat ≠ Stat.NO_STAT)
    (hpos : Val.le pf.scale (Val.num 0) = false)
    (hoct : (w.clouds c1).octree ≠ none ∨ E.computeOctree c1 (w.clouds c1) ≠ none)
    (hnew : ∀ f2, (w.clouds coreId).getScalarFieldIndexByName (pf.resultSFName N field1 f2)
      = none)
    (halloc : E.resizeSafe w.allocations (w.clouds coreId).size = true)
    (hj : j < cp.size) (hjc : j < (w.clouds coreId).size)
    (hbefore : ∀ m, m < j → f (w.polls + m) = false) (hcancel : f (w.polls + j) = true) :
    ∃ r, pf.prepare E N w cp error (some f) = Run.done r ∧ r.ok = false ∧
      r.error = extractError N field1.name pf.scale ∧
      (∀ c, (r.world.clouds c).scalarFields = (w.clouds c).scalarFields) ∧
      r.world.polls = w.polls + j + 1 := by
  unfold PointFeature.prepare
  rw [hc1] at hres
  rw [hc1, hcore]
  simp only
  rw [hres]
  simp only
  rw [if_pos hscaled]
  unfold PointFeature.prepareScaled
  rw [if_neg (fun h => hstat h)]
  have hstats : ∀ f2 e, ∃ r, pf.prepareStats E N w cp coreId field1 f2 e (some f)
      = Run.done r ∧ r.ok = false ∧ r.error = extractError N field1.name pf.scale ∧
      (∀ c, (r.world.clouds c).scalarFields = (w.clouds c).scalarFields) ∧
      r.world.polls = w.polls + j + 1 := by
    intro f2 e
    obtain ⟨w', hE, hfields, hpolls⟩ := ExtractStat_cancel E N w cp coreId c1 field1 pf.scale
      pf.stat (pf.resultSFName N field1 f2) f j hcore hpos hstat hoct (hnew f2) halloc hj hjc
      hbefore hcancel
    unfold PointFeature.prepareStats
    rw [hc1, hE]
    exact ⟨_, rfl, rfl, rfl, hfields, hpolls⟩
  by_cases hcond : pf.cloud2.isSome = true ∧ pf.op ≠ Operation.NO_OPERATION
  · rw [if_pos hcond]
    have hsome := hf2 hcond.1 hcond.2
    cases hrf2 : pf.retrieveField E w pf.cloud2 e1 with
    | mk fw2 e2 =>
      rw [hrf2] at hsome
      cases fw2 with
      | none => exact absurd rfl hsome
      | some field2 =>
        simp only
        exact hstats (some field2) e2
  · rw [if_neg hcond]
    exact hstats none e1

/-- C12 (amended): when the progress hook signals cancellation after core point `j` has
been processed in the first aggregation loop of a scaled `PointFeature::prepare` whose
output field had to be created, `prepare` returns false with the message of every failed
extraction, "Failed to extract stat. from field '<name>' @ scale <scale>"; the output
field is released without being attached, so the fields of every cloud are as before the
call, and the hook has been polled `j + 1` times. -/
theorem prepare_cancelled (E : Env α) (N : Numerics α) (pf : PointFeature α)
    (w : World α) (cp : CorePoints) (coreId c1 : Nat) (error : String) (f : Nat → Bool)
    (field1 : FieldWrapper) (e1 : String) (j : Nat)
    (hcore : cp.cloud = some coreId) (hc1 : pf.cloud1 = some c1)
    (hres : pf.retrieveField E w pf.cloud1 error = (some field1, e1))
    (hf2 : pf.cloud2.isSome = true → pf.op ≠ Operation.NO_OPERATION →
      (pf.retrieveField E w pf.cloud2 e1).1 ≠ none)
    (hscaled : pf.scaled = true) (hstat : pf.stat ≠ Stat.NO_STAT)
    (hpos : Val.le pf.scale (Val.num 0) = false)
    (hoct : (w.clouds c1).octree ≠ none ∨ E.computeOctree c1 (w.clouds c1) ≠ none)
    (hnew : ∀ f2, (w.clouds coreId).getScalarFieldIndexByName (pf.resultSFName N field1 f2)
      = none)
    (halloc : E.resizeSafe w.allocations (w.clouds coreId).size = true)
    (hj : j < cp.size) (hjc : j < (w.clouds coreId).size)
    (hbefore : ∀ m, m < j → f (w.polls + m) = false) (hcancel : f (w.polls + j) = true) :
    ∃ r, pf.prepare E N w cp error (some f) = Run.done r ∧ r.ok = false ∧
      r.error = extractError N field1.name pf.scale ∧
      (∀ c, (r.world.clouds c).scalarFields = (w.clouds c).scalarFields) ∧
      r.world.polls = w.polls + j + 1 :=
  cancelled_run E N pf w cp coreId c1 error f field1 e1 j hcore hc1 hres hf2 hscaled hstat
    hpos hoct hnew halloc hj hjc hbefore hcancel

end CancelledPrepare

section CancelledPrepareWitnesses

theorem prepare_cancelled_witness :
    ∃ r, demoScaled.prepare (demoEnv true) demoNumerics demoWorld demoCorePoints ""
        (some (fun n => decide (n = 1))) = Run.done r ∧ r.ok = false ∧
      r.error = extractError demoNumerics "X" (Val.num 2) ∧
      (∀ c, (r.world.clouds c).scalarFields = (demoWorld.clouds c).scalarFields) ∧
      r.world.polls = demoWorld.polls + 1 + 1 :=
  prepare_cancelled (demoEnv true) demoNumerics demoScaled demoWorld demoCorePoints 0 1 ""
    (fun n => decide (n = 1)) ⟨"X", WrapperSource.dimension 1 Dim.DimX⟩ "" 1 rfl rfl rfl
    (fun h => Bool.noConfusion h) rfl (by decide) (by simp [demoScaled, Val.le])
    (Or.inl (Option.some_ne_none _)) (fun _ => rfl) rfl (by decide) (by decide)
    (fun m hm => by
      show decide (0 + m = 1) = false
      exact decide_eq_false (by omega))
    rfl

/-- C12, as stated, fails: cancelled after the second core point, the `prepare` of
`demoScaled` returns false with the very message of a run that is not cancelled but cannot
allocate its output field, and the core cloud holds no field at all: the values written
for the core points `0` and `1` are in no output field. -/
theorem prepare_cancelled_counterexample :
    ∃ r r0, demoScaled.prepare (demoEnv true) demoNumerics demoWorld demoCorePoints ""
        (some (fun n => decide (n = 1))) = Run.done r ∧
      demoScaled.prepare (demoEnv false) demoNumerics demoWorld demoCorePoints ""
        demoCallback = Run.done r0 ∧
      r.ok = false ∧ r0.ok = false ∧ r.error = r0.error ∧
      r.error = extractError demoNumerics "X" (Val.num 2) ∧
      (r.world.clouds 0).scalarFields = [] ∧ r.world.polls = 2 := by
  obtain ⟨r, hr, hok, herr, hfields, hpolls⟩ :=
    cancelled_run (demoEnv true) demoNumerics demoScaled demoWorld demoCorePoints 0 1 ""
      (fun n => decide (n = 1)) ⟨"X", WrapperSource.dimension 1 Dim.DimX⟩ "" 1 rfl rfl rfl
      (fun h => Bool.noConfusion h) rfl (by decide) (by simp [demoScaled, Val.le])
      (Or.inl (Option.some_ne_none _)) (fun _ => rfl) rfl (by decide) (by decide)
      (fun m hm => by
        show decide (0 + m = 1) = false
        exact decide_eq_false (by omega))
      rfl
  have h20 : ¬ ((2 : ℚ) ≤ 0) := by norm_num
  have h0 : demoScaled.prepare (demoEnv false) demoNumerics demoWorld demoCorePoints ""
      demoCallback = Run.done ⟨false, demoScaled, extractError demoNumerics "X" (Val.num 2),
        { demoWorld with allocations := 1 }⟩ := by
    simp [h20, PointFeature.prepare, demoScaled, demoUnscaled, demoCorePoints,
      PointFeature.retrieveField, Feature.scaled, Val.isfinite, PointFeature.prepareScaled,
      PointFeature.prepareStats, ExtractStat, Val.le, demoWorld, demoCloud,
      ccPointCloud.getScalarFieldIndexByName, findSF, demoEnv, demoCallback,
      PointFeature.resultSFName]
  exact ⟨r, _, hr, h0, hok, rfl, herr, herr, hfields 0, hpolls⟩

end CancelledPrepareWitnesses

/-! ### The number of fields of a cloud along `prepare` -/

section FieldCounts

variable {α : Type} [LinearOrderedField α]

theorem setSF_length (w : World α) (p : SFPtr) (sf : ScalarField α) (c : Nat) :
    ((w.setSF p sf).clouds c).scalarFields.length = (w.clouds c).scalarFields.length := by
  simp only [World.setSF, World.setCloud]
  split_ifs with h
  · subst h
    simp
  · rfl

theorem fillSF_length (w : World α) (p : SFPtr) (v : Val α) (c : Nat) :
    ((w.fillSF p v).clouds c).scalarFields.length = (w.clouds c).scalarFields.length := by
  unfold World.fillSF
  cases w.sf? p with
  | none => rfl
  | some sf => exact setSF_length w p _ c

theorem setValue_length (coreId : Nat) (w w1 : World α) (rsf rsf1 : ResultSF α)
    (i : Nat) (v : Val α) (h : rsf.setValue coreId w i v = some (w1, rsf1)) (c : Nat) :
    (w1.clouds c).scalarFields.length = (w.clouds c).scalarFields.length := by
  cases rsf with
  | attached index =>
    simp only [ResultSF.setValue] at h
    cases hsf : w.sf? ⟨coreId, index⟩ with
    | none => rw [hsf] at h; simp at h
    | some sf =>
      rw [hsf] at h
      simp only at h
      split_ifs at h with hi
      simp only [Option.some.injEq, Prod.mk.injEq] at h
      obtain ⟨rfl, rfl⟩ := h
      exact setSF_length w _ _ c
  | detached sf =>
    simp only [ResultSF.setValue] at h
    split_ifs at h with hi
    simp only [Option.some.injEq, Prod.mk.injEq] at h
    obtain ⟨rfl, rfl⟩ := h
    rfl

/-- The loop of `ExtractStat` neither adds nor removes a field. -/
theorem extractStatLoop_length (N : Numerics α) (cb : Option (Nat → Bool)) (coreId : Nat)
    (octree : DgmOctree α) (lvl : Nat) (stat : Stat) (field : FieldWrapper) (radius : Val α) :
    ∀ (is : List Nat) (w : World α) (rsf : ResultSF α) (w' : World α)
      (res : Option (ResultSF α)),
      extractStatLoop N cb coreId octree lvl stat field radius is (w, rsf) = Run.done (w', res) →
      ∀ c, (w'.clouds c).scalarFields.length = (w.clouds c).scalarFields.length := by
  intro is
  induction is with
  | nil =>
    intro w rsf w' res h c
    simp only [extractStatLoop, Run.done.injEq, Prod.mk.injEq] at h
    obtain ⟨rfl, rfl⟩ := h
    rfl
  | cons i rest ih =>
    intro w rsf w' res h c
    simp only [extractStatLoop] at h
    cases hq : (w.clouds coreId).points[i]? with
    | none => rw [hq] at h; exact Run.noConfusion h
    | some q =>
      rw [hq] at h
      simp only at h
      split_ifs at h with hfail
      · simp only [Run.done.injEq, Prod.mk.injEq] at h
        obtain ⟨rfl, rfl⟩ := h
        rfl
      · cases hset : rsf.setValue coreId w i
            (ExtractStatFromSF N q (some octree) lvl stat (field.view w) radius (Val.num 0)).2 with
        | none => rw [hset] at h; exact Run.noConfusion h
        | some pr =>
          obtain ⟨w1, rsf1⟩ := pr
          rw [hset] at h
          simp only at h
          have hl := setValue_length coreId w w1 rsf rsf1 i _ hset c
          cases cb with
          | none =>
            simp only at h
            rw [ih w1 rsf1 w' res h c, hl]
          | some f =>
            simp only at h
            split_ifs at h with hcancel
            · simp only [Run.done.injEq, Prod.mk.injEq] at h
              obtain ⟨rfl, rfl⟩ := h
              exact hl
            · rw [ih _ rsf1 w' res h c]
              exact hl

theorem extractStatRun_length (N : Numerics α) (cb : Option (Nat → Bool)) (cp : CorePoints)
    (coreId : Nat) (octree : DgmOctree α) (stat : Stat) (field : FieldWrapper) (scale : Val α)
    (w2 w' : World α) (idx : Nat) (res : Option SFPtr)
    (h : extractStatRun N cb cp coreId octree stat field scale w2 (ResultSF.attached idx)
      = Run.done (res, w')) (c : Nat) :
    (w'.clouds c).scalarFields.length = (w2.clouds c).scalarFields.length := by
  unfold extractStatRun at h
  cases cb with
  | none => exact Run.noConfusion h
  | some f =>
    simp only at h
    cases hloop : extractStatLoop N (some f) coreId octree
        (octree.findBestLevelForAGivenNeighbourhoodSizeExtraction (scale / Val.num 2)) stat field
        (scale / Val.num 2) (List.range cp.size) (w2, ResultSF.attached idx) with
    | fault => rw [hloop] at h; exact Run.noConfusion h
    | done pr =>
      obtain ⟨w3, r⟩ := pr
      rw [hloop] at h
      have hl := extractStatLoop_length N _ coreId octree _ stat field _ _ _ _ _ _ hloop c
      obtain ⟨-, hsame, -⟩ := extractStatLoop_spec N _ coreId octree _ stat field _ _ _ _ _ _ hloop
      cases r with
      | none =>
        simp only [Run.done.injEq, Prod.mk.injEq] at h
        obtain ⟨rfl, rfl⟩ := h
        exact hl
      | some rsf' =>
        have hs := hsame rsf' rfl
        cases rsf' with
        | detached sf' => simp [ResultSF.sameTarget] at hs
        | attached j =>
          simp only [Run.done.injEq, Prod.mk.injEq] at h
          obtain ⟨rfl, rfl⟩ := h
          exact hl

theorem extractStatRun_fields (N : Numerics α) (cb : Option (Nat → Bool)) (cp : CorePoints)
    (coreId : Nat) (octree : DgmOctree α) (stat : Stat) (field : FieldWrapper) (scale : Val α)
    (w2 w' : World α) (res : Option SFPtr) (sf : ScalarField α)
    (hlook : (w2.clouds coreId).getScalarFieldIndexByName sf.name = none)
    (h : extractStatRun N cb cp coreId octree stat field scale w2 (ResultSF.detached sf)
      = Run.done (res, w')) :
    (res = none → ∀ c, (w'.clouds c).scalarFields = (w2.clouds c).scalarFields) ∧
    (res ≠ none → ∃ sf', sf'.name = sf.name ∧
      (w'.clouds coreId).scalarFields = (w2.clouds coreId).scalarFields ++ [sf']) := by
  unfold extractStatRun at h
  cases cb with
  | none => exact Run.noConfusion h
  | some f =>
    simp only at h
    cases hloop : extractStatLoop N (some f) coreId octree
        (octree.findBestLevelForAGivenNeighbourhoodSizeExtraction (scale / Val.num 2)) stat field
        (scale / Val.num 2) (List.range cp.size) (w2, ResultSF.detached sf) with
    | fault => rw [hloop] at h; exact Run.noConfusion h
    | done pr =>
      obtain ⟨w3, r⟩ := pr
      rw [hloop] at h
      obtain ⟨-, hsame, hdet⟩ :=
        extractStatLoop_spec N _ coreId octree _ stat field _ _ _ _ _ _ hloop
      have hcl := hdet sf rfl
      cases r with
      | none =>
        simp only [Run.done.injEq, Prod.mk.injEq] at h
        obtain ⟨rfl, rfl⟩ := h
        exact ⟨fun _ c => by rw [hcl], fun hcon => absurd rfl hcon⟩
      | some rsf' =>
        have hs := hsame rsf' rfl
        cases rsf' with
        | attached j => simp [ResultSF.sameTarget] at hs
        | detached sf' =>
          simp only [ResultSF.sameTarget] at hs
          have hlook3 : ccPointCloud.getScalarFieldIndexByName (w3.clouds coreId) sf'.name
              = none := by
            rw [hcl, hs]
            exact hlook
          simp only [Run.done.injEq, Prod.mk.injEq] at h
          obtain ⟨rfl, rfl⟩ := h
          refine ⟨fun hcon => Option.noConfusion hcon, fun _ => ⟨sf', hs, ?_⟩⟩
          simp [ccPointCloud.addScalarField, hlook3, World.setCloud]
          rw [hcl]

theorem mathOp_foldl_length (op : Operation) (p1 p2 : SFPtr) (c : Nat) :
    ∀ (is : List Nat) (w : World α),
      ((is.foldl (mathOpStep op p1 p2) w).clouds c).scalarFields.length
        = (w.clouds c).scalarFields.length := by
  intro is
  induction is with
  | nil => intro w; rfl
  | cons i rest ih =>
    intro w
    rw [List.foldl_cons, ih]
    unfold mathOpStep
    cases w.sf? p1 with
    | none => rfl
    | some sf1 =>
      cases w.sf? p2 with
      | none => rfl
      | some sf2 => exact setSF_length w p1 _ c

/-- A call of `PerformMathOp` neither adds nor removes a field. -/
theorem PerformMathOp_length (w : World α) (sf1 sf2 : Option SFPtr) (op : Operation) (c : Nat) :
    (((PerformMathOp w sf1 sf2 op).2).clouds c).scalarFields.length
      = (w.clouds c).scalarFields.length := by
  unfold PerformMathOp
  cases sf1 with
  | none => rfl
  | some p1 =>
    cases sf2 with
    | none => rfl
    | some p2 =>
      simp only
      cases h1 : w.sf? p1 with
      | none => rfl
      | some f1 =>
        cases h2 : w.sf? p2 with
        | none => rfl
        | some f2 =>
          simp only
          split_ifs
          · rfl
          · exact mathOp_foldl_length op p1 p2 c _ w

/-- Two states whose clouds keep their fields in place and have as many fields bear the
same field names. -/
theorem names_eq_of_kept (w w' : World α) (c : Nat) (hk : NamesKept w w')
    (hl : (w'.clouds c).scalarFields.length = (w.clouds c).scalarFields.length) :
    (w'.clouds c).scalarFields.map (fun sf => sf.name)
      = (w.clouds c).scalarFields.map (fun sf => sf.name) := by
  apply List.ext_getElem?
  intro i
  simp only [List.getElem?_map]
  cases hi : (w.clouds c).scalarFields[i]? with
  | some sf =>
    obtain ⟨sf', h', hn⟩ := hk c i sf hi
    rw [h']
    simp [hn]
  | none =>
    have hle : (w.clouds c).scalarFields.length ≤ i := List.getElem?_eq_none_iff.1 hi
    rw [List.getElem?_eq_none (by rw [hl]; exact hle)]

end FieldCounts

section FieldCountsMore

variable {α : Type} [LinearOrderedField α]

theorem findSF_eq_none (p : ScalarField α → Bool) : ∀ (l : List (ScalarField α)),
    (∀ sf ∈ l, p sf = false) → findSF p l = none := by
  intro l
  induction l with
  | nil => intro _; rfl
  | cons a l ih =>
    intro h
    have ha : p a = false := h a (List.mem_cons_self a l)
    simp only [findSF, ha, Bool.false_eq_true, if_false, Option.map_eq_none']
    exact ih (fun sf hsf => h sf (List.mem_cons_of_mem a hsf))

/-- A name is found on a cloud exactly when one of its fields bears it. -/
theorem lookup_ne_none_iff (c : ccPointCloud α) (n : String) :
    c.getScalarFieldIndexByName n ≠ none ↔ n ∈ c.scalarFields.map (fun sf => sf.name) := by
  unfold ccPointCloud.getScalarFieldIndexByName
  constructor
  · intro h
    obtain ⟨i, hi⟩ := Option.ne_none_iff_exists'.1 h
    obtain ⟨sf, hsf, hp⟩ := findSF_some _ _ i hi
    exact List.mem_map.2 ⟨sf, List.getElem?_mem hsf, by simpa using hp⟩
  · intro h hnone
    obtain ⟨sf, hsf, hn⟩ := List.mem_map.1 h
    have := findSF_none _ _ hnone sf hsf
    simp only [decide_eq_false_iff_not] at this
    exact this hn

/-- The fields of the clouds after `ExtractStat`: as many as before when the result field
existed or when no field is returned, one more on the core cloud, of the requested name,
when the returned field was created. -/
theorem ExtractStat_fields (E : Env α) (N : Numerics α) (w w' : World α) (cp : CorePoints)
    (coreId : Nat) (src : Option Nat) (field : Option FieldWrapper) (scale : Val α)
    (stat : Stat) (name : String) (cb : Option (Nat → Bool)) (res : Option SFPtr)
    (hcore : cp.cloud = some coreId)
    (h : ExtractStat E N w cp src field scale stat (some name) cb = Run.done (res, w')) :
    ((w.clouds coreId).getScalarFieldIndexByName name ≠ none ∨ res = none →
      ∀ c, (w'.clouds c).scalarFields.length = (w.clouds c).scalarFields.length) ∧
    ((w.clouds coreId).getScalarFieldIndexByName name = none → res ≠ none →
      ∃ sf', sf'.name = name ∧
        (w'.clouds coreId).scalarFields = (w.clouds coreId).scalarFields ++ [sf']) := by
  have htriv : w' = w → res = none →
      ((w.clouds coreId).getScalarFieldIndexByName name ≠ none ∨ res = none →
        ∀ c, (w'.clouds c).scalarFields.length = (w.clouds c).scalarFields.length) ∧
      ((w.clouds coreId).getScalarFieldIndexByName name = none → res ≠ none →
        ∃ sf', sf'.name = name ∧
          (w'.clouds coreId).scalarFields = (w.clouds coreId).scalarFields ++ [sf']) := by
    intro hw hr
    subst hw
    exact ⟨fun _ _ => rfl, fun _ hcon => absurd hr hcon⟩
  unfold ExtractStat at h
  cases src with
  | none =>
    simp only [hcore, Run.done.injEq, Prod.mk.injEq] at h
    exact htriv h.2.symm h.1.symm
  | some srcId =>
    cases field with
    | none =>
      simp only [hcore, Run.done.injEq, Prod.mk.injEq] at h
      exact htriv h.2.symm h.1.symm
    | some fw =>
      simp only [hcore] at h
      by_cases hg : Val.le scale (Val.num 0) = true ∨ stat = Stat.NO_STAT
      · rw [if_pos hg] at h
        simp only [Run.done.injEq, Prod.mk.injEq] at h
        exact htriv h.2.symm h.1.symm
      rw [if_neg hg] at h
      have hoct : ∀ (o : Option (DgmOctree α × World α)),
          o = (match (w.clouds srcId).octree with
            | some oct => some (oct, w)
            | none =>
              match E.computeOctree srcId (w.clouds srcId) with
              | some oct =>
                some (oct, w.setCloud srcId { w.clouds srcId with octree := some oct })
              | none => none) →
          ∀ oct w1, o = some (oct, w1) →
            ∀ c, (w1.clouds c).scalarFields = (w.clouds c).scalarFields := by
        intro o ho oct w1 ho1 c
        rw [ho1] at ho
        cases h1 : (w.clouds srcId).octree with
        | some oct0 =>
          rw [h1] at ho
          simp only [Option.some.injEq, Prod.mk.injEq] at ho
          rw [ho.2]
        | none =>
          rw [h1] at ho
          simp only at ho
          cases h2 : E.computeOctree srcId (w.clouds srcId) with
          | none => rw [h2] at ho; exact Option.noConfusion ho
          | some oct0 =>
            rw [h2] at ho
            simp only [Option.some.injEq, Prod.mk.injEq] at ho
            rw [ho.2]
            simp only [World.setCloud]
            split_ifs with hc
            · rw [hc]
            · rfl
      generalize hodef : (match (w.clouds srcId).octree with
            | some oct => some (oct, w)
            | none =>
              match E.computeOctree srcId (w.clouds srcId) with
              | some oct =>
                some (oct, w.setCloud srcId { w.clouds srcId with octree := some oct })
              | none => none) = o at h
      cases o with
      | none =>
        simp only [Run.done.injEq, Prod.mk.injEq] at h
        exact htriv h.2.symm h.1.symm
      | some pr =>
        obtain ⟨oct, w1⟩ := pr
        have hf1 := hoct _ hodef.symm oct w1 rfl
        have hlk : (w1.clouds coreId).getScalarFieldIndexByName name
            = (w.clouds coreId).getScalarFieldIndexByName name := by
          unfold ccPointCloud.getScalarFieldIndexByName
          rw [hf1 coreId]
        simp only at h
        cases hlook : (w1.clouds coreId).getScalarFieldIndexByName name with
        | some sfIdx =>
          rw [hlook] at h
          simp only at h
          refine ⟨fun _ c => ?_, fun hcon => ?_⟩
          · rw [extractStatRun_length N cb cp coreId oct stat fw scale _ w' sfIdx res h c,
              fillSF_length, hf1 c]
          · rw [← hlk, hlook] at hcon
            exact Option.noConfusion hcon
        | none =>
          rw [hlook] at h
          simp only at h
          by_cases halloc : E.resizeSafe w1.allocations (w1.clouds coreId).size = true
          · rw [if_pos halloc] at h
            obtain ⟨hnone, hsome⟩ := extractStatRun_fields N cb cp coreId oct stat fw scale
              { w1 with allocations := w1.allocations + 1 } w' res
              (ScalarField.fill ⟨name, List.replicate (w1.clouds coreId).size (Val.num 0)⟩
                Val.nan) hlook h
            refine ⟨fun hor c => ?_, fun _ hres => ?_⟩
            · rcases hor with hor | hor
              · rw [← hlk, hlook] at hor
                exact absurd rfl hor
              · rw [hnone hor c]
                exact congrArg List.length (hf1 c)
            · obtain ⟨sf', hn', hfields⟩ := hsome hres
              refine ⟨sf', hn', ?_⟩
              rw [hfields]
              exact congrArg (fun l => l ++ [sf']) (hf1 coreId)
          · rw [if_neg halloc] at h
            simp only [Run.done.injEq, Prod.mk.injEq] at h
            obtain ⟨rfl, rfl⟩ := h
            exact ⟨fun _ c => congrArg List.length (hf1 c), fun _ hcon => absurd rfl hcon⟩

/-- Deleting the field found under the name of the last field, when no other field bears
it, leaves the other fields. -/
theorem delete_transient (c : ccPointCloud α) (ns : List String) (n : String)
    (hn : c.scalarFields.map (fun sf => sf.name) = ns ++ [n]) (hnot : n ∉ ns) :
    (c.deleteScalarField (c.getScalarFieldIndexByName n)).scalarFields.map (fun sf => sf.name)
      = ns := by
  obtain ⟨l0, l1, hl, h0, h1⟩ := List.map_eq_append_iff.1 hn
  cases l1 with
  | nil => simp at h1
  | cons x rest =>
    cases rest with
    | cons y rest2 => simp at h1
    | nil =>
      simp only [List.map_cons, List.map_nil, List.cons.injEq, and_true] at h1
      have hfind0 : findSF (fun sf => decide (sf.name = n)) l0 = none := by
        apply findSF_eq_none
        intro sf hsf
        simp only [decide_eq_false_iff_not]
        intro hcon
        apply hnot
        rw [← h0, ← hcon]
        exact List.mem_map.2 ⟨sf, hsf, rfl⟩
      have hfind : c.getScalarFieldIndexByName n = some l0.length := by
        unfold ccPointCloud.getScalarFieldIndexByName
        rw [hl]
        exact findSF_append_none _ x l0 hfind0 (by simpa using h1)
      rw [hfind]
      simp [ccPointCloud.deleteScalarField, hl, h0]

end FieldCountsMore

section TransientField

variable {α : Type} [LinearOrderedField α]

/-- The statistics part of the scaled branch with a second field and an operation: on
success the name of the second statistic is borne by a field of the core cloud exactly
when it was before. -/
theorem prepareStats_transient (E : Env α) (N : Numerics α) (pf : PointFeature α)
    (w : World α) (cp : CorePoints) (coreId : Nat) (field1 f2 : FieldWrapper)
    (error : String) (cb : Option (Nat → Bool)) (r : PrepareResult α)
    (hcore : cp.cloud = some coreId) (hop : pf.op ≠ Operation.NO_OPERATION)
    (h : pf.prepareStats E N w cp coreId field1 (some f2) error cb = Run.done r)
    (hok : r.ok = true) :
    pf.resultSFName2 N f2 ∈ (r.world.clouds coreId).scalarFields.map (fun sf => sf.name) ↔
      pf.resultSFName2 N f2 ∈ (w.clouds coreId).scalarFields.map (fun sf => sf.name) := by
  have hne : pf.resultSFName N field1 (some f2) ≠ pf.resultSFName2 N f2 := by
    simp only [PointFeature.resultSFName, PointFeature.resultSFName2, if_pos hop]
    exact resultSFName_ne _ _ _ _ _ _
  unfold PointFeature.prepareStats at h
  generalize pf.resultSFName N field1 (some f2) = name1 at h hne
  cases hx1 : ExtractStat E N w cp pf.cloud1 (some field1) pf.scale pf.stat (some name1) cb with
  | fault => rw [hx1] at h; exact Run.noConfusion h
  | done pr1 =>
    obtain ⟨res1, w1⟩ := pr1
    rw [hx1] at h
    obtain ⟨hk01, -⟩ := ExtractStat_spec E N w w1 cp _ _ _ _ _ cb res1 hx1
    obtain ⟨hsame1, hnew1⟩ := ExtractStat_fields E N w w1 cp coreId _ _ _ _ name1 cb res1 hcore hx1
    cases res1 with
    | none =>
      simp only [Run.done.injEq] at h
      rw [← h] at hok
      simp at hok
    | some statSF1 =>
      -- the first extraction adds at most a field of the name of the combined field
      have hA : (pf.resultSFName2 N f2) ∈ (w1.clouds coreId).scalarFields.map (fun sf => sf.name) ↔
          (pf.resultSFName2 N f2) ∈ (w.clouds coreId).scalarFields.map (fun sf => sf.name) := by
        by_cases hl : (w.clouds coreId).getScalarFieldIndexByName name1 = none
        · obtain ⟨sf', hn', hfields⟩ := hnew1 hl (Option.some_ne_none _)
          rw [hfields]
          simp only [List.map_append, List.map_cons, List.map_nil, List.mem_append,
            List.mem_singleton, hn']
          constructor
          · rintro (hmem | heq)
            · exact hmem
            · exact absurd heq.symm hne
          · exact fun hmem => Or.inl hmem
        · rw [names_eq_of_kept w w1 coreId hk01 (hsame1 (Or.inl hl) coreId)]
      simp only at h
      cases hc2 : pf.cloud2 with
      | none =>
        -- without a second cloud no state but `w1` is reached
        rw [hc2] at h
        simp only [Run.done.injEq] at h
        subst h
        exact hA
      | some c2 =>
        rw [hc2] at h
        simp only at h
        rw [if_pos hop] at h
        cases hx2 : ExtractStat E N w1 cp (some c2) (some f2) pf.scale pf.stat
            (some (pf.resultSFName2 N f2)) cb with
        | fault => rw [hx2] at h; exact Run.noConfusion h
        | done pr2 =>
          obtain ⟨res2, w2⟩ := pr2
          rw [hx2] at h
          obtain ⟨hk12, -⟩ := ExtractStat_spec E N w1 w2 cp _ _ _ _ _ cb res2 hx2
          obtain ⟨hsame2, hnew2⟩ :=
            ExtractStat_fields E N w1 w2 cp coreId _ _ _ _ (pf.resultSFName2 N f2) cb res2 hcore hx2
          cases res2 with
          | none =>
            simp only [Run.done.injEq] at h
            rw [← h] at hok
            simp at hok
          | some statSF2 =>
            simp only at h
            have hk23 := PerformMathOp_names w2 (some statSF1) (some statSF2) pf.op
            have hl23 := PerformMathOp_length w2 (some statSF1) (some statSF2) pf.op coreId
            cases hpm : PerformMathOp w2 (some statSF1) (some statSF2) pf.op with
            | mk b w3 =>
              rw [hpm] at h hk23 hl23
              simp only at hk23 hl23
              have hn23 := names_eq_of_kept w2 w3 coreId hk23 hl23
              cases b with
              | false =>
                simp only [Run.done.injEq] at h
                rw [← h] at hok
                simp at hok
              | true =>
                simp only at h
                cases hidx2 : (w1.clouds coreId).getScalarFieldIndexByName (pf.resultSFName2 N f2) with
                | some j =>
                  rw [hidx2] at h
                  simp only [Run.done.injEq] at h
                  subst h
                  have hn12 := names_eq_of_kept w1 w2 coreId hk12
                    (hsame2 (Or.inl (by rw [hidx2]; exact Option.some_ne_none j)) coreId)
                  simp only
                  rw [hn23, hn12]
                  exact hA
                | none =>
                  rw [hidx2] at h
                  simp only [Run.done.injEq] at h
                  subst h
                  obtain ⟨sf', hn', hfields⟩ := hnew2 hidx2 (Option.some_ne_none _)
                  have hnot1 : (pf.resultSFName2 N f2) ∉ (w1.clouds coreId).scalarFields.map (fun sf => sf.name) :=
                    fun hmem => (lookup_ne_none_iff _ _).2 hmem hidx2
                  have hn3 : (w3.clouds coreId).scalarFields.map (fun sf => sf.name)
                      = (w1.clouds coreId).scalarFields.map (fun sf => sf.name) ++ [(pf.resultSFName2 N f2)] := by
                    rw [hn23, hfields]
                    simp [hn']
                  have hdel := delete_transient (w3.clouds coreId) _ (pf.resultSFName2 N f2) hn3 hnot1
                  have hfinal : ((w3.setCloud coreId ((w3.clouds coreId).deleteScalarField
                      ((w3.clouds coreId).getScalarFieldIndexByName (pf.resultSFName2 N f2)))).clouds
                        coreId).scalarFields.map (fun sf => sf.name)
                      = (w1.clouds coreId).scalarFields.map (fun sf => sf.name) := by
                    simp only [World.setCloud, if_true]
                    exact hdel
                  simp only
                  rw [hfinal]
                  exact hA

/-- C18: after a successful `PointFeature::prepare` of a scaled descriptor with a second
cloud and an operation, a field named
`cloud2Label + "." + field2Name + "_" + STAT + "@" + scale` is present on the core-points
cloud if and only if a field of that name was present before the call, and a field with
the recorded name of the combined result is present on the core-points cloud. -/
theorem prepare_scaled_transient (E : Env α) (N : Numerics α) (pf : PointFeature α)
    (w : World α) (cp : CorePoints) (coreId : Nat) (error : String)
    (cb : Option (Nat → Bool)) (r : PrepareResult α)
    (hscaled : pf.scaled = true) (hcore : cp.cloud = some coreId)
    (hc2 : pf.cloud2 ≠ none) (hop : pf.op ≠ Operation.NO_OPERATION)
    (hrun : pf.prepare E N w cp error cb = Run.done r) (hok : r.ok = true) :
    ∃ field2, (pf.retrieveField E w pf.cloud2 error).1 = some field2 ∧
      ((∃ sf ∈ (r.world.clouds coreId).scalarFields,
          sf.name = pf.cloud2Label ++ "." ++ field2.name ++ "_" ++ StatToString pf.stat ++ "@"
            ++ scaleText N pf.scale) ↔
        (∃ sf ∈ (w.clouds coreId).scalarFields,
          sf.name = pf.cloud2Label ++ "." ++ field2.name ++ "_" ++ StatToString pf.stat ++ "@"
            ++ scaleText N pf.scale)) ∧
      ∃ sf ∈ (r.world.clouds coreId).scalarFields, sf.name = r.feature.sourceName := by
  have hmem : ∀ (l : List (ScalarField α)) (n : String),
      (∃ sf ∈ l, sf.name = n) ↔ n ∈ l.map (fun sf => sf.name) := by
    intro l n
    simp only [List.mem_map]
  cases hc1 : pf.cloud1 with
  | none =>
    simp only [PointFeature.prepare, hc1, Run.done.injEq] at hrun
    rw [← hrun] at hok
    simp at hok
  | some c1 =>
    cases hrf : pf.retrieveField E w (some c1) error with
    | mk fw e1 =>
      cases fw with
      | none =>
        simp only [PointFeature.prepare, hc1, hcore, hrf, Run.done.injEq] at hrun
        rw [← hrun] at hok
        simp at hok
      | some field1 =>
        have he1 : e1 = error := by
          have := retrieveField_stable E w w pf c1 [] (by simp) rfl rfl error error e1 field1 hrf
          rw [hrf] at this
          exact (Prod.mk.inj this).2
        subst he1
        simp only [PointFeature.prepare, hc1, hcore, hrf, hscaled, if_true,
          PointFeature.prepareScaled] at hrun
        by_cases hstat : pf.stat = Stat.NO_STAT
        · rw [if_pos hstat] at hrun
          simp only [Run.done.injEq] at hrun
          rw [← hrun] at hok
          simp at hok
        rw [if_neg hstat] at hrun
        have hsecond : pf.cloud2.isSome = true ∧ pf.op ≠ Operation.NO_OPERATION := by
          refine ⟨?_, hop⟩
          cases hc : pf.cloud2 with
          | none => exact absurd hc hc2
          | some c2 => rfl
        rw [if_pos hsecond] at hrun
        cases hrf2 : pf.retrieveField E w pf.cloud2 e1 with
        | mk fw2 e2 =>
          rw [hrf2] at hrun
          cases fw2 with
          | none =>
            simp only [Run.done.injEq] at hrun
            rw [← hrun] at hok
            simp at hok
          | some field2 =>
            simp only at hrun
            obtain ⟨-, hpresent⟩ :=
              prepareStats_spec E N pf w cp coreId field1 (some field2) e2 cb r hcore hrun hok
            have hiff := prepareStats_transient E N pf w cp coreId field1 field2 e2 cb r hcore
              hop hrun hok
            refine ⟨field2, rfl, ?_, hpresent⟩
            rw [hmem, hmem]
            exact hiff

end TransientField

section TransientFieldWitnesses

theorem resultSFName_ne_second {α : Type} [LinearOrderedField α] (N : Numerics α)
    (pf : PointFeature α) (f1 f2 : FieldWrapper) (hop : pf.op ≠ Operation.NO_OPERATION) :
    (pf.resultSFName N f1 (some f2) = pf.resultSFName2 N f2) = False := by
  simp only [eq_iff_iff, iff_false]
  simp only [PointFeature.resultSFName, PointFeature.resultSFName2, if_pos hop]
  exact resultSFName_ne _ _ _ _ _ _

theorem demoDualRun_eq :
    demoDual.prepare (demoEnv true) demoNumerics demoWorld demoCorePoints "" demoCallback
      = Run.done demoDualRun ∧ demoDualRun.ok = true := by
  have hex : ∃ r, demoDual.prepare (demoEnv true) demoNumerics demoWorld demoCorePoints ""
      demoCallback = Run.done r ∧ r.ok = true := by
    have h20 : ¬ ((2 : ℚ) ≤ 0) := by norm_num
    simp [h20, PointFeature.prepare, demoDual, demoScaled, demoUnscaled, demoCorePoints,
      PointFeature.retrieveField, Feature.scaled, Val.isfinite, PointFeature.prepareScaled,
      PointFeature.prepareStats, ExtractStat, Val.le, demoWorld, demoCloud,
      ccPointCloud.getScalarFieldIndexByName, findSF, demoEnv, extractStatRun, demoCallback,
      extractStatLoop, List.range_succ, CorePoints.size, ExtractStatFromSF, demoOctree,
      ResultSF.setValue, ScalarField.fill, ScalarField.size, ScalarField.setValue,
      ccPointCloud.size, ccPointCloud.addScalarField, World.setCloud, PerformMathOp,
      World.sf?, mathOpStep, World.setSF, mathOpValue, ccPointCloud.deleteScalarField,
      resultSFName_ne_second]
  obtain ⟨r, hr, hok⟩ := hex
  have hget : demoDualRun = r := by
    unfold demoDualRun
    rw [hr]
    rfl
  rw [hget]
  exact ⟨hr, hok⟩

theorem prepare_scaled_transient_witness :
    demoDualRun.ok = true ∧
    ∃ field2, (demoDual.retrieveField (demoEnv true) demoWorld demoDual.cloud2 "").1
        = some field2 ∧
      ((∃ sf ∈ (demoDualRun.world.clouds 0).scalarFields,
          sf.name = demoDual.cloud2Label ++ "." ++ field2.name ++ "_"
            ++ StatToString demoDual.stat ++ "@" ++ scaleText demoNumerics demoDual.scale) ↔
        (∃ sf ∈ (demoWorld.clouds 0).scalarFields,
          sf.name = demoDual.cloud2Label ++ "." ++ field2.name ++ "_"
            ++ StatToString demoDual.stat ++ "@" ++ scaleText demoNumerics demoDual.scale)) ∧
      ∃ sf ∈ (demoDualRun.world.clouds 0).scalarFields,
        sf.name = demoDualRun.feature.sourceName :=
  ⟨demoDualRun_eq.2, prepare_scaled_transient (demoEnv true) demoNumerics demoDual demoWorld
    demoCorePoints 0 "" demoCallback demoDualRun rfl rfl (by decide) (by decide)
    demoDualRun_eq.1 demoDualRun_eq.2⟩

end TransientFieldWitnesses

/-! ### The absent callback, the origin indices and the scales that are not positive -/

section LastClaims

variable {α : Type} [LinearOrderedField α]

/-- A scale that is not positive makes `ExtractStat` return no field at once. -/
theorem ExtractStat_nonpositive (E : Env α) (N : Numerics α) (w : World α) (cp : CorePoints)
    (src : Option Nat) (field : Option FieldWrapper) (scale : Val α) (stat : Stat)
    (name : Option String) (cb : Option (Nat → Bool))
    (hle : Val.le scale (Val.num 0) = true) :
    ExtractStat E N w cp src field scale stat name cb = Run.done (none, w) := by
  unfold ExtractStat
  cases cp.cloud <;> cases src <;> cases field <;> cases name <;> simp [hle]

/-- C23 (amended): for every PointFeature descriptor whose scale is finite and not positive,
`PointFeature::prepare` returns false and leaves the whole state as it was, so no field is
attached to the core-points cloud; and when its statistic and `cloud1` are set,
`Feature::checkValidity` accepts it exactly when it has no operation or has a second
cloud. -/
theorem prepare_nonpositive_scale (E : Env α) (N : Numerics α) (pf : PointFeature α)
    (w : World α) (cp : CorePoints) (error : String) (cb : Option (Nat → Bool)) (s : α)
    (hs : pf.scale = Val.num s) (hle : s ≤ 0) :
    (∃ r, pf.prepare E N w cp error cb = Run.done r ∧ r.ok = false ∧ r.world = w) ∧
    (pf.getType = FeatureType.PointFeature → pf.stat ≠ Stat.NO_STAT → pf.cloud1 ≠ none →
      ((pf.checkValidity error).1 = true ↔
        (pf.op = Operation.NO_OPERATION ∨ pf.cloud2 ≠ none))) := by
  have hscaled : pf.scaled = true := by
    simp [Feature.scaled, hs, Val.isfinite]
  have hval : Val.le pf.scale (Val.num 0) = true := by
    simp [hs, Val.le, hle]
  refine ⟨?_, ?_⟩
  · have hst : ∀ coreId field1 f2 e, ∃ r,
        pf.prepareStats E N w cp coreId field1 f2 e cb = Run.done r ∧ r.ok = false ∧
          r.world = w := by
      intro coreId field1 f2 e
      unfold PointFeature.prepareStats
      rw [ExtractStat_nonpositive E N w cp _ _ _ _ _ cb hval]
      exact ⟨_, rfl, rfl, rfl⟩
    unfold PointFeature.prepare
    cases pf.cloud1 with
    | none => exact ⟨_, rfl, rfl, rfl⟩
    | some c1 =>
      cases cp.cloud with
      | none => exact ⟨_, rfl, rfl, rfl⟩
      | some coreId =>
        simp only
        cases pf.retrieveField E w (some c1) error with
        | mk fw e1 =>
          cases fw with
          | none => exact ⟨_, rfl, rfl, rfl⟩
          | some field1 =>
            simp only
            rw [if_pos hscaled]
            unfold PointFeature.prepareScaled
            by_cases hstat : pf.stat = Stat.NO_STAT
            · rw [if_pos hstat]
              exact ⟨_, rfl, rfl, rfl⟩
            · rw [if_neg hstat]
              by_cases hcond : pf.cloud2.isSome = true ∧ pf.op ≠ Operation.NO_OPERATION
              · rw [if_pos hcond]
                cases pf.retrieveField E w pf.cloud2 e1 with
                | mk fw2 e2 =>
                  cases fw2 with
                  | none => exact ⟨_, rfl, rfl, rfl⟩
                  | some field2 => exact hst coreId field1 (some field2) e2
              · rw [if_neg hcond]
                exact hst coreId field1 none e1
  · intro hty hstat hc1
    obtain ⟨c1, hc1⟩ := Option.ne_none_iff_exists'.1 hc1
    unfold Feature.checkValidity
    cases hc2 : pf.cloud2 with
    | none =>
      cases hop : pf.op <;> simp [hscaled, hty, hc1, hstat]
    | some c2 =>
      cases hop : pf.op <;> simp [hscaled, hty, hc1, hstat]

end LastClaims

section LastClaimsWitnesses

theorem prepare_nonpositive_scale_witness :
    (∃ r, demoZeroScale.prepare (demoEnv true) demoNumerics demoWorld demoCorePoints ""
        demoCallback = Run.done r ∧ r.ok = false ∧ r.world = demoWorld) ∧
    (demoZeroScale.checkValidity "").1 = true :=
  ⟨(prepare_nonpositive_scale (demoEnv true) demoNumerics demoZeroScale demoWorld
      demoCorePoints "" demoCallback 0 rfl (le_refl 0)).1,
    ((prepare_nonpositive_scale (demoEnv true) demoNumerics demoZeroScale demoWorld
      demoCorePoints "" demoCallback 0 rfl (le_refl 0)).2 rfl (by decide) (by decide)).2
      (Or.inl rfl)⟩

/-- C23, as stated, fails: the descriptor `demoZeroScaleOp` has the finite scale `0`, a
statistic and `cloud1`, and `checkValidity` rejects it, for its operation without second
cloud. -/
theorem prepare_nonpositive_scale_counterexample :
    demoZeroScaleOp.scale = Val.num 0 ∧ demoZeroScaleOp.scaled = true ∧
    demoZeroScaleOp.stat = Stat.MEAN ∧ demoZeroScaleOp.cloud1 = some 1 ∧
    demoZeroScaleOp.checkValidity ""
      = (false, "at least two clouds are required to apply math operations") :=
  ⟨rfl, rfl, rfl, rfl, rfl⟩

/-- C21 fails on the code: without callback the scaled `demoScaled` makes `ExtractStat`
dereference the absent callback (line 365), whatever the state the loop is entered in,
while the same call with a callback that never cancels completes and succeeds. -/
theorem prepare_without_callback :
    demoScaled.scaled = true ∧
    demoScaled.prepare (demoEnv true) demoNumerics demoWorld demoCorePoints "" none
      = Run.fault ∧
    (∃ r, demoScaled.prepare (demoEnv true) demoNumerics demoWorld demoCorePoints ""
      (some (fun _ => false)) = Run.done r ∧ r.ok = true) ∧
    (∀ (cp : CorePoints) (coreId : Nat) (oct : DgmOctree ℚ) (stat : Stat) (fw : FieldWrapper)
      (scale : Val ℚ) (w : World ℚ) (rsf : ResultSF ℚ),
      extractStatRun demoNumerics none cp coreId oct stat fw scale w rsf = Run.fault) := by
  have h20 : ¬ ((2 : ℚ) ≤ 0) := by norm_num
  refine ⟨rfl, ?_, ⟨demoScaledRun, demoScaledRun_eq.1, demoScaledRun_eq.2⟩, fun _ _ _ _ _ _ _ _ => rfl⟩
  simp [h20, PointFeature.prepare, demoScaled, demoUnscaled, demoCorePoints,
    PointFeature.retrieveField, Feature.scaled, Val.isfinite, PointFeature.prepareScaled,
    PointFeature.prepareStats, ExtractStat, Val.le, demoWorld, demoCloud,
    ccPointCloud.getScalarFieldIndexByName, findSF, demoEnv, extractStatRun]

/-- C22 fails on the code: the core points of `demoSubCorePoints` satisfy their invariant
and the unscaled `demoOnCore` is defined on the core cloud, which is accepted and is not
the origin cloud; the origin index `1` of the core point `0` is not an index of the core
cloud, and the copy loop reads the source there. -/
theorem prepare_unscaled_origin_index :
    demoOnCore.scaled = false ∧
    demoOnCore.cloud1 = demoSubCorePoints.cloud ∧
    demoOnCore.cloud1 ≠ demoSubCorePoints.origin ∧
    (∀ i, i < demoSubCorePoints.size →
      demoSubCorePoints.originIndex i < (demoWorldSub.clouds 1).size) ∧
    demoSubCorePoints.originIndex 0 = 1 ∧ (demoWorldSub.clouds 0).size = 1 ∧
    ¬ (demoSubCorePoints.originIndex 0 < (demoWorldSub.clouds 0).size) ∧
    (demoOnCore.retrieveField (demoEnv true) demoWorldSub demoOnCore.cloud1 "").1
      = some ⟨"X", WrapperSource.dimension 0 Dim.DimX⟩ ∧
    (⟨"X", WrapperSource.dimension 0 Dim.DimX⟩ : FieldWrapper).pointValue? demoWorldSub
      (demoSubCorePoints.originIndex 0) = none ∧
    demoOnCore.prepare (demoEnv true) demoNumerics demoWorldSub demoSubCorePoints "" none
      = Run.fault :=
  ⟨rfl, rfl, by decide, by decide, rfl, rfl, by decide, rfl, rfl, rfl⟩

end LastClaimsWitnesses

/-! ### Neighbour values that are not finite numbers -/

section NotFinite

/-- C2, as stated, fails: with the single neighbour value NaN, or the single neighbour value
`+∞`, the RANGE statistic outputs NaN, not `0`; and the values NaN, `1`, `5` give NaN or `4`
according to their order, so the output is not the difference of the greatest and the
least value of the list. -/
theorem ExtractStatFromSF_RANGE_counterexample :
    ExtractStatFromSF demoNumerics ⟨0, 0, 0⟩ (some (demoOctree 1)) 0 Stat.RANGE
        (demoValField [Val.nan]) (Val.num 1) (Val.num 0) = (true, Val.nan) ∧
    ExtractStatFromSF demoNumerics ⟨0, 0, 0⟩ (some (demoOctree 1)) 0 Stat.RANGE
        (demoValField [Val.pinf]) (Val.num 1) (Val.num 0) = (true, Val.nan) ∧
    ((true, Val.nan) : Bool × Val ℚ) ≠ (true, Val.num 0) ∧
    ExtractStatFromSF demoNumerics ⟨0, 0, 0⟩ (some (demoOctree 3)) 0 Stat.RANGE
        (demoValField [Val.nan, Val.num 1, Val.num 5]) (Val.num 1) (Val.num 0)
      = (true, Val.nan) ∧
    ExtractStatFromSF demoNumerics ⟨0, 0, 0⟩ (some (demoOctree 3)) 0 Stat.RANGE
        (demoValField [Val.num 1, Val.nan, Val.num 5]) (Val.num 1) (Val.num 0)
      = (true, Val.num 4) := by
  refine ⟨rfl, rfl, by simp, rfl, ?_⟩
  simp [ExtractStatFromSF, demoOctree, demoValField, List.range_succ, rangeLoop, Val.gt]
  norm_num

end NotFinite

end masc
